import Mathlib

/-! StatsCPP: online statistics accumulators (`shk_stats.h`, `shk_stats.cpp`)

A shallow embedding of the two accumulator classes `Stats` and `TStats`.

Modelling conventions
* `double` and `float` are modelled by exact rational arithmetic (`ℚ`): no rounding,
  no infinities, no NaN; a literal stands for its decimal value.  `sqrt` is taken as a
  parameter where the source calls it.
* `unsigned` is modelled by `Nat` with explicit reduction modulo `2^32`
  (`UINT_MOD`), the wrap-around behaviour the language defines for it.
* `int` is modelled by `Int`.  Signed overflow and out-of-bounds array accesses
  are undefined behaviour in C++ and have no counterpart in the model: an array
  write at an index outside the list leaves the list as it is.
* `exit(1)` is modelled by an explicit result: `none` for the value-returning
  queries, `Outcome.exited s` (with `s` the object at the moment of the exit)
  for the mutating call `TStats::takeSample`.
-/

namespace shk

/-- Number of values of the C++ type `unsigned` (32 bits): arithmetic on it is modulo this. -/
def UINT_MOD : Nat := 4294967296

/-- The constant `DBL_MAX` of `float.h`, the largest finite `double`. -/
def DBL_MAX : ℚ := 2 ^ 1024 - 2 ^ 971

/-- The C++ conversion `(int) q` of a `double`: truncation toward zero. -/
def toInt (q : ℚ) : Int := if 0 ≤ q then ⌊q⌋ else ⌈q⌉

/-- The statement `histogram[i]++` on an `unsigned` array. -/
def incrAt : List Nat → Nat → List Nat
  | [], _ => []
  | v :: h, 0 => ((v + 1) % UINT_MOD) :: h
  | v :: h, i + 1 => v :: incrAt h i

/-- The statement `histogram[i] += d` on a `double` array. -/
def addAt : List ℚ → Nat → ℚ → List ℚ
  | [], _, _ => []
  | v :: h, 0, d => (v + d) :: h
  | v :: h, i + 1, d => v :: addAt h i d

/-- The loop `for (int i=0; i < n; i++) histogram[i] = z;` of the two reset functions. -/
def fillLoop {α : Type} (z : α) (n : Int) (histogram : List α) : List α :=
  (List.range n.toNat).foldl (fun h i => h.set i z) histogram

/-- The index of the bin that the histogram branch of `takeSample` (in both classes) updates
for the sample `x`, with the members `lo`, `hi`, `nbin`, `bin` of the object. -/
def binIndex (lo hi : ℚ) (nbin : Int) (bin : ℚ) (x : ℚ) : Nat :=
  if x < lo then 0
  else if x > hi then (nbin + 1).toNat
  else (toInt ((x - lo) / bin) + 1).toNat

/-! ## class Stats -/

/-- The data members of `class Stats`. -/
structure Stats where
  /-- sample count (`unsigned`) -/
  count : Nat
  /-- sample sum -/
  sum : ℚ
  /-- sum of square of samples -/
  sumsq : ℚ
  /-- min of samples -/
  min : ℚ
  /-- max of samples -/
  max : ℚ
  /-- histogram is calculated if histo=true -/
  histo : Bool
  /-- number of bins in histogram -/
  nbin : Int
  /-- size of a bin in histogram -/
  bin : ℚ
  /-- lower bound of histogram -/
  lo : ℚ
  /-- higher bound of histogram -/
  hi : ℚ
  /-- array of histogram bins (`unsigned*`) -/
  histogram : List Nat
deriving DecidableEq

/-- Source function `Stats::resetStats`. -/
def Stats.resetStats (s : Stats) : Stats :=
  { s with
    count := 0
    sum := 0
    sumsq := 0
    min := DBL_MAX
    max := -DBL_MAX
    histogram := if s.histo then fillLoop 0 (s.nbin + 2) s.histogram else s.histogram }

/-- Source constructor `Stats::Stats(void)`: the members the constructor does not assign keep the
indeterminate content `mem` of the storage the object is built in. -/
def Stats.Stats_void (mem : Stats) : Stats :=
  Stats.resetStats { mem with histo := false }

/-- The member assignments of `Stats::Stats(double low, double high, int bins)` that precede
its call of `resetStats`.  The statistics members are not assigned yet and the content of the
array obtained from `new unsigned[nbin+2]` is indeterminate; both are taken as zero here and
are overwritten by `resetStats`. -/
def Stats.Stats_histo_init (low high : ℚ) (bins : Int) : Stats :=
  { count := 0, sum := 0, sumsq := 0, min := 0, max := 0
    histo := true
    lo := low
    hi := high
    nbin := bins
    bin := (high - low) / bins
    histogram := List.replicate (bins + 2).toNat 0 }

/-- Source constructor `Stats::Stats(double low, double high, int bins)`; `none` is the
`exit(1)` of the input check. -/
def Stats.Stats_histo (low high : ℚ) (bins : Int) : Option Stats :=
  if ¬ (low < high ∧ bins > 0) then none
  else some (Stats.resetStats (Stats.Stats_histo_init low high bins))

/-- Storage filled with zero bytes, as a static object has before its constructor runs. -/
def Stats.blank : Stats :=
  { count := 0, sum := 0, sumsq := 0, min := 0, max := 0, histo := false, nbin := 0, bin := 0,
    lo := 0, hi := 0, histogram := [] }

/-- Source function `Stats::takeSample`. -/
def Stats.takeSample (s : Stats) (x : ℚ) : Stats :=
  let s1 : Stats := { s with count := (s.count + 1) % UINT_MOD, sum := s.sum + x,
                             sumsq := s.sumsq + x * x }
  let s2 : Stats := if x < s1.min then { s1 with min := x } else s1
  let s3 : Stats := if x > s2.max then { s2 with max := x } else s2
  if s3.histo then
    if x < s3.lo then { s3 with histogram := incrAt s3.histogram 0 }
    else if x > s3.hi then { s3 with histogram := incrAt s3.histogram (s3.nbin + 1).toNat }
    else
      let i : Int := toInt ((x - s3.lo) / s3.bin) + 1
      { s3 with histogram := incrAt s3.histogram i.toNat }
  else s3

/-- Source function `Stats::getCount`. -/
def Stats.getCount (s : Stats) : Nat := s.count

/-- Source function `Stats::calcMin`. -/
def Stats.calcMin (s : Stats) : ℚ := s.min

/-- Source function `Stats::calcMax`. -/
def Stats.calcMax (s : Stats) : ℚ := s.max

/-- Source function `Stats::calcMean`; `none` is the `exit(1)` of the sample-count check. -/
def Stats.calcMean (s : Stats) : Option ℚ :=
  if s.count < 1 then none else some (s.sum / s.count)

/-- Source function `Stats::calcVariance`; `none` is the `exit(1)` of the sample-count check.
`count-1` is `unsigned` subtraction, which does not wrap since `count ≥ 2` there. -/
def Stats.calcVariance (s : Stats) : Option ℚ :=
  if s.count < 2 then none
  else some ((s.sumsq - (s.sum * s.sum) / s.count) / ((s.count - 1 : Nat) : ℚ))

/-- Source function `Stats::calcStDev`, with the library function `sqrt` as a parameter. -/
def Stats.calcStDev (sqrt : ℚ → ℚ) (s : Stats) : Option ℚ :=
  (Stats.calcVariance s).map sqrt

/-- The histogram members of an object are those the constructor call with arguments
`low`, `high`, `bins` sets up. -/
def Stats.Configured (low high : ℚ) (bins : Int) (s : Stats) : Prop :=
  s.histo = true ∧ s.lo = low ∧ s.hi = high ∧ s.nbin = bins ∧ s.bin = (high - low) / bins ∧
    s.histogram.length = (bins + 2).toNat

instance (low high : ℚ) (bins : Int) (s : Stats) : Decidable (Stats.Configured low high bins s) := by
  unfold Stats.Configured
  infer_instance

/-- Feeding the samples `xs` one by one with `takeSample`. -/
def Stats.feed (s : Stats) (xs : List ℚ) : Stats :=
  xs.foldl Stats.takeSample s

/-- A call on a `Stats` object: `takeSample(x)` or `resetStats()`. -/
inductive StatsCall where
  | takeSample (x : ℚ)
  | resetStats
deriving DecidableEq

/-- The effect of one call. -/
def Stats.call (s : Stats) : StatsCall → Stats
  | .takeSample x => s.takeSample x
  | .resetStats => s.resetStats

/-- The effect of a sequence of calls. -/
def Stats.run (s : Stats) (cs : List StatsCall) : Stats :=
  cs.foldl Stats.call s

/-- Number of `takeSample` calls since the last `resetStats` of a call sequence
that starts with `k` samples taken. -/
def samplesSinceReset (k : Nat) (cs : List StatsCall) : Nat :=
  cs.foldl (fun n c => match c with
    | .takeSample _ => n + 1
    | .resetStats => 0) k

/-! ## class TStats -/

/-- Result of a call that can reach `exit(1)`: either the call returned, leaving the
object in state `s`, or the process exited while the object was in state `s`. -/
inductive Outcome (σ : Type) where
  | returned (s : σ)
  | exited (s : σ)
deriving DecidableEq

/-- The object after the call, whether the call returned or not. -/
def Outcome.state {σ : Type} : Outcome σ → σ
  | .returned s => s
  | .exited s => s

/-- Whether the call returned. -/
def Outcome.ok {σ : Type} : Outcome σ → Bool
  | .returned _ => true
  | .exited _ => false

/-- The data members of `class TStats`. -/
structure TStats where
  /-- sampling time of most recent sample -/
  tnow : ℚ
  /-- time integral of stochastic process -/
  sum : ℚ
  /-- time integral of square of stochastic process -/
  sumsq : ℚ
  /-- min of samples -/
  min : ℚ
  /-- max of samples -/
  max : ℚ
  /-- histogram is calculated if histo=true -/
  histo : Bool
  /-- number of bins in histogram -/
  nbin : Int
  /-- size of a bin in histogram -/
  bin : ℚ
  /-- lower bound of histogram -/
  lo : ℚ
  /-- higher bound of histogram -/
  hi : ℚ
  /-- array of histogram bins (`double*`) -/
  histogram : List ℚ
deriving DecidableEq

/-- Source function `TStats::resetTStats`. -/
def TStats.resetTStats (s : TStats) : TStats :=
  { s with
    tnow := 0
    sum := 0
    sumsq := 0
    min := DBL_MAX
    max := -DBL_MAX
    histogram := if s.histo then fillLoop 0 (s.nbin + 2) s.histogram else s.histogram }

/-- Source constructor `TStats::TStats(void)`: the members the constructor does not assign
keep the indeterminate content `mem` of the storage the object is built in. -/
def TStats.TStats_void (mem : TStats) : TStats :=
  TStats.resetTStats { mem with histo := false }

/-- The member assignments of `TStats::TStats(double low, double high, int bins)` that
precede its call of `resetTStats`.  The statistics members are not assigned yet and the
content of the array obtained from `new double[nbin+2]` is indeterminate; both are taken as
zero here and are overwritten by `resetTStats`. -/
def TStats.TStats_histo_init (low high : ℚ) (bins : Int) : TStats :=
  { tnow := 0, sum := 0, sumsq := 0, min := 0, max := 0
    histo := true
    lo := low
    hi := high
    nbin := bins
    bin := (high - low) / bins
    histogram := List.replicate (bins + 2).toNat 0 }

/-- Source constructor `TStats::TStats(double low, double high, int bins)`; `none` is the
`exit(1)` of the input check. -/
def TStats.TStats_histo (low high : ℚ) (bins : Int) : Option TStats :=
  if ¬ (low < high ∧ bins > 0) then none
  else some (TStats.resetTStats (TStats.TStats_histo_init low high bins))

/-- Storage filled with zero bytes, as a static object has before its constructor runs. -/
def TStats.blank : TStats :=
  { tnow := 0, sum := 0, sumsq := 0, min := 0, max := 0, histo := false, nbin := 0, bin := 0,
    lo := 0, hi := 0, histogram := [] }

/-- Source function `TStats::takeSample`. -/
def TStats.takeSample (s : TStats) (x tx : ℚ) : Outcome TStats :=
  let tdiff : ℚ := tx - s.tnow
  if tdiff ≤ 0 then Outcome.exited s
  else
    let s1 : TStats := { s with tnow := tx, sum := s.sum + x * tdiff,
                                sumsq := s.sumsq + x * x * tdiff }
    let s2 : TStats := if x < s1.min then { s1 with min := x } else s1
    let s3 : TStats := if x > s2.max then { s2 with max := x } else s2
    if s3.histo then
      if x < s3.lo then Outcome.returned { s3 with histogram := addAt s3.histogram 0 tdiff }
      else if x > s3.hi then
        Outcome.returned { s3 with histogram := addAt s3.histogram (s3.nbin + 1).toNat tdiff }
      else
        let i : Int := toInt ((x - s3.lo) / s3.bin) + 1
        Outcome.returned { s3 with histogram := addAt s3.histogram i.toNat tdiff }
    else Outcome.returned s3

/-- Source function `TStats::getTime`. -/
def TStats.getTime (s : TStats) : ℚ := s.tnow

/-- Source function `TStats::calcMin`. -/
def TStats.calcMin (s : TStats) : ℚ := s.min

/-- Source function `TStats::calcMax`. -/
def TStats.calcMax (s : TStats) : ℚ := s.max

/-- Source function `TStats::calcMean`; `none` is the `exit(1)` of the no-samples check. -/
def TStats.calcMean (s : TStats) : Option ℚ :=
  if s.tnow ≤ 0 then none else some (s.sum / s.tnow)

/-- Source function `TStats::calcStDev`, with the library function `sqrt` as a parameter;
`none` is the `exit(1)` of the no-samples check. -/
def TStats.calcStDev (sqrt : ℚ → ℚ) (s : TStats) : Option ℚ :=
  if s.tnow ≤ 0 then none
  else
    let ave : ℚ := s.sum / s.tnow
    let var : ℚ := (s.sumsq / s.tnow) - (ave * ave)
    some (sqrt var)

/-- The histogram members of an object are those the constructor call with arguments
`low`, `high`, `bins` sets up. -/
def TStats.Configured (low high : ℚ) (bins : Int) (s : TStats) : Prop :=
  s.histo = true ∧ s.lo = low ∧ s.hi = high ∧ s.nbin = bins ∧ s.bin = (high - low) / bins ∧
    s.histogram.length = (bins + 2).toNat

instance (low high : ℚ) (bins : Int) (s : TStats) :
    Decidable (TStats.Configured low high bins s) := by
  unfold TStats.Configured
  infer_instance

/-- Feeding the samples `(x, tx)` one by one with `takeSample`, as the loop of the test
program does; the first call that exits ends the run. -/
def TStats.feed : TStats → List (ℚ × ℚ) → Outcome TStats
  | s, [] => Outcome.returned s
  | s, (x, tx) :: rest =>
    match s.takeSample x tx with
    | Outcome.returned s1 => TStats.feed s1 rest
    | Outcome.exited s1 => Outcome.exited s1

/-- A call on a `TStats` object: `takeSample(x, tx)` or `resetTStats()`. -/
inductive TStatsCall where
  | takeSample (x tx : ℚ)
  | resetTStats
deriving DecidableEq

/-- The object after one call; a `takeSample` that fails leaves the object in the state
it had at the failure. -/
def TStats.call (s : TStats) : TStatsCall → TStats
  | .takeSample x tx => (s.takeSample x tx).state
  | .resetTStats => s.resetTStats

/-- The object after a sequence of calls. -/
def TStats.run (s : TStats) (cs : List TStatsCall) : TStats :=
  cs.foldl TStats.call s

/-- The values that the `takeSample` calls of a sequence of samples `(x, tx)` accept, a
rejected call leaving the object as it was. -/
def TStats.accepted (s : TStats) : List (ℚ × ℚ) → List ℚ
  | [] => []
  | (x, tx) :: rest =>
    match s.takeSample x tx with
    | Outcome.returned s1 => x :: TStats.accepted s1 rest
    | Outcome.exited s1 => TStats.accepted s1 rest

/-- Number of `takeSample` calls accepted since the last `resetTStats` of a call sequence
made on the object `s`, which has accepted `k` samples so far. -/
def TStats.acceptedSinceReset (s : TStats) (k : Nat) : List TStatsCall → Nat
  | [] => k
  | TStatsCall.takeSample x tx :: cs =>
    match s.takeSample x tx with
    | Outcome.returned s1 => TStats.acceptedSinceReset s1 (k + 1) cs
    | Outcome.exited s1 => TStats.acceptedSinceReset s1 k cs
  | TStatsCall.resetTStats :: cs => TStats.acceptedSinceReset s.resetTStats 0 cs

/-! ## The function calcErrorMargin -/

/-- The entries of the array `ZTable` of `shk_stats.h`, each a literal with five decimals,
as numerators over 100000, row by row. -/
def ZTableNum : List Nat :=
  [50000, 50399, 50798, 51197, 51595, 51994, 52392, 52790, 53188, 53586,
   53983, 54380, 54776, 55172, 55567, 55962, 56356, 56749, 57142, 57535,
   57926, 58317, 58706, 59095, 59483, 59871, 60257, 60642, 61026, 61409,
   61791, 62172, 62552, 62930, 63307, 63683, 64058, 64431, 64803, 65173,
   65542, 65910, 66276, 66640, 67003, 67364, 67724, 68082, 68439, 68793,
   69146, 69497, 69847, 70194, 70540, 70884, 71226, 71566, 71904, 72240,
   72575, 72907, 73237, 73565, 73891, 74215, 74537, 74857, 75175, 75490,
   75804, 76115, 76424, 76730, 77035, 77337, 77637, 77935, 78230, 78524,
   78814, 79103, 79389, 79673, 79955, 80234, 80511, 80785, 81057, 81327,
   81594, 81859, 82121, 82381, 82639, 82894, 83147, 83398, 83646, 83891,
   84134, 84375, 84614, 84849, 85083, 85314, 85543, 85769, 85993, 86214,
   86433, 86650, 86864, 87076, 87286, 87493, 87698, 87900, 88100, 88298,
   88493, 88686, 88877, 89065, 89251, 89435, 89617, 89796, 89973, 90147,
   90320, 90490, 90658, 90824, 90988, 91149, 91309, 91466, 91621, 91774,
   91924, 92073, 92220, 92364, 92507, 92647, 92785, 92922, 93056, 93189,
   93319, 93448, 93574, 93699, 93822, 93943, 94062, 94179, 94295, 94408,
   94520, 94630, 94738, 94845, 94950, 95053, 95154, 95254, 95352, 95449,
   95543, 95637, 95728, 95818, 95907, 95994, 96080, 96164, 96246, 96327,
   96407, 96485, 96562, 96638, 96712, 96784, 96856, 96926, 96995, 97062,
   97128, 97193, 97257, 97320, 97381, 97441, 97500, 97558, 97615, 97670,
   97725, 97778, 97831, 97882, 97932, 97982, 98030, 98077, 98124, 98169,
   98214, 98257, 98300, 98341, 98382, 98422, 98461, 98500, 98537, 98574,
   98610, 98645, 98679, 98713, 98745, 98778, 98809, 98840, 98870, 98899,
   98928, 98956, 98983, 99010, 99036, 99061, 99086, 99111, 99134, 99158,
   99180, 99202, 99224, 99245, 99266, 99286, 99305, 99324, 99343, 99361,
   99379, 99396, 99413, 99430, 99446, 99461, 99477, 99492, 99506, 99520,
   99534, 99547, 99560, 99573, 99585, 99598, 99609, 99621, 99632, 99643,
   99653, 99664, 99674, 99683, 99693, 99702, 99711, 99720, 99728, 99736,
   99744, 99752, 99760, 99767, 99774, 99781, 99788, 99795, 99801, 99807,
   99813, 99819, 99825, 99831, 99836, 99841, 99846, 99851, 99856, 99861,
   99865, 99869, 99874, 99878, 99882, 99886, 99889, 99893, 99896, 99900,
   99903, 99906, 99910, 99913, 99916, 99918, 99921, 99924, 99926, 99929,
   99931, 99934, 99936, 99938, 99940, 99942, 99944, 99946, 99948, 99950,
   99952, 99953, 99955, 99957, 99958, 99960, 99961, 99962, 99964, 99965,
   99966, 99968, 99969, 99970, 99971, 99972, 99973, 99974, 99975, 99976,
   99977, 99978, 99978, 99979, 99980, 99981, 99981, 99982, 99983, 99983,
   99984, 99985, 99985, 99986, 99986, 99987, 99987, 99988, 99988, 99989,
   99989, 99990, 99990, 99990, 99991, 99991, 99992, 99992, 99992, 99992,
   99993, 99993, 99993, 99994, 99994, 99994, 99994, 99995, 99995, 99995,
   99995, 99995, 99996, 99996, 99996, 99996, 99996, 99996, 99997, 99997]

/-- The array `ZTable` of `shk_stats.h`. -/
def ZTable : List ℚ := ZTableNum.map (fun (n : Nat) => (n : ℚ) / 100000)

/-- The loop `for (...; i < steps; i++) { if ((ZTable[i] - 0.5) > (confidence_level/2.0))
break; }` of `calcErrorMargin`, entered with the value `i`; the result is the value of `i`
after the loop. -/
def scanLoop (steps : Nat) (confidence_level : ℚ) (i : Nat) : Nat :=
  if i < steps then
    if (ZTable.getD i 0 - 0.5) > (confidence_level / 2.0) then i
    else scanLoop steps confidence_level (i + 1)
  else i
termination_by steps - i

/-- The indices at which the same loop, entered with the value `i`, reads `ZTable`, in the
order of the reads: every evaluation of the condition reads `ZTable[i]` once. -/
def scanReads (steps : Nat) (confidence_level : ℚ) (i : Nat) : List Nat :=
  if i < steps then
    if (ZTable.getD i 0 - 0.5) > (confidence_level / 2.0) then [i]
    else i :: scanReads steps confidence_level (i + 1)
  else []
termination_by steps - i

/-- Source function `calcErrorMargin`, with the library function `sqrt` as a parameter; the
`float` parameter and the `float` local variables are exact rationals like the `double`
ones; `none` is the `exit(1)` of the confidence-level check. -/
def calcErrorMargin (sqrt : ℚ → ℚ) (stdev : ℚ) (count : Int) (confidence_level : ℚ) :
    Option ℚ :=
  let zmax : ℚ := 4.0
  let steps : Nat := 400
  if ¬ ((confidence_level > 0.1) ∧ (confidence_level < 1.0)) then none
  else
    let i : Nat := scanLoop steps confidence_level 1
    let z : ℚ := i * (zmax / steps)
    some (z * stdev / sqrt count)

/-- The value of type `float` nearest to 0.95: what the `float` parameter
`confidence_level` holds when the call is written with the literal 0.95. -/
def float_0_95 : ℚ := 15938355 / 16777216

/-! ## The test programs -/

/-- The object `X(0.,100.,10)` of `shk_stats_test.cpp`. -/
def statsTestX : Option Stats := Stats.Stats_histo 0 100 10

/-- The object `X(0.,100.,10)` of `shk_tstats_test.cpp`. -/
def tstatsTestX : Option TStats := TStats.TStats_histo 0 100 10

/-- Data set `A` of `shk_stats_test.cpp`. -/
def statsTestA : List ℚ :=
  [88, 12, 0, 34, 77, 95, 12, 2, 99, 6, 88, 45, 76, 46, 3, 12]

/-- Data set `A` of `shk_tstats_test.cpp`. -/
def tstatsTestA : List ℚ :=
  [88, 12, 63, 34, 77, 95, 12, 2, 99, 6, 88, 45, 76, 46, 3, 12]

/-- Sampling times `T` of `shk_tstats_test.cpp`. -/
def tstatsTestT : List ℚ :=
  [1, 1.5, 3.3, 6, 7.2, 8.5, 9, 11.6, 13.25, 16.1, 41, 59, 66.6, 78, 147, 192.5]

/-! ## Reference quantities of the specification -/

/-- Two-pass unbiased sample variance: with `m` the mean of `xs`, the sum of `(x - m)^2`
divided by `n - 1`. -/
def twoPassVariance (xs : List ℚ) : ℚ :=
  let n : ℚ := xs.length
  let m : ℚ := xs.sum / n
  (xs.map (fun x => (x - m) ^ 2)).sum / (n - 1)

/-- The binning rule of the specification for bounds `lo`, `hi` and `nbin` bins of width
`(hi - lo) / nbin`: `k` is the bin of `x`. -/
def SpecBin (lo hi : ℚ) (nbin : Int) (x : ℚ) (k : Nat) : Prop :=
  (x < lo ∧ k = 0) ∨ (x ≥ hi ∧ (k : Int) = nbin + 1) ∨
  ∃ j : Int, 0 ≤ j ∧ j < nbin ∧ lo + j * ((hi - lo) / nbin) ≤ x ∧
    x < lo + (j + 1) * ((hi - lo) / nbin) ∧ (k : Int) = j + 1

/-- Time integral of the piecewise-constant process in which each value `x` holds over the
interval that ends at its timestamp: the sum of `x_i * (t_i - t_{i-1})`, with `t0` the
time before the first sample. -/
def precedingIntegral : ℚ → List (ℚ × ℚ) → ℚ
  | _, [] => 0
  | t0, (x, tx) :: rest => x * (tx - t0) + precedingIntegral tx rest

/-- Time integral in which each value is weighted by the time until the next sample; the
last value gets no weight: the sum of `x_i * (t_{i+1} - t_i)`. -/
def followingIntegral : List (ℚ × ℚ) → ℚ
  | (x, tx) :: (y, ty) :: rest => x * (ty - tx) + followingIntegral ((y, ty) :: rest)
  | _ => 0

/-- Time-weighted sum of squared deviations from `m`: the sum of
`(t_i - t_{i-1}) * (x_i - m)^2`. -/
def weightedSqDev (m : ℚ) : ℚ → List (ℚ × ℚ) → ℚ
  | _, [] => 0
  | t0, (x, tx) :: rest => (tx - t0) * (x - m) ^ 2 + weightedSqDev m tx rest

/-- Timestamp of the last sample, `t0` when there is none. -/
def lastTime : ℚ → List (ℚ × ℚ) → ℚ
  | t0, [] => t0
  | _, (_, tx) :: rest => lastTime tx rest

/-- The index `i` is the smallest index of `ZTable` with `ZTable[i] - 0.5 > c / 2`. -/
def FirstIndexAbove (c : ℚ) (i : Nat) : Prop :=
  i < ZTable.length ∧ ZTable.getD i 0 - 0.5 > c / 2 ∧
    ∀ j, j < i → ¬ (ZTable.getD j 0 - 0.5 > c / 2)

/-- The timestamps are strictly increasing and all above `t0`. -/
def Increasing (t0 : ℚ) (samples : List (ℚ × ℚ)) : Prop :=
  List.Chain (fun a b => a < b) t0 (samples.map Prod.snd)

instance (t0 : ℚ) (samples : List (ℚ × ℚ)) : Decidable (Increasing t0 samples) := by
  unfold Increasing
  infer_instance

/-! # Theorems -/

/-! ## Arrays and the bin index -/

theorem incrAt_length (h : List Nat) : ∀ i, (incrAt h i).length = h.length := by
  induction h with
  | nil => intro i; rfl
  | cons v h ih => intro i; cases i with
    | zero => rfl
    | succ i => simp [incrAt, ih]

theorem addAt_length (h : List ℚ) : ∀ i d, (addAt h i d).length = h.length := by
  induction h with
  | nil => intro i d; rfl
  | cons v h ih => intro i d; cases i with
    | zero => rfl
    | succ i => simp [addAt, ih]

theorem addAt_sum (h : List ℚ) : ∀ i d, i < h.length → (addAt h i d).sum = h.sum + d := by
  induction h with
  | nil => intro i d hi; simp at hi
  | cons v h ih => intro i d hi; cases i with
    | zero => simp [addAt]; ring
    | succ i =>
      have := ih i d (by simpa using hi)
      simp [addAt, this]; ring

theorem incrAt_sum (h : List Nat) : ∀ i, i < h.length → h.sum + 1 < UINT_MOD →
    (incrAt h i).sum = h.sum + 1 := by
  induction h with
  | nil => intro i hi; simp at hi
  | cons v h ih => intro i hi hs; cases i with
    | zero =>
      simp only [incrAt, List.sum_cons] at *
      rw [Nat.mod_eq_of_lt (by omega)]; omega
    | succ i =>
      simp only [incrAt, List.sum_cons, List.length_cons] at *
      rw [ih i (by omega) (by omega)]; omega

theorem fillLoop_aux {α : Type} (z : α) (k : Nat) : ∀ h : List α,
    ((List.range k).foldl (fun h i => h.set i z) h).length = h.length ∧
    ∀ i, ((List.range k).foldl (fun h i => h.set i z) h)[i]? =
      if i < k ∧ i < h.length then some z else h[i]? := by
  induction k with
  | zero => intro h; simp
  | succ k ih =>
    intro h
    rw [List.range_succ, List.foldl_append]
    obtain ⟨hl, hg⟩ := ih h
    refine ⟨by simp [hl], fun i => ?_⟩
    simp only [List.foldl_cons, List.foldl_nil, List.getElem?_set, hl, hg]
    by_cases hik : k = i
    · subst hik
      by_cases hkl : k < h.length
      · simp [hkl]
      · simp [hkl]; omega
    · simp only [hik, if_false]
      by_cases h1 : i < k
      · have : i < k + 1 := by omega
        simp [h1, this]
      · have : ¬ i < k + 1 := by omega
        simp [h1, this]

theorem fillLoop_eq_replicate {α : Type} (z : α) (n : Int) (h : List α)
    (hn : h.length = n.toNat) : fillLoop z n h = List.replicate n.toNat z := by
  unfold fillLoop
  obtain ⟨hl, hg⟩ := fillLoop_aux z n.toNat h
  apply List.ext_getElem?
  intro i
  rw [hg]
  by_cases hi : i < n.toNat
  · simp [hi, hn, List.getElem?_replicate]
  · have : h[i]? = none := by
      apply List.getElem?_eq_none; omega
    simp [hi, this, List.getElem?_replicate]


theorem toInt_of_nonneg (q : ℚ) (h : 0 ≤ q) : toInt q = ⌊q⌋ := by
  unfold toInt; rw [if_pos h]

/-- Inside the bounds the quotient `(x - lo) / bin` lies between 0 and `nbin`. -/
theorem quot_bounds (lo hi : ℚ) (nbin : Int) (x : ℚ) (hlh : lo < hi) (hn : 0 < nbin)
    (h1 : ¬ x < lo) (h2 : ¬ x > hi) :
    0 ≤ (x - lo) / ((hi - lo) / nbin) ∧ (x - lo) / ((hi - lo) / nbin) ≤ nbin := by
  have hn' : (0 : ℚ) < nbin := by exact_mod_cast hn
  have hw : 0 < (hi - lo) / nbin := div_pos (by linarith) hn'
  push_neg at h1 h2
  constructor
  · exact div_nonneg (by linarith) hw.le
  · rw [div_le_iff₀ hw]
    have : (nbin : ℚ) * ((hi - lo) / nbin) = hi - lo := by field_simp
    linarith

theorem binIndex_lt (lo hi : ℚ) (nbin : Int) (x : ℚ) (hlh : lo < hi) (hn : 0 < nbin) :
    (binIndex lo hi nbin ((hi - lo) / nbin) x : Int) < nbin + 2 := by
  unfold binIndex
  split_ifs with h1 h2
  · simp; omega
  · rw [Int.toNat_of_nonneg (by omega)]; omega
  · obtain ⟨hq0, hq1⟩ := quot_bounds lo hi nbin x hlh hn h1 h2
    rw [toInt_of_nonneg _ hq0]
    have hf0 : 0 ≤ ⌊(x - lo) / ((hi - lo) / nbin)⌋ := Int.floor_nonneg.mpr hq0
    have hf1 : ⌊(x - lo) / ((hi - lo) / nbin)⌋ ≤ nbin := by
      have := Int.floor_le_floor hq1
      simpa using this
    rw [Int.toNat_of_nonneg (by omega)]; omega

theorem specBin_iff (lo hi : ℚ) (nbin : Int) (x : ℚ) (k : Nat) (hlh : lo < hi) (hn : 0 < nbin) :
    SpecBin lo hi nbin x k ↔ k = binIndex lo hi nbin ((hi - lo) / nbin) x := by
  have hn' : (0 : ℚ) < nbin := by exact_mod_cast hn
  have hw : 0 < (hi - lo) / nbin := div_pos (by linarith) hn'
  have hnw : (nbin : ℚ) * ((hi - lo) / nbin) = hi - lo := by field_simp
  unfold binIndex SpecBin
  split_ifs with h1 h2
  · constructor
    · rintro (⟨_, hk⟩ | ⟨hx, _⟩ | ⟨j, hj0, _, hjl, _, _⟩)
      · exact hk
      · exfalso; linarith
      · exfalso
        have : (0 : ℚ) ≤ j := by exact_mod_cast hj0
        nlinarith
    · intro hk; exact Or.inl ⟨h1, hk⟩
  · constructor
    · rintro (⟨hx, _⟩ | ⟨_, hk⟩ | ⟨j, _, hjn, _, hju, _⟩)
      · exfalso; linarith
      · omega
      · exfalso
        have : (j : ℚ) + 1 ≤ nbin := by exact_mod_cast hjn
        nlinarith
    · intro hk
      refine Or.inr (Or.inl ⟨le_of_lt h2, ?_⟩)
      rw [hk, Int.toNat_of_nonneg (by omega)]
  · obtain ⟨hq0, hq1⟩ := quot_bounds lo hi nbin x hlh hn h1 h2
    rw [toInt_of_nonneg _ hq0]
    have hf0 : 0 ≤ ⌊(x - lo) / ((hi - lo) / nbin)⌋ := Int.floor_nonneg.mpr hq0
    push_neg at h1 h2
    have key : ∀ j : Int, (lo + j * ((hi - lo) / nbin) ≤ x ∧ x < lo + (j + 1) * ((hi - lo) / nbin))
        ↔ ⌊(x - lo) / ((hi - lo) / nbin)⌋ = j := by
      intro j
      rw [Int.floor_eq_iff, le_div_iff₀ hw, div_lt_iff₀ hw]
      constructor
      · rintro ⟨a, b⟩; exact ⟨by linarith, by linarith⟩
      · rintro ⟨a, b⟩; exact ⟨by linarith, by linarith⟩
    constructor
    · rintro (⟨hx, _⟩ | ⟨hx, hk⟩ | ⟨j, _, _, hjl, hju, hk⟩)
      · exfalso; linarith
      · have hxe : x = hi := le_antisymm h2 hx
        have : (x - lo) / ((hi - lo) / nbin) = nbin := by
          rw [div_eq_iff hw.ne', hnw, hxe]
        rw [this, Int.floor_intCast]
        omega
      · rw [(key j).mp ⟨hjl, hju⟩]; omega
    · intro hk
      by_cases hxe : x = hi
      · refine Or.inr (Or.inl ⟨hxe.ge, ?_⟩)
        have : (x - lo) / ((hi - lo) / nbin) = nbin := by
          rw [div_eq_iff hw.ne', hnw, hxe]
        rw [this, Int.floor_intCast] at hk
        rw [hk, Int.toNat_of_nonneg (by omega)]
      · refine Or.inr (Or.inr ⟨⌊(x - lo) / ((hi - lo) / nbin)⌋, hf0, ?_, ?_⟩)
        · rw [Int.floor_lt, div_lt_iff₀ hw, hnw]
          have : x < hi := lt_of_le_of_ne h2 hxe
          linarith
        · obtain ⟨a, b⟩ := (key _).mpr rfl
          refine ⟨a, b, ?_⟩
          rw [hk, Int.toNat_of_nonneg (by omega)]

/-! ## Stats: counter and running sums -/

/-- The effect of `takeSample`, member by member. -/
theorem Stats.takeSample_eq (s : Stats) (x : ℚ) :
    s.takeSample x =
      { count := (s.count + 1) % UINT_MOD
        sum := s.sum + x
        sumsq := s.sumsq + x * x
        min := if x < s.min then x else s.min
        max := if x > s.max then x else s.max
        histo := s.histo
        nbin := s.nbin
        bin := s.bin
        lo := s.lo
        hi := s.hi
        histogram :=
          if s.histo then
            if x < s.lo then incrAt s.histogram 0
            else if x > s.hi then incrAt s.histogram (s.nbin + 1).toNat
            else incrAt s.histogram (toInt ((x - s.lo) / s.bin) + 1).toNat
          else s.histogram } := by
  unfold Stats.takeSample
  simp only []
  split_ifs <;> rfl

theorem Stats.takeSample_count (s : Stats) (x : ℚ) :
    (s.takeSample x).count = (s.count + 1) % UINT_MOD := by
  rw [Stats.takeSample_eq]

theorem Stats.takeSample_sum (s : Stats) (x : ℚ) :
    (s.takeSample x).sum = s.sum + x := by
  rw [Stats.takeSample_eq]

theorem Stats.takeSample_sumsq (s : Stats) (x : ℚ) :
    (s.takeSample x).sumsq = s.sumsq + x * x := by
  rw [Stats.takeSample_eq]

theorem Stats.feed_cons (s : Stats) (x : ℚ) (xs : List ℚ) :
    s.feed (x :: xs) = (s.takeSample x).feed xs := rfl

theorem Stats.resetStats_count (s : Stats) : s.resetStats.count = 0 := rfl

theorem Stats.getCount_eq (s : Stats) : s.getCount = s.count := rfl

/-- The counter after feeding `xs` is the number of samples modulo `2^32`. -/
theorem Stats.feed_count (xs : List ℚ) :
    ∀ s : Stats, s.count < UINT_MOD → (s.feed xs).count = (s.count + xs.length) % UINT_MOD := by
  induction xs with
  | nil => intro s hs; exact (Nat.mod_eq_of_lt hs).symm
  | cons x xs ih =>
    intro s _
    have hlt : (s.takeSample x).count < UINT_MOD := by
      rw [Stats.takeSample_count]; exact Nat.mod_lt _ (by decide)
    rw [Stats.feed_cons, ih _ hlt, Stats.takeSample_count, List.length_cons]
    unfold UINT_MOD
    omega

theorem Stats.feed_sum (xs : List ℚ) :
    ∀ s : Stats, (s.feed xs).sum = s.sum + xs.sum := by
  induction xs with
  | nil => intro s; simp [Stats.feed]
  | cons x xs ih =>
    intro s
    rw [Stats.feed_cons, ih, Stats.takeSample_sum, List.sum_cons]
    ring

theorem Stats.feed_sumsq (xs : List ℚ) :
    ∀ s : Stats, (s.feed xs).sumsq = s.sumsq + (xs.map (fun x => x * x)).sum := by
  induction xs with
  | nil => intro s; simp [Stats.feed]
  | cons x xs ih =>
    intro s
    rw [Stats.feed_cons, ih, Stats.takeSample_sumsq, List.map_cons, List.sum_cons]
    ring

theorem Stats.feed_reset_count (s : Stats) (xs : List ℚ) (h : xs.length < UINT_MOD) :
    (s.resetStats.feed xs).count = xs.length := by
  rw [Stats.feed_count xs _ (by rw [Stats.resetStats_count]; decide), Stats.resetStats_count,
    Nat.zero_add, Nat.mod_eq_of_lt h]

/-- After exactly `2^32` samples the counter is back at zero. -/
theorem Stats.feed_reset_count_wrap (s : Stats) (xs : List ℚ) (h : xs.length = UINT_MOD) :
    (s.resetStats.feed xs).count = 0 := by
  rw [Stats.feed_count _ _ (by rw [Stats.resetStats_count]; decide), Stats.resetStats_count, h]
  norm_num [UINT_MOD]

theorem Stats.calcVariance_count_zero (s : Stats) (h : s.count = 0) :
    s.calcVariance = none := by
  unfold Stats.calcVariance
  rw [h]
  rfl

/-- Sum of squared deviations from `m`, expanded. -/
theorem sum_sq_dev (m : ℚ) (xs : List ℚ) :
    (xs.map (fun x => (x - m) ^ 2)).sum =
      (xs.map (fun x => x * x)).sum - 2 * m * xs.sum + xs.length * m ^ 2 := by
  induction xs with
  | nil => simp
  | cons x xs ih =>
    simp only [List.map_cons, List.sum_cons, List.length_cons, ih]
    push_cast
    ring

/-- C1 (as amended): for every sequence `xs` of fewer than `2^32` samples fed one by one with
`takeSample` to a reset `Stats` (both constructors end with `resetStats`), `calcVariance`
fails exactly when `xs` has fewer than two samples, and otherwise its result is the two-pass
unbiased sample variance of `xs`. -/
theorem Stats.calcVariance_feed (s : Stats) (xs : List ℚ) (h : xs.length < UINT_MOD) :
    (s.resetStats.feed xs).calcVariance =
      if xs.length < 2 then none else some (twoPassVariance xs) := by
  unfold Stats.calcVariance
  rw [Stats.feed_reset_count s xs h, Stats.feed_sum, Stats.feed_sumsq]
  by_cases h2 : xs.length < 2
  · simp [h2]
  · simp only [h2, if_false]
    congr 1
    have hn : (2 : ℚ) ≤ (xs.length : ℚ) := by exact_mod_cast Nat.le_of_not_lt h2
    have hn0 : (xs.length : ℚ) ≠ 0 := by linarith
    have hn1 : (xs.length : ℚ) - 1 ≠ 0 := by linarith
    have hc : ((xs.length - 1 : Nat) : ℚ) = (xs.length : ℚ) - 1 := by
      rw [Nat.cast_sub (by omega)]; simp
    unfold twoPassVariance
    simp only [sum_sq_dev, hc]
    show (0 + _ - (0 + _) * (0 + _) / _) / _ = _
    field_simp
    ring

/-- C1, witness: four samples fed to a reset accumulator. -/
theorem Stats.calcVariance_feed_witness :
    ([1, 2, 3, 4] : List ℚ).length < UINT_MOD ∧
    (Stats.blank.resetStats.feed [1, 2, 3, 4]).calcVariance =
      if ([1, 2, 3, 4] : List ℚ).length < 2 then none
      else some (twoPassVariance [1, 2, 3, 4]) :=
  ⟨by decide, Stats.calcVariance_feed Stats.blank [1, 2, 3, 4] (by decide)⟩

/-- C1, counterexample: after `2^32` samples fed to a freshly constructed `Stats` the
`unsigned` counter has wrapped to 0, so `calcVariance` fails although the sequence has at
least two samples. -/
theorem Stats.calcVariance_wrap_counterexample :
    ((Stats.Stats_void Stats.blank).feed (List.replicate 4294967296 0)).calcVariance = none ∧
    ¬ (List.replicate 4294967296 (0 : ℚ)).length < 2 :=
  ⟨Stats.calcVariance_count_zero _
      (Stats.feed_reset_count_wrap _ _ (List.length_replicate _ _)),
    by rw [List.length_replicate]; decide⟩

/-- C2 (as amended): for every sequence `xs` of fewer than `2^32` samples fed with `takeSample`
to a reset `Stats`, `getCount` returns the length of `xs`, and `calcMean` fails exactly when
`xs` is empty and otherwise returns the sum of `xs` divided by its length. -/
theorem Stats.getCount_calcMean_feed (s : Stats) (xs : List ℚ) (h : xs.length < UINT_MOD) :
    (s.resetStats.feed xs).getCount = xs.length ∧
    (s.resetStats.feed xs).calcMean =
      if xs = [] then none else some (xs.sum / xs.length) := by
  have hc := Stats.feed_reset_count s xs h
  refine ⟨hc, ?_⟩
  unfold Stats.calcMean
  rw [hc, Stats.feed_sum]
  cases xs with
  | nil => rfl
  | cons x xs =>
    simp only [List.length_cons, Nat.lt_one_iff, Nat.succ_ne_zero, if_false, reduceCtorEq]
    show some ((0 + _) / _) = _
    rw [zero_add]

/-- C2, witness: five samples fed to a reset accumulator. -/
theorem Stats.getCount_calcMean_feed_witness :
    ([1, 2, 3, 4, 5] : List ℚ).length < UINT_MOD ∧
    (Stats.blank.resetStats.feed [1, 2, 3, 4, 5]).getCount = ([1, 2, 3, 4, 5] : List ℚ).length ∧
    (Stats.blank.resetStats.feed [1, 2, 3, 4, 5]).calcMean =
      if ([1, 2, 3, 4, 5] : List ℚ) = [] then none
      else some (([1, 2, 3, 4, 5] : List ℚ).sum / ([1, 2, 3, 4, 5] : List ℚ).length) :=
  ⟨by decide, Stats.getCount_calcMean_feed Stats.blank [1, 2, 3, 4, 5] (by decide)⟩

/-- C2, counterexample: after `2^32` samples fed to a freshly constructed `Stats`,
`getCount` returns 0, not the number of samples. -/
theorem Stats.getCount_wrap_counterexample :
    ((Stats.Stats_void Stats.blank).feed (List.replicate 4294967296 0)).getCount = 0 ∧
    (List.replicate 4294967296 (0 : ℚ)).length = 4294967296 :=
  ⟨(Stats.getCount_eq _).trans (Stats.feed_reset_count_wrap _ _ (List.length_replicate _ _)),
    List.length_replicate _ _⟩


/-! ## Stats: histogram -/

theorem Stats.takeSample_histogram (s : Stats) (x : ℚ) (hh : s.histo = true) :
    (s.takeSample x).histogram = incrAt s.histogram (binIndex s.lo s.hi s.nbin s.bin x) := by
  rw [Stats.takeSample_eq]
  simp only [hh, if_true, binIndex]
  split_ifs <;> rfl

theorem Stats.histo_some (low high : ℚ) (bins : Int) (h1 : low < high) (h2 : 0 < bins) :
    Stats.Stats_histo low high bins = some (Stats.Stats_histo_init low high bins).resetStats := by
  unfold Stats.Stats_histo
  rw [if_neg (not_not.mpr ⟨h1, h2⟩)]

theorem Stats.histo_spec (low high : ℚ) (bins : Int) (s0 : Stats)
    (h : Stats.Stats_histo low high bins = some s0) :
    low < high ∧ 0 < bins ∧ Stats.Configured low high bins s0 ∧ s0.count = 0 ∧
      s0.histogram = List.replicate (bins + 2).toNat 0 := by
  unfold Stats.Stats_histo at h
  split_ifs at h with hc
  push_neg at hc
  have hs := (Option.some.inj h).symm
  have hz : s0.histogram = List.replicate (bins + 2).toNat 0 := by
    rw [hs]
    exact fillLoop_eq_replicate 0 (bins + 2) _ (List.length_replicate _ _)
  refine ⟨hc.1, hc.2, ⟨?_, ?_, ?_, ?_, ?_, ?_⟩, ?_, hz⟩
  · rw [hs]; rfl
  · rw [hs]; rfl
  · rw [hs]; rfl
  · rw [hs]; rfl
  · rw [hs]; rfl
  · rw [hz, List.length_replicate]
  · rw [hs]; rfl

theorem Stats.configured_takeSample (low high : ℚ) (bins : Int) (s : Stats) (x : ℚ)
    (h : Stats.Configured low high bins s) : Stats.Configured low high bins (s.takeSample x) := by
  obtain ⟨h1, h2, h3, h4, h5, h6⟩ := h
  refine ⟨?_, ?_, ?_, ?_, ?_, ?_⟩
  · rw [Stats.takeSample_eq]; exact h1
  · rw [Stats.takeSample_eq]; exact h2
  · rw [Stats.takeSample_eq]; exact h3
  · rw [Stats.takeSample_eq]; exact h4
  · rw [Stats.takeSample_eq]; exact h5
  · rw [Stats.takeSample_histogram s x h1, incrAt_length]; exact h6

theorem Stats.resetStats_histogram (low high : ℚ) (bins : Int) (s : Stats)
    (h : Stats.Configured low high bins s) :
    s.resetStats.histogram = List.replicate (bins + 2).toNat 0 := by
  obtain ⟨h1, h2, h3, h4, h5, h6⟩ := h
  show (if s.histo then fillLoop 0 (s.nbin + 2) s.histogram else s.histogram) = _
  rw [h1, if_pos rfl, h4]
  exact fillLoop_eq_replicate 0 (bins + 2) _ h6

theorem Stats.configured_resetStats (low high : ℚ) (bins : Int) (s : Stats)
    (h : Stats.Configured low high bins s) : Stats.Configured low high bins s.resetStats := by
  have hz := Stats.resetStats_histogram low high bins s h
  obtain ⟨h1, h2, h3, h4, h5, h6⟩ := h
  exact ⟨h1, h2, h3, h4, h5, by rw [hz, List.length_replicate]⟩

theorem Stats.run_cons (s : Stats) (c : StatsCall) (cs : List StatsCall) :
    s.run (c :: cs) = (s.call c).run cs := rfl

theorem Stats.configured_run (low high : ℚ) (bins : Int) (cs : List StatsCall) :
    ∀ s : Stats, Stats.Configured low high bins s → Stats.Configured low high bins (s.run cs) := by
  induction cs with
  | nil => intro s h; exact h
  | cons c cs ih =>
    intro s h
    rw [Stats.run_cons]
    apply ih
    cases c with
    | takeSample x => exact Stats.configured_takeSample low high bins s x h
    | resetStats => exact Stats.configured_resetStats low high bins s h

/-- On a configured object the bin index is inside the array. -/
theorem Stats.binIndex_lt_length (low high : ℚ) (bins : Int) (s : Stats) (x : ℚ)
    (hlh : low < high) (hn : 0 < bins) (h : Stats.Configured low high bins s) :
    binIndex s.lo s.hi s.nbin s.bin x < s.histogram.length := by
  obtain ⟨_, h2, h3, h4, h5, h6⟩ := h
  rw [h2, h3, h4, h5, h6]
  have := binIndex_lt low high bins x hlh hn
  omega

/-- While fewer than `2^32` samples were taken since the last reset, the counter holds
their number and so does the sum of the bins. -/
theorem Stats.run_count_sum (low high : ℚ) (bins : Int) (hlh : low < high) (hn : 0 < bins)
    (cs : List StatsCall) : ∀ (s : Stats) (k : Nat), Stats.Configured low high bins s →
      (k < UINT_MOD → s.count = k ∧ s.histogram.sum = k) →
      samplesSinceReset k cs < UINT_MOD →
      (s.run cs).count = samplesSinceReset k cs ∧
      (s.run cs).histogram.sum = samplesSinceReset k cs := by
  induction cs with
  | nil => intro s k _ hk hlt; exact hk hlt
  | cons c cs ih =>
    intro s k hc hk hlt
    rw [Stats.run_cons]
    cases c with
    | takeSample x =>
      refine ih (s.takeSample x) (k + 1) (Stats.configured_takeSample low high bins s x hc) ?_ hlt
      intro hk1
      obtain ⟨h1, h2⟩ := hk (by omega)
      constructor
      · rw [Stats.takeSample_count, h1, Nat.mod_eq_of_lt hk1]
      · show (s.takeSample x).histogram.sum = k + 1
        rw [Stats.takeSample_histogram s x hc.1,
          incrAt_sum _ _ (Stats.binIndex_lt_length low high bins s x hlh hn hc) (by omega), h2]
    | resetStats =>
      refine ih s.resetStats 0 (Stats.configured_resetStats low high bins s hc) ?_ hlt
      intro _
      refine ⟨rfl, ?_⟩
      rw [Stats.resetStats_histogram low high bins s hc]
      simp


/-! ## TStats: the effect of takeSample -/

/-- The effect of a `takeSample` that passes the time check, member by member. -/
theorem TStats.takeSample_returned (s : TStats) (x tx : ℚ) (h : s.tnow < tx) :
    s.takeSample x tx = Outcome.returned
      { tnow := tx
        sum := s.sum + x * (tx - s.tnow)
        sumsq := s.sumsq + x * x * (tx - s.tnow)
        min := if x < s.min then x else s.min
        max := if x > s.max then x else s.max
        histo := s.histo
        nbin := s.nbin
        bin := s.bin
        lo := s.lo
        hi := s.hi
        histogram :=
          if s.histo then addAt s.histogram (binIndex s.lo s.hi s.nbin s.bin x) (tx - s.tnow)
          else s.histogram } := by
  have hd : ¬ tx - s.tnow ≤ 0 := by linarith
  unfold TStats.takeSample binIndex
  simp only [hd, if_false]
  split_ifs <;> rfl

/-- A `takeSample` that fails the time check exits with the object as it was. -/
theorem TStats.takeSample_exited (s : TStats) (x tx : ℚ) (h : tx ≤ s.tnow) :
    s.takeSample x tx = Outcome.exited s := by
  have hd : tx - s.tnow ≤ 0 := by linarith
  unfold TStats.takeSample
  simp only [hd, if_true]

theorem TStats.histo_some_timed (low high : ℚ) (bins : Int) (h1 : low < high) (h2 : 0 < bins) :
    TStats.TStats_histo low high bins =
      some (TStats.TStats_histo_init low high bins).resetTStats := by
  unfold TStats.TStats_histo
  rw [if_neg (not_not.mpr ⟨h1, h2⟩)]

theorem TStats.histo_spec_timed (low high : ℚ) (bins : Int) (s0 : TStats)
    (h : TStats.TStats_histo low high bins = some s0) :
    low < high ∧ 0 < bins ∧ TStats.Configured low high bins s0 ∧ s0.tnow = 0 ∧
      s0.histogram = List.replicate (bins + 2).toNat 0 := by
  unfold TStats.TStats_histo at h
  split_ifs at h with hc
  push_neg at hc
  have hs := (Option.some.inj h).symm
  have hz : s0.histogram = List.replicate (bins + 2).toNat 0 := by
    rw [hs]
    exact fillLoop_eq_replicate 0 (bins + 2) _ (List.length_replicate _ _)
  refine ⟨hc.1, hc.2, ⟨?_, ?_, ?_, ?_, ?_, ?_⟩, ?_, hz⟩
  · rw [hs]; rfl
  · rw [hs]; rfl
  · rw [hs]; rfl
  · rw [hs]; rfl
  · rw [hs]; rfl
  · rw [hz, List.length_replicate]
  · rw [hs]; rfl

theorem TStats.configured_takeSample_timed (low high : ℚ) (bins : Int) (s : TStats) (x tx : ℚ)
    (h : TStats.Configured low high bins s) :
    TStats.Configured low high bins (s.takeSample x tx).state := by
  by_cases ht : s.tnow < tx
  · rw [TStats.takeSample_returned s x tx ht]
    obtain ⟨h1, h2, h3, h4, h5, h6⟩ := h
    refine ⟨h1, h2, h3, h4, h5, ?_⟩
    show (if s.histo then addAt s.histogram _ _ else s.histogram).length = _
    rw [h1, if_pos rfl, addAt_length]
    exact h6
  · rw [TStats.takeSample_exited s x tx (not_lt.mp ht)]
    exact h

theorem TStats.resetTStats_histogram (low high : ℚ) (bins : Int) (s : TStats)
    (h : TStats.Configured low high bins s) :
    s.resetTStats.histogram = List.replicate (bins + 2).toNat 0 := by
  obtain ⟨h1, h2, h3, h4, h5, h6⟩ := h
  show (if s.histo then fillLoop 0 (s.nbin + 2) s.histogram else s.histogram) = _
  rw [h1, if_pos rfl, h4]
  exact fillLoop_eq_replicate 0 (bins + 2) _ h6

theorem TStats.configured_resetTStats (low high : ℚ) (bins : Int) (s : TStats)
    (h : TStats.Configured low high bins s) :
    TStats.Configured low high bins s.resetTStats := by
  have hz := TStats.resetTStats_histogram low high bins s h
  obtain ⟨h1, h2, h3, h4, h5, h6⟩ := h
  exact ⟨h1, h2, h3, h4, h5, by rw [hz, List.length_replicate]⟩

theorem TStats.run_cons_timed (s : TStats) (c : TStatsCall) (cs : List TStatsCall) :
    s.run (c :: cs) = (s.call c).run cs := rfl

theorem TStats.configured_run_timed (low high : ℚ) (bins : Int) (cs : List TStatsCall) :
    ∀ s : TStats, TStats.Configured low high bins s →
      TStats.Configured low high bins (s.run cs) := by
  induction cs with
  | nil => intro s h; exact h
  | cons c cs ih =>
    intro s h
    rw [TStats.run_cons_timed]
    apply ih
    cases c with
    | takeSample x tx => exact TStats.configured_takeSample_timed low high bins s x tx h
    | resetTStats => exact TStats.configured_resetTStats low high bins s h

/-- On a configured object the bin index is inside the array. -/
theorem TStats.binIndex_lt_length_timed (low high : ℚ) (bins : Int) (s : TStats) (x : ℚ)
    (hlh : low < high) (hn : 0 < bins) (h : TStats.Configured low high bins s) :
    binIndex s.lo s.hi s.nbin s.bin x < s.histogram.length := by
  obtain ⟨_, h2, h3, h4, h5, h6⟩ := h
  rw [h2, h3, h4, h5, h6]
  have := binIndex_lt low high bins x hlh hn
  omega

/-! ## The binning rule -/

/-- C3: on an object constructed with valid histogram parameters, in any state it reaches,
the binning rule of the specification selects a bin for every sample `x`, and whenever the
rule selects bin `k`, that bin is inside the array, `Stats::takeSample` applies
`histogram[k]++` and `TStats::takeSample` (called with a time `tx` it accepts) applies
`histogram[k] += tx - tnow`; no other bin changes. -/
theorem takeSample_bin_rule (low high : ℚ) (bins : Int) (s0 : Stats) (t0 : TStats)
    (cs : List StatsCall) (tcs : List TStatsCall) (x tx : ℚ)
    (hs : Stats.Stats_histo low high bins = some s0)
    (ht : TStats.TStats_histo low high bins = some t0)
    (htx : (t0.run tcs).tnow < tx) :
    (∃ k, SpecBin low high bins x k) ∧
    ∀ k, SpecBin low high bins x k →
      k < (s0.run cs).histogram.length ∧
      ((s0.run cs).takeSample x).histogram = incrAt (s0.run cs).histogram k ∧
      k < (t0.run tcs).histogram.length ∧
      ((t0.run tcs).takeSample x tx).state.histogram =
        addAt (t0.run tcs).histogram k (tx - (t0.run tcs).tnow) := by
  obtain ⟨hlh, hn, hc0, _, _⟩ := Stats.histo_spec low high bins s0 hs
  obtain ⟨_, _, htc0, _, _⟩ := TStats.histo_spec_timed low high bins t0 ht
  have hc := Stats.configured_run low high bins cs s0 hc0
  have htc := TStats.configured_run_timed low high bins tcs t0 htc0
  refine ⟨⟨_, (specBin_iff low high bins x _ hlh hn).mpr rfl⟩, ?_⟩
  intro k hk
  have hk1 : k = binIndex (s0.run cs).lo (s0.run cs).hi (s0.run cs).nbin (s0.run cs).bin x := by
    rw [hc.2.1, hc.2.2.1, hc.2.2.2.1, hc.2.2.2.2.1]
    exact (specBin_iff low high bins x k hlh hn).mp hk
  have hk2 : k = binIndex (t0.run tcs).lo (t0.run tcs).hi (t0.run tcs).nbin
      (t0.run tcs).bin x := by
    rw [htc.2.1, htc.2.2.1, htc.2.2.2.1, htc.2.2.2.2.1]
    exact (specBin_iff low high bins x k hlh hn).mp hk
  refine ⟨?_, ?_, ?_, ?_⟩
  · rw [hk1]; exact Stats.binIndex_lt_length low high bins _ x hlh hn hc
  · rw [hk1]; exact Stats.takeSample_histogram _ x hc.1
  · rw [hk2]; exact TStats.binIndex_lt_length_timed low high bins _ x hlh hn htc
  · rw [TStats.takeSample_returned _ x tx htx, hk2]
    show (if (t0.run tcs).histo then _ else _) = _
    rw [htc.1, if_pos rfl]

/-- C3, witness: the objects `X(0.,100.,10)` of the two test programs, freshly constructed,
and the sample 5 taken at time 1. -/
theorem takeSample_bin_rule_witness :
    Stats.Stats_histo 0 100 10 = some (Stats.Stats_histo_init 0 100 10).resetStats ∧
    TStats.TStats_histo 0 100 10 = some (TStats.TStats_histo_init 0 100 10).resetTStats ∧
    (((TStats.TStats_histo_init 0 100 10).resetTStats).run []).tnow < 1 ∧
    ((∃ k, SpecBin 0 100 10 5 k) ∧
    ∀ k, SpecBin 0 100 10 5 k →
      k < (((Stats.Stats_histo_init 0 100 10).resetStats).run []).histogram.length ∧
      ((((Stats.Stats_histo_init 0 100 10).resetStats).run []).takeSample 5).histogram =
        incrAt (((Stats.Stats_histo_init 0 100 10).resetStats).run []).histogram k ∧
      k < (((TStats.TStats_histo_init 0 100 10).resetTStats).run []).histogram.length ∧
      ((((TStats.TStats_histo_init 0 100 10).resetTStats).run []).takeSample 5 1).state.histogram =
        addAt (((TStats.TStats_histo_init 0 100 10).resetTStats).run []).histogram k
          (1 - (((TStats.TStats_histo_init 0 100 10).resetTStats).run []).tnow)) :=
  ⟨Stats.histo_some 0 100 10 (by norm_num) (by norm_num),
    TStats.histo_some_timed 0 100 10 (by norm_num) (by norm_num),
    show (0 : ℚ) < 1 by norm_num,
    takeSample_bin_rule 0 100 10 _ _ [] [] 5 1
      (Stats.histo_some 0 100 10 (by norm_num) (by norm_num))
      (TStats.histo_some_timed 0 100 10 (by norm_num) (by norm_num))
      (show (0 : ℚ) < 1 by norm_num)⟩


/-! ## Stats: bins and counter -/

/-- C4 (as amended): on a `Stats` constructed with a histogram, after any sequence of
`takeSample` and `resetStats` calls in which fewer than `2^32` samples were taken since the
last reset, the array has `nbin+2` counters, their sum equals `getCount()`, and `getCount()`
is the number of samples since the last reset. -/
theorem Stats.histogram_sum_getCount (low high : ℚ) (bins : Int) (s0 : Stats)
    (cs : List StatsCall) (hs : Stats.Stats_histo low high bins = some s0)
    (hk : samplesSinceReset 0 cs < UINT_MOD) :
    (s0.run cs).histogram.length = (bins + 2).toNat ∧
    (s0.run cs).histogram.sum = (s0.run cs).getCount ∧
    (s0.run cs).getCount = samplesSinceReset 0 cs := by
  obtain ⟨hlh, hn, hc0, hcount, hz⟩ := Stats.histo_spec low high bins s0 hs
  have hc := Stats.configured_run low high bins cs s0 hc0
  have h0 : (0 < UINT_MOD → s0.count = 0 ∧ s0.histogram.sum = 0) := by
    intro _
    refine ⟨hcount, ?_⟩
    rw [hz]; simp
  obtain ⟨h1, h2⟩ := Stats.run_count_sum low high bins hlh hn cs s0 0 hc0 h0 hk
  exact ⟨hc.2.2.2.2.2, by rw [Stats.getCount_eq, h1, h2], by rw [Stats.getCount_eq, h1]⟩

/-- C4, witness: the object of the test program after two samples, a reset and three more
samples. -/
theorem Stats.histogram_sum_getCount_witness :
    Stats.Stats_histo 0 100 10 = some (Stats.Stats_histo_init 0 100 10).resetStats ∧
    samplesSinceReset 0 [.takeSample 88, .takeSample 12, .resetStats, .takeSample 0,
      .takeSample 34, .takeSample 77] < UINT_MOD ∧
    (((Stats.Stats_histo_init 0 100 10).resetStats).run [.takeSample 88, .takeSample 12,
      .resetStats, .takeSample 0, .takeSample 34, .takeSample 77]).histogram.sum = 3 := by
  have hs := Stats.histo_some 0 100 10 (by norm_num) (by norm_num)
  have hk : samplesSinceReset 0 [.takeSample 88, .takeSample 12, .resetStats, .takeSample 0,
      .takeSample 34, .takeSample 77] < UINT_MOD := by decide
  have h := Stats.histogram_sum_getCount 0 100 10 _ _ hs hk
  exact ⟨hs, hk, h.2.1.trans h.2.2⟩

theorem Stats.run_map_takeSample (xs : List ℚ) :
    ∀ s : Stats, s.run (xs.map StatsCall.takeSample) = s.feed xs := by
  induction xs with
  | nil => intro s; rfl
  | cons x xs ih => intro s; exact ih (s.takeSample x)

theorem Stats.feed_append (s : Stats) (xs ys : List ℚ) :
    s.feed (xs ++ ys) = (s.feed xs).feed ys := by
  unfold Stats.feed; rw [List.foldl_append]

theorem Stats.configured_feed (low high : ℚ) (bins : Int) (xs : List ℚ) :
    ∀ s : Stats, Stats.Configured low high bins s →
      Stats.Configured low high bins (s.feed xs) := by
  induction xs with
  | nil => intro s h; exact h
  | cons x xs ih =>
    intro s h
    exact ih _ (Stats.configured_takeSample low high bins s x h)

/-- Feeding the same sample `n` times applies `histogram[i]++` to its bin `n` times. -/
theorem Stats.feed_replicate_histogram (low high : ℚ) (bins : Int) (x : ℚ) (n : Nat) :
    ∀ s : Stats, Stats.Configured low high bins s →
      (s.feed (List.replicate n x)).histogram =
        (fun h => incrAt h (binIndex low high bins ((high - low) / bins) x))^[n]
          s.histogram := by
  induction n with
  | zero => intro s _; rfl
  | succ n ih =>
    intro s h
    rw [List.replicate_succ, Stats.feed_cons,
      ih _ (Stats.configured_takeSample low high bins s x h), Function.iterate_succ,
      Function.comp_apply, Stats.takeSample_histogram s x h.1, h.2.1, h.2.2.1, h.2.2.2.1,
      h.2.2.2.2.1]

theorem incrAt_iterate_zero (h : List Nat) (n : Nat) :
    ∀ v : Nat, v + n < UINT_MOD →
      (fun l => incrAt l 0)^[n] (v :: h) = (v + n) :: h := by
  induction n with
  | zero => intro v _; rfl
  | succ n ih =>
    intro v hv
    rw [Function.iterate_succ, Function.comp_apply]
    show (fun l => incrAt l 0)^[n] (((v + 1) % UINT_MOD) :: h) = _
    rw [Nat.mod_eq_of_lt (by omega), ih _ (by omega)]
    congr 1; omega

theorem incrAt_iterate_succ (i : Nat) (h : List Nat) (v : Nat) (n : Nat) :
    (fun l => incrAt l (i + 1))^[n] (v :: h) = v :: (fun l => incrAt l i)^[n] h := by
  induction n generalizing h with
  | zero => rfl
  | succ n ih =>
    rw [Function.iterate_succ, Function.comp_apply, Function.iterate_succ, Function.comp_apply]
    exact ih _

theorem binIndex_test_low : binIndex 0 100 10 ((100 - 0) / (10 : Int)) (-1) = 0 := by
  norm_num [binIndex]

theorem binIndex_test_zero : binIndex 0 100 10 ((100 - 0) / (10 : Int)) 0 = 0 + 1 := by
  norm_num [binIndex, toInt]

/-- With `n` samples below the lower bound and `n` samples at the lower bound, where
`n + n = 2^32`, the bins of the test object sum to `2^32` while the counter is 0. -/
theorem Stats.two_bins_wrap (n : Nat) (hn : n + n = UINT_MOD) :
    (((Stats.Stats_histo_init 0 100 10).resetStats).run
      (List.map StatsCall.takeSample (List.replicate n (-1) ++ List.replicate n 0))).histogram.sum
      = n + n ∧
    (((Stats.Stats_histo_init 0 100 10).resetStats).run
      (List.map StatsCall.takeSample (List.replicate n (-1) ++ List.replicate n 0))).getCount
      = 0 := by
  obtain ⟨_, _, hc0, _, hz⟩ := Stats.histo_spec 0 100 10 _
    (Stats.histo_some 0 100 10 (by norm_num) (by norm_num))
  have hn2 : 0 + n < UINT_MOD := by unfold UINT_MOD at hn ⊢; omega
  rw [Stats.run_map_takeSample]
  constructor
  · rw [Stats.feed_append,
      Stats.feed_replicate_histogram 0 100 10 0 n _ (Stats.configured_feed 0 100 10 _ _ hc0),
      Stats.feed_replicate_histogram 0 100 10 (-1) n _ hc0, hz, binIndex_test_low,
      binIndex_test_zero]
    have h12 : ((10 : Int) + 2).toNat = 12 := by decide
    rw [h12]
    simp only [List.replicate]
    rw [incrAt_iterate_zero _ n 0 hn2, incrAt_iterate_succ, incrAt_iterate_zero _ n 0 hn2]
    simp
  · rw [Stats.getCount_eq]
    exact Stats.feed_reset_count_wrap _ _ (by simp [hn])

/-- C4, counterexample: the test object `X(0.,100.,10)` after `2^31` samples of value -1
followed by `2^31` samples of value 0: the bins sum to `2^32`, `getCount()` returns 0. -/
theorem Stats.histogram_sum_counterexample :
    (((Stats.Stats_histo_init 0 100 10).resetStats).run
      (List.map StatsCall.takeSample
        (List.replicate 2147483648 (-1) ++ List.replicate 2147483648 0))).histogram.sum = 2147483648 + 2147483648 ∧
    (((Stats.Stats_histo_init 0 100 10).resetStats).run
      (List.map StatsCall.takeSample
        (List.replicate 2147483648 (-1) ++ List.replicate 2147483648 0))).getCount = 0 :=
  Stats.two_bins_wrap 2147483648 (by decide)


/-! ## TStats: time check, time integral, bins -/

/-- C5: for every `TStats` state and every call `takeSample(x, tx)`: the call fails, with
every member of the object as it was before the call, exactly when `tx <= tnow`, and it
succeeds exactly when `tx > tnow`. -/
theorem TStats.takeSample_time_check (s : TStats) (x tx : ℚ) :
    (s.takeSample x tx = Outcome.exited s ↔ tx ≤ s.tnow) ∧
    ((s.takeSample x tx).ok = true ↔ s.tnow < tx) := by
  by_cases h : s.tnow < tx
  · rw [TStats.takeSample_returned s x tx h]
    refine ⟨⟨fun hcontra => ?_, fun hle => absurd h (not_lt.mpr hle)⟩, fun _ => h, fun _ => rfl⟩
    cases hcontra
  · have hle := not_lt.mp h
    rw [TStats.takeSample_exited s x tx hle]
    refine ⟨⟨fun _ => hle, fun _ => rfl⟩, fun hcontra => ?_, fun hlt => absurd hlt h⟩
    cases hcontra

theorem TStats.feed_cons_returned (s s1 : TStats) (x tx : ℚ) (rest : List (ℚ × ℚ))
    (h : s.takeSample x tx = Outcome.returned s1) :
    s.feed ((x, tx) :: rest) = s1.feed rest := by
  show (match s.takeSample x tx with
    | Outcome.returned s1 => TStats.feed s1 rest
    | Outcome.exited s1 => Outcome.exited s1) = _
  rw [h]

theorem TStats.takeSample_fields (s : TStats) (x tx : ℚ) (h : s.tnow < tx) :
    ∃ s1 : TStats, s.takeSample x tx = Outcome.returned s1 ∧ s1.tnow = tx ∧
      s1.sum = s.sum + x * (tx - s.tnow) ∧ s1.sumsq = s.sumsq + x * x * (tx - s.tnow) :=
  ⟨_, TStats.takeSample_returned s x tx h, rfl, rfl, rfl⟩

/-- Feeding samples with increasing times: every call succeeds, `tnow` ends at the last
timestamp, `sum` and `sumsq` grow by the time integrals of the values and of their
squares. -/
theorem TStats.feed_spec (samples : List (ℚ × ℚ)) :
    ∀ s : TStats, Increasing s.tnow samples →
      (s.feed samples).ok = true ∧
      (s.feed samples).state.tnow = lastTime s.tnow samples ∧
      (s.feed samples).state.sum = s.sum + precedingIntegral s.tnow samples ∧
      (s.feed samples).state.sumsq =
        s.sumsq + precedingIntegral s.tnow (samples.map (fun p => (p.1 * p.1, p.2))) := by
  induction samples with
  | nil =>
    intro s _
    refine ⟨rfl, rfl, ?_, ?_⟩
    · show s.sum = s.sum + 0
      rw [add_zero]
    · show s.sumsq = s.sumsq + 0
      rw [add_zero]
  | cons p rest ih =>
    obtain ⟨x, tx⟩ := p
    intro s hinc
    have hc : s.tnow < tx ∧ Increasing tx rest := List.chain_cons.mp hinc
    obtain ⟨s1, hret, ht1, hs1, hq1⟩ := TStats.takeSample_fields s x tx hc.1
    rw [TStats.feed_cons_returned s s1 x tx rest hret]
    obtain ⟨h1, h2, h3, h4⟩ := ih s1 (ht1 ▸ hc.2)
    rw [ht1] at h2 h3 h4
    refine ⟨h1, h2, ?_, ?_⟩
    · rw [h3, hs1]
      show s.sum + x * (tx - s.tnow) + precedingIntegral tx rest =
        s.sum + (x * (tx - s.tnow) + precedingIntegral tx rest)
      ring
    · rw [h4, hq1]
      show s.sumsq + x * x * (tx - s.tnow) + precedingIntegral tx _ =
        s.sumsq + (x * x * (tx - s.tnow) + precedingIntegral tx _)
      ring

theorem lastTime_ge (samples : List (ℚ × ℚ)) :
    ∀ t0 : ℚ, Increasing t0 samples → t0 ≤ lastTime t0 samples := by
  induction samples with
  | nil => intro t0 _; exact le_refl _
  | cons p rest ih =>
    obtain ⟨x, tx⟩ := p
    intro t0 hinc
    have hc : t0 < tx ∧ Increasing tx rest := List.chain_cons.mp hinc
    exact le_trans hc.1.le (ih tx hc.2)

theorem lastTime_gt (samples : List (ℚ × ℚ)) (t0 : ℚ) (hne : samples ≠ [])
    (hinc : Increasing t0 samples) : t0 < lastTime t0 samples := by
  cases samples with
  | nil => exact absurd rfl hne
  | cons p rest =>
    obtain ⟨x, tx⟩ := p
    have hc : t0 < tx ∧ Increasing tx rest := List.chain_cons.mp hinc
    exact lt_of_lt_of_le hc.1 (lastTime_ge rest tx hc.2)

theorem TStats.calcMean_pos (t : TStats) (h : 0 < t.tnow) :
    t.calcMean = some (t.sum / t.tnow) := by
  unfold TStats.calcMean
  rw [if_neg (not_le.mpr h)]

/-- After a non-empty increasing feed to a reset object: every call succeeded, the time is
the last timestamp, which is positive, and `sum` and `sumsq` are the time integrals of the
values and of their squares. -/
theorem TStats.feed_reset_spec (s : TStats) (samples : List (ℚ × ℚ)) (hne : samples ≠ [])
    (hinc : Increasing 0 samples) :
    (s.resetTStats.feed samples).ok = true ∧
    (s.resetTStats.feed samples).state.tnow = lastTime 0 samples ∧
    (s.resetTStats.feed samples).state.sum = precedingIntegral 0 samples ∧
    (s.resetTStats.feed samples).state.sumsq =
      precedingIntegral 0 (samples.map (fun p => (p.1 * p.1, p.2))) ∧
    0 < lastTime 0 samples := by
  obtain ⟨h1, h2, h3, h4⟩ := TStats.feed_spec samples s.resetTStats hinc
  refine ⟨h1, h2, ?_, ?_, lastTime_gt samples 0 hne hinc⟩
  · rw [h3]
    show 0 + precedingIntegral 0 samples = _
    rw [zero_add]
  · rw [h4]
    show 0 + precedingIntegral 0 _ = _
    rw [zero_add]

/-- C6: for every non-empty sequence of samples `(x_1,t_1),...,(x_n,t_n)` with
`0 < t_1 < ... < t_n` fed to a reset `TStats` (both constructors end with `resetTStats`),
every `takeSample` succeeds, `getTime()` returns `t_n`, and `calcMean()` returns the sum of
`x_i * (t_i - t_{i-1})` divided by `t_n`, with `t_0 = 0`. -/
theorem TStats.feed_calcMean (s : TStats) (samples : List (ℚ × ℚ)) (hne : samples ≠ [])
    (hinc : Increasing 0 samples) :
    (s.resetTStats.feed samples).ok = true ∧
    (s.resetTStats.feed samples).state.getTime = lastTime 0 samples ∧
    (s.resetTStats.feed samples).state.calcMean =
      some (precedingIntegral 0 samples / lastTime 0 samples) := by
  obtain ⟨hok, htime, hsum, _, hpos⟩ := TStats.feed_reset_spec s samples hne hinc
  refine ⟨hok, htime, ?_⟩
  rw [TStats.calcMean_pos _ (by rw [htime]; exact hpos), hsum, htime]

/-- C6, witness: two samples, at times 1 and 3. -/
theorem TStats.feed_calcMean_witness :
    ([(5, 1), (7, 3)] : List (ℚ × ℚ)) ≠ [] ∧ Increasing 0 [(5, 1), (7, 3)] ∧
    (TStats.blank.resetTStats.feed [(5, 1), (7, 3)]).ok = true ∧
    (TStats.blank.resetTStats.feed [(5, 1), (7, 3)]).state.getTime =
      lastTime 0 [(5, 1), (7, 3)] ∧
    (TStats.blank.resetTStats.feed [(5, 1), (7, 3)]).state.calcMean =
      some (precedingIntegral 0 [(5, 1), (7, 3)] / lastTime 0 [(5, 1), (7, 3)]) :=
  have hne : ([(5, 1), (7, 3)] : List (ℚ × ℚ)) ≠ [] := by simp
  have hinc : Increasing 0 [(5, 1), (7, 3)] := by
    unfold Increasing; simp
  ⟨hne, hinc, TStats.feed_calcMean TStats.blank [(5, 1), (7, 3)] hne hinc⟩

/-- The bins of a configured `TStats` keep summing to `tnow`. -/
theorem TStats.run_histogram_sum (low high : ℚ) (bins : Int) (hlh : low < high) (hn : 0 < bins)
    (cs : List TStatsCall) : ∀ s : TStats, TStats.Configured low high bins s →
      s.histogram.sum = s.tnow → (s.run cs).histogram.sum = (s.run cs).tnow := by
  induction cs with
  | nil => intro s _ h; exact h
  | cons c cs ih =>
    intro s hc h
    rw [TStats.run_cons_timed]
    cases c with
    | takeSample x tx =>
      refine ih _ (TStats.configured_takeSample_timed low high bins s x tx hc) ?_
      show (s.takeSample x tx).state.histogram.sum = (s.takeSample x tx).state.tnow
      by_cases ht : s.tnow < tx
      · rw [TStats.takeSample_returned s x tx ht]
        show (if s.histo then addAt s.histogram _ _ else s.histogram).sum = tx
        rw [hc.1, if_pos rfl,
          addAt_sum _ _ _ (TStats.binIndex_lt_length_timed low high bins s x hlh hn hc), h]
        ring
      · rw [TStats.takeSample_exited s x tx (not_lt.mp ht)]
        exact h
    | resetTStats =>
      refine ih _ (TStats.configured_resetTStats low high bins s hc) ?_
      show s.resetTStats.histogram.sum = 0
      rw [TStats.resetTStats_histogram low high bins s hc]
      simp

/-- C8: on a `TStats` constructed with a histogram, after any sequence of `resetTStats` and
`takeSample` calls (a failed call leaving the object as it was), the array has `nbin+2`
entries and their sum equals `getTime()`. -/
theorem TStats.histogram_sum_getTime (low high : ℚ) (bins : Int) (t0 : TStats)
    (cs : List TStatsCall) (ht : TStats.TStats_histo low high bins = some t0) :
    (t0.run cs).histogram.length = (bins + 2).toNat ∧
    (t0.run cs).histogram.sum = (t0.run cs).getTime := by
  obtain ⟨hlh, hn, hc0, ht0, hz⟩ := TStats.histo_spec_timed low high bins t0 ht
  refine ⟨(TStats.configured_run_timed low high bins cs t0 hc0).2.2.2.2.2, ?_⟩
  refine TStats.run_histogram_sum low high bins hlh hn cs t0 hc0 ?_
  rw [hz, ht0]; simp

/-- C8, witness: the object of the test program after an accepted sample, a rejected one,
a reset and two more accepted samples. -/
theorem TStats.histogram_sum_getTime_witness :
    TStats.TStats_histo 0 100 10 = some (TStats.TStats_histo_init 0 100 10).resetTStats ∧
    (((TStats.TStats_histo_init 0 100 10).resetTStats).run
      [.takeSample 88 1, .takeSample 12 1, .resetTStats, .takeSample 63 (3 / 2),
        .takeSample 34 6]).histogram.sum =
    (((TStats.TStats_histo_init 0 100 10).resetTStats).run
      [.takeSample 88 1, .takeSample 12 1, .resetTStats, .takeSample 63 (3 / 2),
        .takeSample 34 6]).getTime :=
  ⟨TStats.histo_some_timed 0 100 10 (by norm_num) (by norm_num),
    (TStats.histogram_sum_getTime 0 100 10 _ _
      (TStats.histo_some_timed 0 100 10 (by norm_num) (by norm_num))).2⟩


/-! ## The TStats test program -/

theorem tstatsTest_samples :
    List.zip tstatsTestA tstatsTestT =
      [(88, 1), (12, 3 / 2), (63, 33 / 10), (34, 6), (77, 36 / 5), (95, 17 / 2), (12, 9),
        (2, 58 / 5), (99, 53 / 4), (6, 161 / 10), (88, 41), (45, 59), (76, 333 / 5), (46, 78),
        (3, 147), (12, 385 / 2)] := by
  norm_num [tstatsTestA, tstatsTestT]

theorem tstatsTest_increasing : Increasing 0 (List.zip tstatsTestA tstatsTestT) := by
  rw [tstatsTest_samples]
  unfold Increasing
  simp only [List.map_cons, List.map_nil, List.chain_cons, List.Chain.nil, and_true]
  norm_num

theorem tstatsTest_lastTime : lastTime 0 (List.zip tstatsTestA tstatsTestT) = 192.5 := by
  rw [tstatsTest_samples]
  norm_num [lastTime]

theorem tstatsTest_precedingIntegral :
    precedingIntegral 0 (List.zip tstatsTestA tstatsTestT) = 111259 / 20 := by
  rw [tstatsTest_samples]
  norm_num [precedingIntegral]

theorem tstatsTest_followingIntegral :
    followingIntegral (List.zip tstatsTestA tstatsTestT) = 139861 / 20 := by
  rw [tstatsTest_samples]
  norm_num [followingIntegral]

/-- C7 (as amended): the object `X(0.,100.,10)` of the test program, fed the 16 values `A` at
the times `T`, accepts every sample, `getTime()` is 192.5, and `calcMean()` equals the sum
over i = 1..16 of `A_i * (T_i - T_{i-1})` divided by 192.5, with `T_0 = 0`: each sample is
weighted by the time since the previous sample. -/
theorem tstatsTest_calcMean :
    tstatsTestX = some (TStats.TStats_histo_init 0 100 10).resetTStats ∧
    ((TStats.TStats_histo_init 0 100 10).resetTStats.feed
      (List.zip tstatsTestA tstatsTestT)).ok = true ∧
    ((TStats.TStats_histo_init 0 100 10).resetTStats.feed
      (List.zip tstatsTestA tstatsTestT)).state.getTime = 192.5 ∧
    ((TStats.TStats_histo_init 0 100 10).resetTStats.feed
      (List.zip tstatsTestA tstatsTestT)).state.calcMean =
      some (precedingIntegral 0 (List.zip tstatsTestA tstatsTestT) / 192.5) := by
  have hne : List.zip tstatsTestA tstatsTestT ≠ [] := by
    rw [tstatsTest_samples]; exact List.cons_ne_nil _ _
  obtain ⟨h1, h2, h3, _, hpos⟩ := TStats.feed_reset_spec (TStats.TStats_histo_init 0 100 10)
    (List.zip tstatsTestA tstatsTestT) hne tstatsTest_increasing
  refine ⟨TStats.histo_some_timed 0 100 10 (by norm_num) (by norm_num), h1, ?_, ?_⟩
  · exact h2.trans tstatsTest_lastTime
  · rw [TStats.calcMean_pos _ (by rw [h2]; exact hpos), h3, h2, tstatsTest_lastTime]

/-- C7, counterexample: on the test data `calcMean()` is not the sum of
`A_i * (T_{i+1} - T_i)` divided by 192.5; the code gives 111259/3850, that formula
139861/3850. -/
theorem tstatsTest_calcMean_counterexample :
    ((TStats.TStats_histo_init 0 100 10).resetTStats.feed
      (List.zip tstatsTestA tstatsTestT)).state.calcMean = some (111259 / 3850) ∧
    followingIntegral (List.zip tstatsTestA tstatsTestT) / 192.5 = 139861 / 3850 ∧
    ((TStats.TStats_histo_init 0 100 10).resetTStats.feed
      (List.zip tstatsTestA tstatsTestT)).state.calcMean ≠
      some (followingIntegral (List.zip tstatsTestA tstatsTestT) / 192.5) := by
  have hne : List.zip tstatsTestA tstatsTestT ≠ [] := by
    rw [tstatsTest_samples]; exact List.cons_ne_nil _ _
  obtain ⟨_, h2, hsum, _, hpos⟩ := TStats.feed_reset_spec (TStats.TStats_histo_init 0 100 10)
    (List.zip tstatsTestA tstatsTestT) hne tstatsTest_increasing
  have h3 := TStats.calcMean_pos _ (show 0 < ((TStats.TStats_histo_init 0 100 10).resetTStats.feed
    (List.zip tstatsTestA tstatsTestT)).state.tnow by rw [h2]; exact hpos)
  rw [hsum, h2, tstatsTest_lastTime, tstatsTest_precedingIntegral] at h3
  have hv : (111259 / 20 : ℚ) / 192.5 = 111259 / 3850 := by norm_num
  have hf : followingIntegral (List.zip tstatsTestA tstatsTestT) / 192.5 = 139861 / 3850 := by
    rw [tstatsTest_followingIntegral]; norm_num
  rw [hv] at h3
  refine ⟨h3, hf, ?_⟩
  rw [h3, hf]
  intro h
  have := Option.some.inj h
  norm_num at this


/-! ## TStats: standard deviation -/

/-- Time-weighted sum of squared deviations from `m`, expanded. -/
theorem weightedSqDev_expand (m : ℚ) (samples : List (ℚ × ℚ)) :
    ∀ t0 : ℚ, weightedSqDev m t0 samples =
      precedingIntegral t0 (samples.map (fun p => (p.1 * p.1, p.2)))
        - 2 * m * precedingIntegral t0 samples + m ^ 2 * (lastTime t0 samples - t0) := by
  induction samples with
  | nil =>
    intro t0
    show (0 : ℚ) = 0 - 2 * m * 0 + m ^ 2 * (t0 - t0)
    ring
  | cons p rest ih =>
    obtain ⟨x, tx⟩ := p
    intro t0
    show (tx - t0) * (x - m) ^ 2 + weightedSqDev m tx rest =
      (x * x * (tx - t0) + precedingIntegral tx (rest.map (fun p => (p.1 * p.1, p.2))))
        - 2 * m * (x * (tx - t0) + precedingIntegral tx rest)
        + m ^ 2 * (lastTime tx rest - t0)
    rw [ih tx]
    ring

theorem TStats.calcStDev_eq (sqrt : ℚ → ℚ) (t : TStats) :
    t.calcStDev sqrt =
      if t.tnow ≤ 0 then none
      else some (sqrt (t.sumsq / t.tnow - (t.sum / t.tnow) ^ 2)) := by
  unfold TStats.calcStDev
  simp only [pow_two]

/-- C9: for every `TStats` state `t`, `calcStDev` fails exactly when `tnow <= 0`, as
`calcMean` does, and otherwise returns `sqrt((sumsq/tnow) - mean^2)`; and after a non-empty
sequence of samples with increasing positive times fed to a reset `TStats`, the quantity
under the root is the time-weighted population variance: the sum of
`(t_i - t_{i-1}) * (x_i - mean)^2` divided by `tnow`, where `mean` is the value of
`calcMean()`. -/
theorem TStats.calcStDev_spec (sqrt : ℚ → ℚ) (t s : TStats) (samples : List (ℚ × ℚ))
    (hne : samples ≠ []) (hinc : Increasing 0 samples) :
    (t.calcStDev sqrt = none ↔ t.tnow ≤ 0) ∧
    (t.calcMean = none ↔ t.tnow ≤ 0) ∧
    (t.calcStDev sqrt =
      if t.tnow ≤ 0 then none
      else some (sqrt (t.sumsq / t.tnow - (t.sum / t.tnow) ^ 2))) ∧
    (s.resetTStats.feed samples).state.calcMean =
      some (precedingIntegral 0 samples / lastTime 0 samples) ∧
    (s.resetTStats.feed samples).state.calcStDev sqrt =
      some (sqrt (weightedSqDev (precedingIntegral 0 samples / lastTime 0 samples) 0 samples
        / (s.resetTStats.feed samples).state.getTime)) := by
  obtain ⟨_, h2, h3, h4, hpos⟩ := TStats.feed_reset_spec s samples hne hinc
  refine ⟨?_, ?_, TStats.calcStDev_eq sqrt t, ?_, ?_⟩
  · rw [TStats.calcStDev_eq]
    by_cases h : t.tnow ≤ 0
    · simp [h]
    · simp [h]
  · unfold TStats.calcMean
    by_cases h : t.tnow ≤ 0
    · simp [h]
    · simp [h]
  · rw [TStats.calcMean_pos _ (by rw [h2]; exact hpos), h3, h2]
  · have hT : lastTime 0 samples ≠ 0 := ne_of_gt hpos
    rw [TStats.calcStDev_eq]
    show (if (s.resetTStats.feed samples).state.tnow ≤ 0 then none else _) =
      some (sqrt (_ / (s.resetTStats.feed samples).state.tnow))
    rw [h2, h3, h4, if_neg (not_le.mpr hpos), weightedSqDev_expand]
    congr 2
    field_simp
    ring

/-- C9, witness: two samples, at times 1 and 3, and the state after them. -/
theorem TStats.calcStDev_spec_witness :
    ([(5, 1), (7, 3)] : List (ℚ × ℚ)) ≠ [] ∧ Increasing 0 [(5, 1), (7, 3)] ∧
    (TStats.blank.resetTStats.feed [(5, 1), (7, 3)]).state.calcStDev id =
      some (id (weightedSqDev (precedingIntegral 0 [(5, 1), (7, 3)] /
        lastTime 0 [(5, 1), (7, 3)]) 0 [(5, 1), (7, 3)]
        / (TStats.blank.resetTStats.feed [(5, 1), (7, 3)]).state.getTime)) :=
  have hne : ([(5, 1), (7, 3)] : List (ℚ × ℚ)) ≠ [] := by simp
  have hinc : Increasing 0 [(5, 1), (7, 3)] := by
    unfold Increasing; simp
  ⟨hne, hinc,
    (TStats.calcStDev_spec id TStats.blank TStats.blank [(5, 1), (7, 3)] hne hinc).2.2.2.2⟩


/-! ## Reset -/

theorem fillLoop_idem {α : Type} (z : α) (n : Int) (h : List α) :
    fillLoop z n (fillLoop z n h) = fillLoop z n h := by
  unfold fillLoop
  obtain ⟨hl, hg⟩ := fillLoop_aux z n.toNat h
  obtain ⟨_, hg2⟩ := fillLoop_aux z n.toNat
    ((List.range n.toNat).foldl (fun h i => h.set i z) h)
  apply List.ext_getElem?
  intro i
  rw [hg2, hl, hg]
  split_ifs <;> rfl

theorem Stats.eq_of_fields (a b : Stats) (h1 : a.count = b.count) (h2 : a.sum = b.sum)
    (h3 : a.sumsq = b.sumsq) (h4 : a.min = b.min) (h5 : a.max = b.max)
    (h6 : a.histo = b.histo) (h7 : a.nbin = b.nbin) (h8 : a.bin = b.bin) (h9 : a.lo = b.lo)
    (h10 : a.hi = b.hi) (h11 : a.histogram = b.histogram) : a = b := by
  cases a; cases b
  simp only [Stats.mk.injEq]
  exact ⟨h1, h2, h3, h4, h5, h6, h7, h8, h9, h10, h11⟩

theorem TStats.eq_of_fields_timed (a b : TStats) (h1 : a.tnow = b.tnow) (h2 : a.sum = b.sum)
    (h3 : a.sumsq = b.sumsq) (h4 : a.min = b.min) (h5 : a.max = b.max)
    (h6 : a.histo = b.histo) (h7 : a.nbin = b.nbin) (h8 : a.bin = b.bin) (h9 : a.lo = b.lo)
    (h10 : a.hi = b.hi) (h11 : a.histogram = b.histogram) : a = b := by
  cases a; cases b
  simp only [TStats.mk.injEq]
  exact ⟨h1, h2, h3, h4, h5, h6, h7, h8, h9, h10, h11⟩

theorem Stats.resetStats_idem (s : Stats) : s.resetStats.resetStats = s.resetStats := by
  apply Stats.eq_of_fields <;> try rfl
  show (if s.histo then fillLoop 0 (s.nbin + 2)
      (if s.histo then fillLoop 0 (s.nbin + 2) s.histogram else s.histogram)
    else (if s.histo then fillLoop 0 (s.nbin + 2) s.histogram else s.histogram)) =
    (if s.histo then fillLoop 0 (s.nbin + 2) s.histogram else s.histogram)
  cases s.histo
  · rfl
  · simp only [if_true]; exact fillLoop_idem _ _ _

theorem TStats.resetTStats_idem (s : TStats) : s.resetTStats.resetTStats = s.resetTStats := by
  apply TStats.eq_of_fields_timed <;> try rfl
  show (if s.histo then fillLoop 0 (s.nbin + 2)
      (if s.histo then fillLoop 0 (s.nbin + 2) s.histogram else s.histogram)
    else (if s.histo then fillLoop 0 (s.nbin + 2) s.histogram else s.histogram)) =
    (if s.histo then fillLoop 0 (s.nbin + 2) s.histogram else s.histogram)
  cases s.histo
  · rfl
  · simp only [if_true]; exact fillLoop_idem _ _ _

/-- Resetting a configured object gives the freshly constructed one. -/
theorem Stats.resetStats_of_configured (low high : ℚ) (bins : Int) (s : Stats)
    (h : Stats.Configured low high bins s) :
    s.resetStats = (Stats.Stats_histo_init low high bins).resetStats := by
  have hz := Stats.resetStats_histogram low high bins s h
  have hz0 : (Stats.Stats_histo_init low high bins).resetStats.histogram =
      List.replicate (bins + 2).toNat 0 :=
    fillLoop_eq_replicate 0 (bins + 2) _ (List.length_replicate _ _)
  obtain ⟨h1, h2, h3, h4, h5, _⟩ := h
  exact Stats.eq_of_fields _ _ rfl rfl rfl rfl rfl h1 h4 h5 h2 h3 (hz.trans hz0.symm)

/-- Resetting a configured object gives the freshly constructed one. -/
theorem TStats.resetTStats_of_configured (low high : ℚ) (bins : Int) (s : TStats)
    (h : TStats.Configured low high bins s) :
    s.resetTStats = (TStats.TStats_histo_init low high bins).resetTStats := by
  have hz := TStats.resetTStats_histogram low high bins s h
  have hz0 : (TStats.TStats_histo_init low high bins).resetTStats.histogram =
      List.replicate (bins + 2).toNat 0 :=
    fillLoop_eq_replicate 0 (bins + 2) _ (List.length_replicate _ _)
  obtain ⟨h1, h2, h3, h4, h5, _⟩ := h
  exact TStats.eq_of_fields_timed _ _ rfl rfl rfl rfl rfl h1 h4 h5 h2 h3 (hz.trans hz0.symm)

/-- Without a histogram no call touches the histogram members. -/
theorem Stats.run_no_histo (cs : List StatsCall) : ∀ s : Stats, s.histo = false →
    (s.run cs).histo = false ∧ (s.run cs).nbin = s.nbin ∧ (s.run cs).bin = s.bin ∧
    (s.run cs).lo = s.lo ∧ (s.run cs).hi = s.hi ∧ (s.run cs).histogram = s.histogram := by
  induction cs with
  | nil => intro s h; exact ⟨h, rfl, rfl, rfl, rfl, rfl⟩
  | cons c cs ih =>
    intro s h
    rw [Stats.run_cons]
    cases c with
    | takeSample x =>
      have hh : (s.takeSample x).histo = false := by rw [Stats.takeSample_eq]; exact h
      have hg : (s.takeSample x).histogram = s.histogram := by
        rw [Stats.takeSample_eq]
        show (if s.histo then _ else s.histogram) = s.histogram
        rw [h]; rfl
      obtain ⟨a1, a2, a3, a4, a5, a6⟩ := ih (s.takeSample x) hh
      exact ⟨a1, a2.trans (by rw [Stats.takeSample_eq]), a3.trans (by rw [Stats.takeSample_eq]),
        a4.trans (by rw [Stats.takeSample_eq]), a5.trans (by rw [Stats.takeSample_eq]),
        a6.trans hg⟩
    | resetStats =>
      have hh : s.resetStats.histo = false := h
      have hg : s.resetStats.histogram = s.histogram := by
        show (if s.histo then _ else s.histogram) = s.histogram
        rw [h]; rfl
      obtain ⟨a1, a2, a3, a4, a5, a6⟩ := ih s.resetStats hh
      exact ⟨a1, a2, a3, a4, a5, a6.trans hg⟩

/-- Without a histogram no call touches the histogram members. -/
theorem TStats.run_no_histo_timed (cs : List TStatsCall) : ∀ s : TStats, s.histo = false →
    (s.run cs).histo = false ∧ (s.run cs).nbin = s.nbin ∧ (s.run cs).bin = s.bin ∧
    (s.run cs).lo = s.lo ∧ (s.run cs).hi = s.hi ∧ (s.run cs).histogram = s.histogram := by
  induction cs with
  | nil => intro s h; exact ⟨h, rfl, rfl, rfl, rfl, rfl⟩
  | cons c cs ih =>
    intro s h
    rw [TStats.run_cons_timed]
    cases c with
    | takeSample x tx =>
      have key : (s.takeSample x tx).state.histo = false ∧
          (s.takeSample x tx).state.nbin = s.nbin ∧ (s.takeSample x tx).state.bin = s.bin ∧
          (s.takeSample x tx).state.lo = s.lo ∧ (s.takeSample x tx).state.hi = s.hi ∧
          (s.takeSample x tx).state.histogram = s.histogram := by
        by_cases ht : s.tnow < tx
        · rw [TStats.takeSample_returned s x tx ht]
          refine ⟨h, rfl, rfl, rfl, rfl, ?_⟩
          show (if s.histo then _ else s.histogram) = s.histogram
          rw [h]; rfl
        · rw [TStats.takeSample_exited s x tx (not_lt.mp ht)]
          exact ⟨h, rfl, rfl, rfl, rfl, rfl⟩
      obtain ⟨a1, a2, a3, a4, a5, a6⟩ := ih (s.takeSample x tx).state key.1
      exact ⟨a1, a2.trans key.2.1, a3.trans key.2.2.1, a4.trans key.2.2.2.1,
        a5.trans key.2.2.2.2.1, a6.trans key.2.2.2.2.2⟩
    | resetTStats =>
      have hh : s.resetTStats.histo = false := h
      have hg : s.resetTStats.histogram = s.histogram := by
        show (if s.histo then _ else s.histogram) = s.histogram
        rw [h]; rfl
      obtain ⟨a1, a2, a3, a4, a5, a6⟩ := ih s.resetTStats hh
      exact ⟨a1, a2, a3, a4, a5, a6.trans hg⟩

theorem Stats.reset_run_void (mem : Stats) (cs : List StatsCall) :
    ((Stats.Stats_void mem).run cs).resetStats = Stats.Stats_void mem := by
  obtain ⟨a1, a2, a3, a4, a5, a6⟩ := Stats.run_no_histo cs (Stats.Stats_void mem) rfl
  refine Stats.eq_of_fields _ _ rfl rfl rfl rfl rfl a1 a2 a3 a4 a5 ?_
  show (if ((Stats.Stats_void mem).run cs).histo then _
    else ((Stats.Stats_void mem).run cs).histogram) = _
  rw [a1, a6]; rfl

theorem TStats.reset_run_void_timed (mem : TStats) (cs : List TStatsCall) :
    ((TStats.TStats_void mem).run cs).resetTStats = TStats.TStats_void mem := by
  obtain ⟨a1, a2, a3, a4, a5, a6⟩ := TStats.run_no_histo_timed cs (TStats.TStats_void mem) rfl
  refine TStats.eq_of_fields_timed _ _ rfl rfl rfl rfl rfl a1 a2 a3 a4 a5 ?_
  show (if ((TStats.TStats_void mem).run cs).histo then _
    else ((TStats.TStats_void mem).run cs).histogram) = _
  rw [a1, a6]; rfl

/-- C10: for both classes, after any sequence of calls on a constructed object, reset
yields exactly the freshly constructed object (counter or time 0, sums 0, `min`/`max` at
the sentinels, all `nbin+2` bins zero, `lo`, `hi`, `nbin`, `bin` as constructed), with or
without a histogram; so a sequence of calls made after the reset gives the state that the
same calls give on a fresh object; and reset applied twice equals reset applied once. -/
theorem reset_restores_fresh (low high : ℚ) (bins : Int) (s0 s mem : Stats)
    (t0 t tmem : TStats) (cs ds : List StatsCall) (tcs tds : List TStatsCall)
    (hs : Stats.Stats_histo low high bins = some s0)
    (ht : TStats.TStats_histo low high bins = some t0) :
    ((s0.run cs).resetStats = s0 ∧ ((Stats.Stats_void mem).run cs).resetStats =
        Stats.Stats_void mem) ∧
    ((s0.run cs).resetStats.run ds = s0.run ds ∧
      ((Stats.Stats_void mem).run cs).resetStats.run ds = (Stats.Stats_void mem).run ds) ∧
    s.resetStats.resetStats = s.resetStats ∧
    (s0.count = 0 ∧ s0.sum = 0 ∧ s0.sumsq = 0 ∧ s0.min = DBL_MAX ∧ s0.max = -DBL_MAX ∧
      s0.histogram = List.replicate (bins + 2).toNat 0 ∧ s0.lo = low ∧ s0.hi = high ∧
      s0.nbin = bins ∧ s0.bin = (high - low) / bins) ∧
    ((t0.run tcs).resetTStats = t0 ∧ ((TStats.TStats_void tmem).run tcs).resetTStats =
        TStats.TStats_void tmem) ∧
    ((t0.run tcs).resetTStats.run tds = t0.run tds ∧
      ((TStats.TStats_void tmem).run tcs).resetTStats.run tds =
        (TStats.TStats_void tmem).run tds) ∧
    t.resetTStats.resetTStats = t.resetTStats ∧
    (t0.tnow = 0 ∧ t0.sum = 0 ∧ t0.sumsq = 0 ∧ t0.min = DBL_MAX ∧ t0.max = -DBL_MAX ∧
      t0.histogram = List.replicate (bins + 2).toNat 0 ∧ t0.lo = low ∧ t0.hi = high ∧
      t0.nbin = bins ∧ t0.bin = (high - low) / bins) := by
  obtain ⟨hlh, hn, hc0, _, hz⟩ := Stats.histo_spec low high bins s0 hs
  obtain ⟨_, _, htc0, _, htz⟩ := TStats.histo_spec_timed low high bins t0 ht
  have hs0 : s0 = (Stats.Stats_histo_init low high bins).resetStats := by
    rw [Stats.histo_some low high bins hlh hn] at hs
    exact (Option.some.inj hs).symm
  have ht0 : t0 = (TStats.TStats_histo_init low high bins).resetTStats := by
    rw [TStats.histo_some_timed low high bins hlh hn] at ht
    exact (Option.some.inj ht).symm
  have e1 : (s0.run cs).resetStats = s0 := by
    rw [Stats.resetStats_of_configured low high bins _
      (Stats.configured_run low high bins cs s0 hc0)]
    exact hs0.symm
  have e2 := Stats.reset_run_void mem cs
  have e3 : (t0.run tcs).resetTStats = t0 := by
    rw [TStats.resetTStats_of_configured low high bins _
      (TStats.configured_run_timed low high bins tcs t0 htc0)]
    exact ht0.symm
  have e4 := TStats.reset_run_void_timed tmem tcs
  refine ⟨⟨e1, e2⟩, ⟨by rw [e1], by rw [e2]⟩, Stats.resetStats_idem s, ?_, ⟨e3, e4⟩,
    ⟨by rw [e3], by rw [e4]⟩, TStats.resetTStats_idem t, ?_⟩
  · refine ⟨?_, ?_, ?_, ?_, ?_, hz, hc0.2.1, hc0.2.2.1, hc0.2.2.2.1, hc0.2.2.2.2.1⟩ <;>
      (rw [hs0]; rfl)
  · refine ⟨?_, ?_, ?_, ?_, ?_, htz, htc0.2.1, htc0.2.2.1, htc0.2.2.2.1, htc0.2.2.2.2.1⟩ <;>
      (rw [ht0]; rfl)

/-- C10, witness: the objects `X(0.,100.,10)` of the two test programs. -/
theorem reset_restores_fresh_witness :
    Stats.Stats_histo 0 100 10 = some (Stats.Stats_histo_init 0 100 10).resetStats ∧
    TStats.TStats_histo 0 100 10 = some (TStats.TStats_histo_init 0 100 10).resetTStats ∧
    ((((Stats.Stats_histo_init 0 100 10).resetStats).run
        [.takeSample 88, .takeSample 12]).resetStats =
      (Stats.Stats_histo_init 0 100 10).resetStats) ∧
    ((((TStats.TStats_histo_init 0 100 10).resetTStats).run
        [.takeSample 88 1, .takeSample 12 (3 / 2)]).resetTStats =
      (TStats.TStats_histo_init 0 100 10).resetTStats) :=
  have hs := Stats.histo_some 0 100 10 (by norm_num) (by norm_num)
  have ht := TStats.histo_some_timed 0 100 10 (by norm_num) (by norm_num)
  have h := reset_restores_fresh 0 100 10 _ Stats.blank Stats.blank _ TStats.blank TStats.blank
    [.takeSample 88, .takeSample 12] [] [.takeSample 88 1, .takeSample 12 (3 / 2)] [] hs ht
  ⟨hs, ht, h.1.1, h.2.2.2.2.1.1⟩

/-! ## The table ZTable -/

theorem chain_of_zip_tail (l : List Nat) (h : ∀ p ∈ l.zip l.tail, p.1 ≤ p.2) :
    List.Chain' (fun a b => a ≤ b) l := by
  induction l with
  | nil => exact List.chain'_nil
  | cons a l ih =>
    cases l with
    | nil => exact List.chain'_singleton a
    | cons b l =>
      rw [List.chain'_cons]
      refine ⟨h (a, b) (by simp), ih ?_⟩
      intro p hp
      exact h p (by simp only [List.tail_cons, List.zip_cons_cons, List.mem_cons] at hp ⊢; exact Or.inr hp)

set_option maxRecDepth 100000 in
theorem ZTableNum_adjacent : ∀ p ∈ ZTableNum.zip ZTableNum.tail, p.1 ≤ p.2 := by decide

set_option maxRecDepth 100000 in
theorem ZTableNum_length : ZTableNum.length = 400 := by decide

theorem ZTable_length : ZTable.length = 400 := by
  unfold ZTable
  rw [List.length_map, ZTableNum_length]

/-- The table is non-decreasing. -/
theorem ZTableNum_sorted : List.Pairwise (fun a b => a ≤ b) ZTableNum :=
  List.chain'_iff_pairwise.mp (chain_of_zip_tail ZTableNum ZTableNum_adjacent)

theorem ZTableNum_mono (i j : Nat) (hij : i ≤ j) (hj : j < 400) :
    ZTableNum.getD i 0 ≤ ZTableNum.getD j 0 := by
  have hjl : j < ZTableNum.length := by rw [ZTableNum_length]; exact hj
  have hil : i < ZTableNum.length := lt_of_le_of_lt hij hjl
  rw [List.getD_eq_getElem _ _ hil, List.getD_eq_getElem _ _ hjl]
  rcases Nat.eq_or_lt_of_le hij with h | h
  · subst h; exact le_refl _
  · exact List.pairwise_iff_getElem.mp ZTableNum_sorted i j hil hjl h

theorem ZTable_getD (j : Nat) : ZTable.getD j 0 = (ZTableNum.getD j 0 : ℚ) / 100000 := by
  unfold ZTable
  by_cases hj : j < ZTableNum.length
  · rw [List.getD_eq_getElem _ _ (by rw [List.length_map]; exact hj),
      List.getD_eq_getElem _ _ hj, List.getElem_map]
  · have h1 : ZTableNum.length ≤ j := Nat.le_of_not_lt hj
    rw [List.getD_eq_default _ _ (by rw [List.length_map]; exact h1),
      List.getD_eq_default _ _ h1]
    norm_num

/-- The loop condition on the numerators. -/
theorem above_iff (c : ℚ) (j : Nat) :
    ZTable.getD j 0 - 0.5 > c / 2.0 ↔ 50000 + 50000 * c < (ZTableNum.getD j 0 : ℚ) := by
  rw [ZTable_getD]
  constructor
  · intro h
    have h' : c / 2 < (ZTableNum.getD j 0 : ℚ) / 100000 - 1 / 2 := by
      norm_num at h ⊢; linarith
    linarith
  · intro h
    have h' : c / 2 < (ZTableNum.getD j 0 : ℚ) / 100000 - 1 / 2 := by linarith
    norm_num at h' ⊢
    linarith

/-! ## The scan of calcErrorMargin -/

theorem scanLoop_eq (steps : Nat) (c : ℚ) (i : Nat) :
    scanLoop steps c i =
      if i < steps then
        if (ZTable.getD i 0 - 0.5) > (c / 2.0) then i else scanLoop steps c (i + 1)
      else i := by
  rw [scanLoop]

/-- The loop ends at the first index from `i` on that satisfies the condition, or at
`steps` when there is none. -/
theorem scanLoop_spec (steps : Nat) (c : ℚ) : ∀ n i, steps - i = n → i ≤ steps →
    i ≤ scanLoop steps c i ∧ scanLoop steps c i ≤ steps ∧
    (scanLoop steps c i < steps → ZTable.getD (scanLoop steps c i) 0 - 0.5 > c / 2.0) ∧
    ∀ j, i ≤ j → j < scanLoop steps c i → ¬ (ZTable.getD j 0 - 0.5 > c / 2.0) := by
  intro n
  induction n with
  | zero =>
    intro i hn hi
    have hnot : ¬ i < steps := by omega
    rw [scanLoop_eq, if_neg hnot]
    exact ⟨le_refl _, hi, fun h => absurd h hnot, fun j h1 h2 => absurd h2 (by omega)⟩
  | succ n ih =>
    intro i hn hi
    have hlt : i < steps := by omega
    rw [scanLoop_eq, if_pos hlt]
    by_cases hc : ZTable.getD i 0 - 0.5 > c / 2.0
    · rw [if_pos hc]
      exact ⟨le_refl _, hi, fun _ => hc, fun j h1 h2 => absurd h2 (by omega)⟩
    · rw [if_neg hc]
      obtain ⟨h1, h2, h3, h4⟩ := ih (i + 1) (by omega) (by omega)
      refine ⟨by omega, h2, h3, ?_⟩
      intro j hj1 hj2
      rcases Nat.eq_or_lt_of_le hj1 with he | hl
      · rw [← he]; exact hc
      · exact h4 j (by omega) hj2

/-- The loop result is determined by its specification. -/
theorem scanLoop_unique (steps : Nat) (c : ℚ) (i r : Nat) (hi : i ≤ r) (hr : r ≤ steps)
    (hcond : r < steps → ZTable.getD r 0 - 0.5 > c / 2.0)
    (hbefore : ∀ j, i ≤ j → j < r → ¬ (ZTable.getD j 0 - 0.5 > c / 2.0)) :
    scanLoop steps c i = r := by
  obtain ⟨h1, h2, h3, h4⟩ := scanLoop_spec steps c (steps - i) i rfl (by omega)
  rcases Nat.lt_trichotomy (scanLoop steps c i) r with h | h | h
  · exact absurd (h3 (by omega)) (hbefore _ h1 h)
  · exact h
  · exact absurd (hcond (by omega)) (h4 r hi h)

theorem calcErrorMargin_eq (sqrt : ℚ → ℚ) (stdev : ℚ) (count : Int) (c : ℚ) :
    calcErrorMargin sqrt stdev count c =
      if c > 0.1 ∧ c < 1.0 then
        some ((scanLoop 400 c 1 : ℚ) * (4.0 / 400) * stdev / sqrt count)
      else none := by
  unfold calcErrorMargin
  by_cases h : c > 0.1 ∧ c < 1.0
  · simp only [h, not_true_eq_false, and_self, if_false, if_true]
    norm_num
  · simp only [h, not_false_eq_true, if_true, if_false]

theorem ZTableNum_at_0 : ZTableNum.getD 0 0 = 50000 := by decide

set_option maxRecDepth 100000 in
theorem ZTableNum_at_195 : ZTableNum.getD 195 0 = 97441 := by decide

set_option maxRecDepth 100000 in
theorem ZTableNum_at_196 : ZTableNum.getD 196 0 = 97500 := by decide

set_option maxRecDepth 100000 in
theorem ZTableNum_at_197 : ZTableNum.getD 197 0 = 97558 := by decide

set_option maxRecDepth 100000 in
theorem ZTableNum_le_max : ∀ n ∈ ZTableNum, n ≤ 99997 := by decide

theorem ZTableNum_getD_le_max (j : Nat) : ZTableNum.getD j 0 ≤ 99997 := by
  by_cases hj : j < ZTableNum.length
  · rw [List.getD_eq_getElem _ _ hj]
    exact ZTableNum_le_max _ (List.getElem_mem _)
  · rw [List.getD_eq_default _ _ (Nat.le_of_not_lt hj)]
    omega

/-- No entry of the table satisfies the loop condition once `c / 2 ≥ 0.49997`. -/
theorem not_above_of_large (c : ℚ) (hc : 0.99994 ≤ c) (j : Nat) :
    ¬ (ZTable.getD j 0 - 0.5 > c / 2.0) := by
  rw [above_iff]
  have h := ZTableNum_getD_le_max j
  have h' : (ZTableNum.getD j 0 : ℚ) ≤ 99997 := by exact_mod_cast h
  norm_num at hc
  intro hlt
  linarith

/-- C12 (as amended): for every confidence level `c` with `0.1 < c < 1.0`, every `stdev`
and every `count`, `calcErrorMargin(stdev, count, c)` returns `z * stdev / sqrt(count)`
with `z = i * (4.0/400)`, where `i` is the smallest index of the 400-entry `ZTable` with
`ZTable[i] - 0.5 > c/2` when there is such an index, and `i = 400` when there is none. -/
theorem calcErrorMargin_scan (sqrt : ℚ → ℚ) (stdev : ℚ) (count : Int) (c : ℚ)
    (h1 : 0.1 < c) (h2 : c < 1.0) :
    ZTable.length = 400 ∧
    ∃ i : Nat, calcErrorMargin sqrt stdev count c =
        some ((i : ℚ) * (4.0 / 400) * stdev / sqrt count) ∧
      (FirstIndexAbove c i ∨
        (i = 400 ∧ ∀ j, j < ZTable.length → ¬ (ZTable.getD j 0 - 0.5 > c / 2))) := by
  refine ⟨ZTable_length, scanLoop 400 c 1, ?_, ?_⟩
  · rw [calcErrorMargin_eq, if_pos ⟨h1, h2⟩]
  · have h20 : c / 2.0 = c / 2 := by norm_num
    obtain ⟨a1, a2, a3, a4⟩ := scanLoop_spec 400 c 399 1 rfl (by omega)
    rw [h20] at a3
    have hzero : ¬ (ZTable.getD 0 0 - 0.5 > c / 2) := by
      rw [← h20, above_iff, ZTableNum_at_0]
      norm_num at h1 ⊢
      linarith
    have hbefore : ∀ j, j < scanLoop 400 c 1 → ¬ (ZTable.getD j 0 - 0.5 > c / 2) := by
      intro j hj
      rcases Nat.eq_zero_or_pos j with h0 | hpos
      · rw [h0]; exact hzero
      · rw [← h20]; exact a4 j hpos hj
    rcases Nat.lt_or_ge (scanLoop 400 c 1) 400 with hlt | hge
    · left
      exact ⟨by rw [ZTable_length]; exact hlt, a3 hlt, hbefore⟩
    · right
      have he : scanLoop 400 c 1 = 400 := le_antisymm a2 hge
      refine ⟨he, fun j hj => hbefore j ?_⟩
      rw [he]; rw [ZTable_length] at hj; exact hj

/-- C12, witness: the confidence level 0.95 with `stdev = 10`, `count = 100`. -/
theorem calcErrorMargin_scan_witness :
    (0.1 : ℚ) < 0.95 ∧ (0.95 : ℚ) < 1.0 ∧
    ∃ i : Nat, calcErrorMargin id 10 100 0.95 =
        some ((i : ℚ) * (4.0 / 400) * 10 / id ((100 : Int) : ℚ)) ∧
      (FirstIndexAbove 0.95 i ∨
        (i = 400 ∧ ∀ j, j < ZTable.length → ¬ (ZTable.getD j 0 - 0.5 > (0.95 : ℚ) / 2))) :=
  ⟨by norm_num, by norm_num,
    (calcErrorMargin_scan id 10 100 0.95 (by norm_num) (by norm_num)).2⟩

/-- C12, counterexample: for the confidence level 0.99995 no index of `ZTable` satisfies
`ZTable[i] - 0.5 > c/2`, so there is no smallest such index, and the function returns the
margin for `z = 4.0`. -/
theorem calcErrorMargin_scan_counterexample :
    calcErrorMargin id 1 1 0.99995 = some 4 ∧ ¬ ∃ i, FirstIndexAbove 0.99995 i := by
  have hnone : ∀ j, ¬ (ZTable.getD j 0 - 0.5 > (0.99995 : ℚ) / 2.0) :=
    fun j => not_above_of_large 0.99995 (by norm_num) j
  constructor
  · rw [calcErrorMargin_eq, if_pos (by norm_num),
      scanLoop_unique 400 0.99995 1 400 (by omega) (le_refl _) (fun h => absurd h (by omega))
        (fun j _ _ => hnone j)]
    norm_num
  · rintro ⟨i, _, hi, _⟩
    have h20 : (0.99995 : ℚ) / 2.0 = 0.99995 / 2 := by norm_num
    rw [← h20] at hi
    exact hnone i hi

/-- C13: `calcErrorMargin` fails if and only if the confidence level `c` does not satisfy
`0.1 < c < 1.0`; it fails for `c = 1.0` and for `c = 0.05`, and it succeeds for a level
below 0.5 such as 0.3. -/
theorem calcErrorMargin_fails_iff (sqrt : ℚ → ℚ) (stdev : ℚ) (count : Int) (c : ℚ) :
    (calcErrorMargin sqrt stdev count c = none ↔ ¬ (0.1 < c ∧ c < 1.0)) ∧
    calcErrorMargin sqrt stdev count 1.0 = none ∧
    calcErrorMargin sqrt stdev count 0.05 = none ∧
    (calcErrorMargin sqrt stdev count 0.3).isSome = true := by
  refine ⟨?_, ?_, ?_, ?_⟩
  · rw [calcErrorMargin_eq]
    by_cases h : c > 0.1 ∧ c < 1.0
    · rw [if_pos h]
      exact ⟨fun hh => absurd hh (by simp), fun hh => absurd h hh⟩
    · rw [if_neg h]
      exact ⟨fun _ => h, fun _ => rfl⟩
  · rw [calcErrorMargin_eq, if_neg (by norm_num)]
  · rw [calcErrorMargin_eq, if_neg (by norm_num)]
  · rw [calcErrorMargin_eq, if_pos (by norm_num)]
    rfl

theorem scanLoop_0_95 : scanLoop 400 0.95 1 = 197 := by
  apply scanLoop_unique 400 0.95 1 197 (by omega) (by omega)
  · intro _
    rw [above_iff, ZTableNum_at_197]
    norm_num
  · intro j _ hj
    rw [above_iff]
    have hm := ZTableNum_mono j 196 (by omega) (by omega)
    rw [ZTableNum_at_196] at hm
    have hm' : (ZTableNum.getD j 0 : ℚ) ≤ 97500 := by exact_mod_cast hm
    have ht : (50000 + 50000 * 0.95 : ℚ) = 97500 := by norm_num
    intro hlt
    rw [ht] at hlt
    linarith

theorem scanLoop_float_0_95 : scanLoop 400 float_0_95 1 = 196 := by
  apply scanLoop_unique 400 float_0_95 1 196 (by omega) (by omega)
  · intro _
    rw [above_iff, ZTableNum_at_196]
    norm_num [float_0_95]
  · intro j _ hj
    rw [above_iff]
    have hm := ZTableNum_mono j 195 (by omega) (by omega)
    rw [ZTableNum_at_195] at hm
    have hm' : (ZTableNum.getD j 0 : ℚ) ≤ 97441 := by exact_mod_cast hm
    have ht : (97441 : ℚ) < 50000 + 50000 * float_0_95 := by norm_num [float_0_95]
    intro hlt
    linarith

/-- C14: `calcErrorMargin(stdev = 10, count = 100, confidence_level = 0.95)` succeeds with a
margin within 0.1 of 1.96: the scan ends at index 197 (`z = 1.97`, margin 1.97) when the
level is exactly 0.95, and at index 196 (`z = 1.96`, margin 1.96) when it is the `float`
nearest to 0.95; both z-scores are within 0.01 of 1.96. -/
theorem calcErrorMargin_95 (sqrt : ℚ → ℚ) (hsqrt : sqrt 100 = 10) :
    (calcErrorMargin sqrt 10 100 0.95 = some 1.97 ∧ |(1.97 : ℚ) - 1.96| ≤ 0.1 ∧
      |(1.97 : ℚ) - 1.96| ≤ 0.01) ∧
    (calcErrorMargin sqrt 10 100 float_0_95 = some 1.96 ∧ |(1.96 : ℚ) - 1.96| ≤ 0.1 ∧
      |(1.96 : ℚ) - 1.96| ≤ 0.01) := by
  have hcast : (((100 : Int) : ℚ)) = 100 := by norm_num
  refine ⟨⟨?_, ?_, ?_⟩, ⟨?_, ?_, ?_⟩⟩
  · rw [calcErrorMargin_eq, if_pos (by norm_num), scanLoop_0_95, hcast, hsqrt]
    norm_num
  · rw [abs_le]; constructor <;> norm_num
  · rw [abs_le]; constructor <;> norm_num
  · rw [calcErrorMargin_eq, if_pos (by norm_num [float_0_95]), scanLoop_float_0_95, hcast,
      hsqrt]
    norm_num
  · rw [abs_le]; constructor <;> norm_num
  · rw [abs_le]; constructor <;> norm_num

/-- C14, witness: a `sqrt` that maps 100 to 10. -/
theorem calcErrorMargin_95_witness :
    (fun _ : ℚ => (10 : ℚ)) 100 = 10 ∧
    calcErrorMargin (fun _ => 10) 10 100 0.95 = some 1.97 ∧
    calcErrorMargin (fun _ => 10) 10 100 float_0_95 = some 1.96 :=
  ⟨rfl, (calcErrorMargin_95 (fun _ => 10) rfl).1.1, (calcErrorMargin_95 (fun _ => 10) rfl).2.1⟩


/-! ## The Stats test program -/

theorem statsTestA_sum : statsTestA.sum = 695 := by
  norm_num [statsTestA]

theorem statsTest_configured (cs : List StatsCall) :
    Stats.Configured 0 100 10 (((Stats.Stats_histo_init 0 100 10).resetStats).run cs) :=
  Stats.configured_run 0 100 10 cs _
    (Stats.histo_spec 0 100 10 _ (Stats.histo_some 0 100 10 (by norm_num) (by norm_num))).2.2.1

theorem statsTest_feed_mean :
    ((Stats.Stats_histo_init 0 100 10).resetStats.feed statsTestA).calcMean =
      some (695 / 16) := by
  unfold Stats.calcMean
  rw [Stats.feed_reset_count _ statsTestA (by decide), Stats.feed_sum, statsTestA_sum]
  show (if (16 : Nat) < 1 then none else some (((0 : ℚ) + 695) / ((16 : Nat) : ℚ))) = _
  rw [if_neg (by decide), zero_add]
  norm_num

/-- C11 (as amended): the object `X(0.,100.,10)` of the test program, fed the 16 values of
`A` in order, yields `getCount() = 16` and `calcMean() = 43.4375` (the sum 695 over 16), and
a sample 0 increments the histogram bin with index 1, in whatever state the object is. -/
theorem statsTest_count_mean_bin :
    statsTestX = some (Stats.Stats_histo_init 0 100 10).resetStats ∧
    ((Stats.Stats_histo_init 0 100 10).resetStats.feed statsTestA).getCount = 16 ∧
    ((Stats.Stats_histo_init 0 100 10).resetStats.feed statsTestA).calcMean =
      some 43.4375 ∧
    ∀ cs : List StatsCall,
      ((((Stats.Stats_histo_init 0 100 10).resetStats).run cs).takeSample 0).histogram =
        incrAt (((Stats.Stats_histo_init 0 100 10).resetStats).run cs).histogram 1 := by
  refine ⟨Stats.histo_some 0 100 10 (by norm_num) (by norm_num), ?_, ?_, ?_⟩
  · rw [Stats.getCount_eq, Stats.feed_reset_count _ statsTestA (by decide)]
    rfl
  · rw [statsTest_feed_mean]
    norm_num
  · intro cs
    have hc := statsTest_configured cs
    rw [Stats.takeSample_histogram _ 0 hc.1, hc.2.1, hc.2.2.1, hc.2.2.2.1, hc.2.2.2.2.1,
      binIndex_test_zero]

/-- C11, counterexample: on the test data `calcMean()` is 43.4375, not 41.0625. -/
theorem statsTest_mean_counterexample :
    ((Stats.Stats_histo_init 0 100 10).resetStats.feed statsTestA).calcMean ≠
      some 41.0625 := by
  rw [statsTest_feed_mean]
  intro h
  have := Option.some.inj h
  norm_num at this

/-! ## The histogram constructors -/

/-- C15: for both classes the histogram constructor `(low, high, bins)` fails if and only if
not (`low < high` and `bins > 0`); when it succeeds the object has a histogram of exactly
`bins + 2` counters, all zero, the bin width `(high - low) / bins`, the bounds and bin count
given, and the zero and sentinel statistics that the default constructor sets. -/
theorem histo_constructor_spec (low high : ℚ) (bins : Int) (mem : Stats) (tmem : TStats) :
    (Stats.Stats_histo low high bins = none ↔ ¬ (low < high ∧ bins > 0)) ∧
    (TStats.TStats_histo low high bins = none ↔ ¬ (low < high ∧ bins > 0)) ∧
    (∀ s0, Stats.Stats_histo low high bins = some s0 →
      s0.histo = true ∧ (s0.histogram.length : Int) = bins + 2 ∧
      s0.histogram = List.replicate s0.histogram.length 0 ∧
      s0.bin = (high - low) / bins ∧ s0.lo = low ∧ s0.hi = high ∧ s0.nbin = bins ∧
      s0.count = (Stats.Stats_void mem).count ∧ s0.sum = (Stats.Stats_void mem).sum ∧
      s0.sumsq = (Stats.Stats_void mem).sumsq ∧ s0.min = (Stats.Stats_void mem).min ∧
      s0.max = (Stats.Stats_void mem).max ∧
      s0.count = 0 ∧ s0.sum = 0 ∧ s0.sumsq = 0 ∧ s0.min = DBL_MAX ∧ s0.max = -DBL_MAX) ∧
    (∀ t0, TStats.TStats_histo low high bins = some t0 →
      t0.histo = true ∧ (t0.histogram.length : Int) = bins + 2 ∧
      t0.histogram = List.replicate t0.histogram.length 0 ∧
      t0.bin = (high - low) / bins ∧ t0.lo = low ∧ t0.hi = high ∧ t0.nbin = bins ∧
      t0.tnow = (TStats.TStats_void tmem).tnow ∧ t0.sum = (TStats.TStats_void tmem).sum ∧
      t0.sumsq = (TStats.TStats_void tmem).sumsq ∧ t0.min = (TStats.TStats_void tmem).min ∧
      t0.max = (TStats.TStats_void tmem).max ∧
      t0.tnow = 0 ∧ t0.sum = 0 ∧ t0.sumsq = 0 ∧ t0.min = DBL_MAX ∧ t0.max = -DBL_MAX) := by
  refine ⟨?_, ?_, ?_, ?_⟩
  · unfold Stats.Stats_histo
    by_cases h : low < high ∧ bins > 0
    · rw [if_neg (not_not.mpr h)]
      exact ⟨fun hh => absurd hh (by simp), fun hh => absurd h hh⟩
    · rw [if_pos h]
      exact ⟨fun _ => h, fun _ => rfl⟩
  · unfold TStats.TStats_histo
    by_cases h : low < high ∧ bins > 0
    · rw [if_neg (not_not.mpr h)]
      exact ⟨fun hh => absurd hh (by simp), fun hh => absurd h hh⟩
    · rw [if_pos h]
      exact ⟨fun _ => h, fun _ => rfl⟩
  · intro s0 hs
    obtain ⟨hlh, hn, hc, _, hz⟩ := Stats.histo_spec low high bins s0 hs
    have hs0 : s0 = (Stats.Stats_histo_init low high bins).resetStats := by
      rw [Stats.histo_some low high bins hlh hn] at hs
      exact (Option.some.inj hs).symm
    have hlen : (s0.histogram.length : Int) = bins + 2 := by
      rw [hc.2.2.2.2.2]; omega
    refine ⟨hc.1, hlen, ?_, hc.2.2.2.2.1, hc.2.1, hc.2.2.1, hc.2.2.2.1, ?_⟩
    · rw [hc.2.2.2.2.2]; exact hz
    · rw [hs0]
      exact ⟨rfl, rfl, rfl, rfl, rfl, rfl, rfl, rfl, rfl, rfl⟩
  · intro t0 ht
    obtain ⟨hlh, hn, hc, _, hz⟩ := TStats.histo_spec_timed low high bins t0 ht
    have ht0 : t0 = (TStats.TStats_histo_init low high bins).resetTStats := by
      rw [TStats.histo_some_timed low high bins hlh hn] at ht
      exact (Option.some.inj ht).symm
    have hlen : (t0.histogram.length : Int) = bins + 2 := by
      rw [hc.2.2.2.2.2]; omega
    refine ⟨hc.1, hlen, ?_, hc.2.2.2.2.1, hc.2.1, hc.2.2.1, hc.2.2.2.1, ?_⟩
    · rw [hc.2.2.2.2.2]; exact hz
    · rw [ht0]
      exact ⟨rfl, rfl, rfl, rfl, rfl, rfl, rfl, rfl, rfl, rfl⟩

/-- C15, witness: the objects `X(0.,100.,10)` of the two test programs have 12 counters. -/
theorem histo_constructor_spec_witness :
    Stats.Stats_histo 0 100 10 = some (Stats.Stats_histo_init 0 100 10).resetStats ∧
    TStats.TStats_histo 0 100 10 = some (TStats.TStats_histo_init 0 100 10).resetTStats ∧
    (((Stats.Stats_histo_init 0 100 10).resetStats).histogram.length : Int) = 10 + 2 ∧
    (((TStats.TStats_histo_init 0 100 10).resetTStats).histogram.length : Int) = 10 + 2 :=
  have hs := Stats.histo_some 0 100 10 (by norm_num) (by norm_num)
  have ht := TStats.histo_some_timed 0 100 10 (by norm_num) (by norm_num)
  have h := histo_constructor_spec 0 100 10 Stats.blank TStats.blank
  ⟨hs, ht, (h.2.2.1 _ hs).2.1, (h.2.2.2 _ ht).2.1⟩


/-! ## Running extrema -/

theorem Stats.takeSample_min (s : Stats) (x : ℚ) :
    (s.takeSample x).min = if x < s.min then x else s.min := by
  rw [Stats.takeSample_eq]

theorem Stats.takeSample_max (s : Stats) (x : ℚ) :
    (s.takeSample x).max = if x > s.max then x else s.max := by
  rw [Stats.takeSample_eq]

/-- The running minimum started at `m`: at most `m`, at most every value, and one of them. -/
theorem runMin_spec (xs : List ℚ) : ∀ m : ℚ,
    xs.foldl (fun m x => if x < m then x else m) m ≤ m ∧
    (∀ x ∈ xs, xs.foldl (fun m x => if x < m then x else m) m ≤ x) ∧
    (xs.foldl (fun m x => if x < m then x else m) m = m ∨
      xs.foldl (fun m x => if x < m then x else m) m ∈ xs) := by
  induction xs with
  | nil => intro m; exact ⟨le_refl _, fun x hx => absurd hx (List.not_mem_nil x), Or.inl rfl⟩
  | cons a xs ih =>
    intro m
    rw [List.foldl_cons]
    obtain ⟨h1, h2, h3⟩ := ih (if a < m then a else m)
    have hle : (if a < m then a else m) ≤ m := by
      split_ifs with h
      · exact le_of_lt h
      · exact le_refl _
    have hla : (if a < m then a else m) ≤ a := by
      split_ifs with h
      · exact le_refl _
      · exact not_lt.mp h
    refine ⟨le_trans h1 hle, ?_, ?_⟩
    · intro x hx
      rcases List.mem_cons.mp hx with hxa | hxs
      · rw [hxa]; exact le_trans h1 hla
      · exact h2 x hxs
    · rcases h3 with h | h
      · by_cases ham : a < m
        · right
          rw [h, if_pos ham]
          exact List.mem_cons_self _ _
        · left
          rw [h, if_neg ham]
      · exact Or.inr (List.mem_cons_of_mem _ h)

/-- The running maximum started at `m`: at least `m`, at least every value, and one of
them. -/
theorem runMax_spec (xs : List ℚ) : ∀ m : ℚ,
    m ≤ xs.foldl (fun m x => if x > m then x else m) m ∧
    (∀ x ∈ xs, x ≤ xs.foldl (fun m x => if x > m then x else m) m) ∧
    (xs.foldl (fun m x => if x > m then x else m) m = m ∨
      xs.foldl (fun m x => if x > m then x else m) m ∈ xs) := by
  induction xs with
  | nil => intro m; exact ⟨le_refl _, fun x hx => absurd hx (List.not_mem_nil x), Or.inl rfl⟩
  | cons a xs ih =>
    intro m
    rw [List.foldl_cons]
    obtain ⟨h1, h2, h3⟩ := ih (if a > m then a else m)
    have hle : m ≤ (if a > m then a else m) := by
      split_ifs with h
      · exact le_of_lt h
      · exact le_refl _
    have hla : a ≤ (if a > m then a else m) := by
      split_ifs with h
      · exact le_refl _
      · exact not_lt.mp h
    refine ⟨le_trans hle h1, ?_, ?_⟩
    · intro x hx
      rcases List.mem_cons.mp hx with hxa | hxs
      · rw [hxa]; exact le_trans hla h1
      · exact h2 x hxs
    · rcases h3 with h | h
      · by_cases ham : a > m
        · right
          rw [h, if_pos ham]
          exact List.mem_cons_self _ _
        · left
          rw [h, if_neg ham]
      · exact Or.inr (List.mem_cons_of_mem _ h)

/-- Started at a bound above all values of a non-empty list, the running minimum is the
smallest value. -/
theorem runMin_mem (xs : List ℚ) (m : ℚ) (hne : xs ≠ []) (hb : ∀ x ∈ xs, x ≤ m) :
    xs.foldl (fun m x => if x < m then x else m) m ∈ xs ∧
    ∀ x ∈ xs, xs.foldl (fun m x => if x < m then x else m) m ≤ x := by
  obtain ⟨_, h2, h3⟩ := runMin_spec xs m
  refine ⟨?_, h2⟩
  rcases h3 with h | h
  · obtain ⟨a, ha⟩ := List.exists_mem_of_ne_nil xs hne
    have h1 : m ≤ a := by rw [← h]; exact h2 a ha
    have h4 : a = m := le_antisymm (hb a ha) h1
    rw [h, ← h4]; exact ha
  · exact h

/-- Started at a bound below all values of a non-empty list, the running maximum is the
largest value. -/
theorem runMax_mem (xs : List ℚ) (m : ℚ) (hne : xs ≠ []) (hb : ∀ x ∈ xs, m ≤ x) :
    xs.foldl (fun m x => if x > m then x else m) m ∈ xs ∧
    ∀ x ∈ xs, x ≤ xs.foldl (fun m x => if x > m then x else m) m := by
  obtain ⟨_, h2, h3⟩ := runMax_spec xs m
  refine ⟨?_, h2⟩
  rcases h3 with h | h
  · obtain ⟨a, ha⟩ := List.exists_mem_of_ne_nil xs hne
    have h1 : a ≤ m := by rw [← h]; exact h2 a ha
    have h4 : a = m := le_antisymm h1 (hb a ha)
    rw [h, ← h4]; exact ha
  · exact h

theorem Stats.feed_min_max (xs : List ℚ) : ∀ s : Stats,
    (s.feed xs).min = xs.foldl (fun m x => if x < m then x else m) s.min ∧
    (s.feed xs).max = xs.foldl (fun m x => if x > m then x else m) s.max := by
  induction xs with
  | nil => intro s; exact ⟨rfl, rfl⟩
  | cons a xs ih =>
    intro s
    rw [Stats.feed_cons, List.foldl_cons, List.foldl_cons]
    obtain ⟨h1, h2⟩ := ih (s.takeSample a)
    rw [h1, h2, Stats.takeSample_min, Stats.takeSample_max]
    exact ⟨rfl, rfl⟩

theorem TStats.run_cons_takeSample (s : TStats) (x tx : ℚ) (rest : List (ℚ × ℚ)) :
    s.run (((x, tx) :: rest).map (fun p => TStatsCall.takeSample p.1 p.2)) =
      (s.takeSample x tx).state.run (rest.map (fun p => TStatsCall.takeSample p.1 p.2)) :=
  rfl

theorem TStats.accepted_cons (s : TStats) (x tx : ℚ) (rest : List (ℚ × ℚ)) :
    TStats.accepted s ((x, tx) :: rest) =
      if s.tnow < tx then x :: TStats.accepted (s.takeSample x tx).state rest
      else TStats.accepted (s.takeSample x tx).state rest := by
  show (match s.takeSample x tx with
    | Outcome.returned s1 => x :: TStats.accepted s1 rest
    | Outcome.exited s1 => TStats.accepted s1 rest) = _
  by_cases h : s.tnow < tx
  · rw [if_pos h, TStats.takeSample_returned s x tx h]
    rfl
  · rw [if_neg h, TStats.takeSample_exited s x tx (not_lt.mp h)]
    rfl

theorem TStats.run_min_max (samples : List (ℚ × ℚ)) : ∀ s : TStats,
    (s.run (samples.map (fun p => TStatsCall.takeSample p.1 p.2))).min =
      (TStats.accepted s samples).foldl (fun m x => if x < m then x else m) s.min ∧
    (s.run (samples.map (fun p => TStatsCall.takeSample p.1 p.2))).max =
      (TStats.accepted s samples).foldl (fun m x => if x > m then x else m) s.max := by
  induction samples with
  | nil => intro s; exact ⟨rfl, rfl⟩
  | cons p rest ih =>
    obtain ⟨x, tx⟩ := p
    intro s
    rw [TStats.run_cons_takeSample, TStats.accepted_cons]
    obtain ⟨h1, h2⟩ := ih (s.takeSample x tx).state
    rw [h1, h2]
    by_cases h : s.tnow < tx
    · rw [if_pos h, List.foldl_cons, List.foldl_cons, TStats.takeSample_returned s x tx h]
      exact ⟨rfl, rfl⟩
    · rw [if_neg h, TStats.takeSample_exited s x tx (not_lt.mp h)]
      exact ⟨rfl, rfl⟩

/-- C16: for every non-empty sequence `xs` of finite samples (between `-DBL_MAX` and
`DBL_MAX`) fed to a reset `Stats`, `calcMin()` is the smallest and `calcMax()` the largest
sample; with no samples since the reset they return the sentinels `DBL_MAX` and `-DBL_MAX`,
which no finite sample exceeds. The same holds for a reset `TStats` and the values of the
samples it accepts from a sequence of `takeSample` calls. -/
theorem min_max_spec (s : Stats) (t : TStats) (xs : List ℚ) (samples : List (ℚ × ℚ))
    (hne : xs ≠ []) (hfin : ∀ x ∈ xs, -DBL_MAX ≤ x ∧ x ≤ DBL_MAX)
    (htne : TStats.accepted t.resetTStats samples ≠ [])
    (htfin : ∀ x ∈ TStats.accepted t.resetTStats samples, -DBL_MAX ≤ x ∧ x ≤ DBL_MAX) :
    (s.resetStats.calcMin = DBL_MAX ∧ s.resetStats.calcMax = -DBL_MAX ∧
      (∀ x ∈ xs, x ≤ s.resetStats.calcMin ∧ s.resetStats.calcMax ≤ x)) ∧
    ((s.resetStats.feed xs).calcMin ∈ xs ∧ (∀ x ∈ xs, (s.resetStats.feed xs).calcMin ≤ x) ∧
      (s.resetStats.feed xs).calcMax ∈ xs ∧ (∀ x ∈ xs, x ≤ (s.resetStats.feed xs).calcMax)) ∧
    (t.resetTStats.calcMin = DBL_MAX ∧ t.resetTStats.calcMax = -DBL_MAX ∧
      (∀ x ∈ TStats.accepted t.resetTStats samples,
        x ≤ t.resetTStats.calcMin ∧ t.resetTStats.calcMax ≤ x)) ∧
    ((t.resetTStats.run (samples.map (fun p => TStatsCall.takeSample p.1 p.2))).calcMin ∈
        TStats.accepted t.resetTStats samples ∧
      (∀ x ∈ TStats.accepted t.resetTStats samples,
        (t.resetTStats.run (samples.map (fun p => TStatsCall.takeSample p.1 p.2))).calcMin
          ≤ x) ∧
      (t.resetTStats.run (samples.map (fun p => TStatsCall.takeSample p.1 p.2))).calcMax ∈
        TStats.accepted t.resetTStats samples ∧
      (∀ x ∈ TStats.accepted t.resetTStats samples,
        x ≤ (t.resetTStats.run
          (samples.map (fun p => TStatsCall.takeSample p.1 p.2))).calcMax)) := by
  obtain ⟨hmin, hmax⟩ := Stats.feed_min_max xs s.resetStats
  obtain ⟨htmin, htmax⟩ := TStats.run_min_max samples t.resetTStats
  obtain ⟨a1, a2⟩ := runMin_mem xs DBL_MAX hne (fun x hx => (hfin x hx).2)
  obtain ⟨b1, b2⟩ := runMax_mem xs (-DBL_MAX) hne (fun x hx => (hfin x hx).1)
  obtain ⟨c1, c2⟩ := runMin_mem _ DBL_MAX htne (fun x hx => (htfin x hx).2)
  obtain ⟨d1, d2⟩ := runMax_mem _ (-DBL_MAX) htne (fun x hx => (htfin x hx).1)
  refine ⟨⟨rfl, rfl, fun x hx => ⟨(hfin x hx).2, (hfin x hx).1⟩⟩, ⟨?_, ?_, ?_, ?_⟩,
    ⟨rfl, rfl, fun x hx => ⟨(htfin x hx).2, (htfin x hx).1⟩⟩, ⟨?_, ?_, ?_, ?_⟩⟩
  · show (s.resetStats.feed xs).min ∈ xs
    rw [hmin]; exact a1
  · intro x hx
    show (s.resetStats.feed xs).min ≤ x
    rw [hmin]; exact a2 x hx
  · show (s.resetStats.feed xs).max ∈ xs
    rw [hmax]; exact b1
  · intro x hx
    show x ≤ (s.resetStats.feed xs).max
    rw [hmax]; exact b2 x hx
  · show (t.resetTStats.run _).min ∈ _
    rw [htmin]; exact c1
  · intro x hx
    show (t.resetTStats.run _).min ≤ x
    rw [htmin]; exact c2 x hx
  · show (t.resetTStats.run _).max ∈ _
    rw [htmax]; exact d1
  · intro x hx
    show x ≤ (t.resetTStats.run _).max
    rw [htmax]; exact d2 x hx


theorem accepted_example :
    TStats.accepted TStats.blank.resetTStats [(5, 1), (3, 1), (7, 2)] = [5, 7] := by
  have h1 : TStats.blank.resetTStats.tnow < 1 := by
    show (0 : ℚ) < 1
    norm_num
  obtain ⟨s1, hr1, ht1, _, _⟩ := TStats.takeSample_fields TStats.blank.resetTStats 5 1 h1
  have h2 : ¬ s1.tnow < 1 := by rw [ht1]; norm_num
  have h3 : s1.tnow < 2 := by rw [ht1]; norm_num
  have he : (s1.takeSample 3 1).state = s1 := by
    rw [TStats.takeSample_exited s1 3 1 (not_lt.mp h2)]; rfl
  rw [TStats.accepted_cons, if_pos h1, hr1]
  show 5 :: TStats.accepted s1 [(3, 1), (7, 2)] = _
  rw [TStats.accepted_cons, if_neg h2, he, TStats.accepted_cons, if_pos h3]
  rfl

/-- C16, witness: the samples 3, 1, 2 for `Stats`; for `TStats` the calls with values 5, 3, 7
at times 1, 1, 2, of which the second is rejected. -/
theorem min_max_spec_witness :
    ([3, 1, 2] : List ℚ) ≠ [] ∧
    (∀ x ∈ ([3, 1, 2] : List ℚ), -DBL_MAX ≤ x ∧ x ≤ DBL_MAX) ∧
    TStats.accepted TStats.blank.resetTStats [(5, 1), (3, 1), (7, 2)] ≠ [] ∧
    (∀ x ∈ TStats.accepted TStats.blank.resetTStats [(5, 1), (3, 1), (7, 2)],
      -DBL_MAX ≤ x ∧ x ≤ DBL_MAX) ∧
    (Stats.blank.resetStats.feed [3, 1, 2]).calcMin ∈ ([3, 1, 2] : List ℚ) ∧
    (TStats.blank.resetTStats.run
      ([(5, 1), (3, 1), (7, 2)].map (fun p => TStatsCall.takeSample p.1 p.2))).calcMax ∈
        TStats.accepted TStats.blank.resetTStats [(5, 1), (3, 1), (7, 2)] := by
  have hne : ([3, 1, 2] : List ℚ) ≠ [] := List.cons_ne_nil _ _
  have hfin : ∀ x ∈ ([3, 1, 2] : List ℚ), -DBL_MAX ≤ x ∧ x ≤ DBL_MAX := by
    intro x hx
    simp only [List.mem_cons, List.mem_singleton, List.not_mem_nil, or_false] at hx
    rcases hx with h | h | h <;> rw [h] <;> constructor <;> norm_num [DBL_MAX]
  have htne : TStats.accepted TStats.blank.resetTStats [(5, 1), (3, 1), (7, 2)] ≠ [] := by
    rw [accepted_example]; exact List.cons_ne_nil _ _
  have htfin : ∀ x ∈ TStats.accepted TStats.blank.resetTStats [(5, 1), (3, 1), (7, 2)],
      -DBL_MAX ≤ x ∧ x ≤ DBL_MAX := by
    rw [accepted_example]
    intro x hx
    simp only [List.mem_cons, List.mem_singleton, List.not_mem_nil, or_false] at hx
    rcases hx with h | h <;> rw [h] <;> constructor <;> norm_num [DBL_MAX]
  have h := min_max_spec Stats.blank TStats.blank [3, 1, 2] [(5, 1), (3, 1), (7, 2)]
    hne hfin htne htfin
  exact ⟨hne, hfin, htne, htfin, h.2.1.1, h.2.2.2.2.2.1⟩


/-! ## TStats: the time sentinel -/

theorem TStats.acceptedSinceReset_takeSample (s : TStats) (k : Nat) (x tx : ℚ)
    (cs : List TStatsCall) :
    TStats.acceptedSinceReset s k (TStatsCall.takeSample x tx :: cs) =
      TStats.acceptedSinceReset (s.takeSample x tx).state
        (if s.tnow < tx then k + 1 else k) cs := by
  show (match s.takeSample x tx with
    | Outcome.returned s1 => TStats.acceptedSinceReset s1 (k + 1) cs
    | Outcome.exited s1 => TStats.acceptedSinceReset s1 k cs) = _
  by_cases h : s.tnow < tx
  · rw [if_pos h, TStats.takeSample_returned s x tx h]
    rfl
  · rw [if_neg h, TStats.takeSample_exited s x tx (not_lt.mp h)]
    rfl

/-- Along any call sequence `tnow` stays non-negative and is 0 exactly when no sample has
been accepted since the last reset. -/
theorem TStats.run_tnow (cs : List TStatsCall) : ∀ (s : TStats) (k : Nat),
    0 ≤ s.tnow → (s.tnow = 0 ↔ k = 0) →
    0 ≤ (s.run cs).tnow ∧ ((s.run cs).tnow = 0 ↔ TStats.acceptedSinceReset s k cs = 0) := by
  induction cs with
  | nil => intro s k h1 h2; exact ⟨h1, h2⟩
  | cons c cs ih =>
    intro s k h1 h2
    rw [TStats.run_cons_timed]
    cases c with
    | takeSample x tx =>
      have hcall : s.call (TStatsCall.takeSample x tx) = (s.takeSample x tx).state := rfl
      rw [hcall, TStats.acceptedSinceReset_takeSample]
      by_cases h : s.tnow < tx
      · obtain ⟨s1, hr, ht1, _, _⟩ := TStats.takeSample_fields s x tx h
        have hst : (s.takeSample x tx).state = s1 := by rw [hr]; rfl
        have hpos : 0 < s1.tnow := by rw [ht1]; exact lt_of_le_of_lt h1 h
        rw [if_pos h, hst]
        exact ih s1 (k + 1) hpos.le
          ⟨fun h0 => absurd h0 (ne_of_gt hpos), fun h0 => absurd h0 (Nat.succ_ne_zero k)⟩
      · have hst : (s.takeSample x tx).state = s := by
          rw [TStats.takeSample_exited s x tx (not_lt.mp h)]; rfl
        rw [if_neg h, hst]
        exact ih s k h1 h2
    | resetTStats =>
      exact ih s.resetTStats 0 (le_refl _) ⟨fun _ => rfl, fun _ => rfl⟩

theorem TStats.calcMean_none_iff (t : TStats) : t.calcMean = none ↔ t.tnow ≤ 0 := by
  unfold TStats.calcMean
  by_cases h : t.tnow ≤ 0
  · simp [h]
  · simp [h]

theorem TStats.calcStDev_none_iff (sqrt : ℚ → ℚ) (t : TStats) :
    t.calcStDev sqrt = none ↔ t.tnow ≤ 0 := by
  rw [TStats.calcStDev_eq]
  by_cases h : t.tnow ≤ 0
  · simp [h]
  · simp [h]

/-- C17: in every state `r` that a `TStats` reaches from a reset (both constructors end
with `resetTStats`) by `resetTStats` and `takeSample` calls, `tnow >= 0`, and `tnow = 0`
exactly when no sample has been accepted since construction or the last reset; so
`calcMean` and `calcStDev` fail exactly then, and in such a state a sample with a timestamp
`<= 0` is rejected. -/
theorem TStats.tnow_sentinel (sqrt : ℚ → ℚ) (t : TStats) (cs : List TStatsCall) (x tx : ℚ) :
    0 ≤ (t.resetTStats.run cs).tnow ∧
    ((t.resetTStats.run cs).tnow = 0 ↔ TStats.acceptedSinceReset t.resetTStats 0 cs = 0) ∧
    ((t.resetTStats.run cs).calcMean = none ↔
      TStats.acceptedSinceReset t.resetTStats 0 cs = 0) ∧
    ((t.resetTStats.run cs).calcStDev sqrt = none ↔
      TStats.acceptedSinceReset t.resetTStats 0 cs = 0) ∧
    (TStats.acceptedSinceReset t.resetTStats 0 cs = 0 → tx ≤ 0 →
      (t.resetTStats.run cs).takeSample x tx = Outcome.exited (t.resetTStats.run cs)) := by
  obtain ⟨h1, h2⟩ := TStats.run_tnow cs t.resetTStats 0 (le_refl _) ⟨fun _ => rfl, fun _ => rfl⟩
  have h3 : (t.resetTStats.run cs).tnow ≤ 0 ↔ (t.resetTStats.run cs).tnow = 0 :=
    ⟨fun h => le_antisymm h h1, fun h => le_of_eq h⟩
  refine ⟨h1, h2, ?_, ?_, ?_⟩
  · rw [TStats.calcMean_none_iff, h3, h2]
  · rw [TStats.calcStDev_none_iff, h3, h2]
  · intro hk htx
    apply TStats.takeSample_exited
    rw [h2.mpr hk]
    exact htx

/-- C17, witness: after an accepted sample and a reset no sample is accepted, and a sample
at time 0 is rejected. -/
theorem TStats.tnow_sentinel_witness :
    TStats.acceptedSinceReset TStats.blank.resetTStats 0
      [TStatsCall.takeSample 5 1, TStatsCall.resetTStats] = 0 ∧ (0 : ℚ) ≤ 0 ∧
    (TStats.blank.resetTStats.run
      [TStatsCall.takeSample 5 1, TStatsCall.resetTStats]).takeSample 7 0 =
      Outcome.exited (TStats.blank.resetTStats.run
        [TStatsCall.takeSample 5 1, TStatsCall.resetTStats]) := by
  have hk : TStats.acceptedSinceReset TStats.blank.resetTStats 0
      [TStatsCall.takeSample 5 1, TStatsCall.resetTStats] = 0 := by
    rw [TStats.acceptedSinceReset_takeSample]
    rfl
  exact ⟨hk, le_refl _,
    (TStats.tnow_sentinel id TStats.blank [TStatsCall.takeSample 5 1, TStatsCall.resetTStats]
      7 0).2.2.2.2 hk (le_refl _)⟩


/-! ## The upper bound, single-bin updates and the index range -/

/-- At the upper bound the computed index is `nbin + 1`. -/
theorem binIndex_at_hi (low high : ℚ) (bins : Int) (hlh : low < high) (hn : 0 < bins) :
    binIndex low high bins ((high - low) / bins) high = (bins + 1).toNat := by
  have hn' : (0 : ℚ) < bins := by exact_mod_cast hn
  have hw : 0 < (high - low) / bins := div_pos (by linarith) hn'
  have hq : (high - low) / ((high - low) / bins) = bins := by
    rw [div_eq_iff hw.ne']
    field_simp
  unfold binIndex
  rw [if_neg (not_lt.mpr hlh.le), if_neg (lt_irrefl high), hq,
    toInt_of_nonneg _ hn'.le, Int.floor_intCast]

/-- C18 (as amended): on an accumulator with a histogram (`lo < hi`, `nbin > 0`), in any
state it reaches, a sample `x` exactly equal to `hi` is not caught by the strict check
`x > hi`; the index computed for it is `trunc((hi - lo) / bin) + 1 = nbin + 1`, so it is
counted in the overflow bin (index `nbin + 1`), in both classes. -/
theorem takeSample_at_hi (low high : ℚ) (bins : Int) (s0 : Stats) (t0 : TStats)
    (cs : List StatsCall) (tcs : List TStatsCall) (tx : ℚ)
    (hs : Stats.Stats_histo low high bins = some s0)
    (ht : TStats.TStats_histo low high bins = some t0)
    (htx : (t0.run tcs).tnow < tx) :
    (s0.run cs).hi = high ∧ ¬ (high > (s0.run cs).hi) ∧
    toInt ((high - (s0.run cs).lo) / (s0.run cs).bin) + 1 = (s0.run cs).nbin + 1 ∧
    ((s0.run cs).takeSample high).histogram =
      incrAt (s0.run cs).histogram ((s0.run cs).nbin + 1).toNat ∧
    (t0.run tcs).hi = high ∧ ¬ (high > (t0.run tcs).hi) ∧
    toInt ((high - (t0.run tcs).lo) / (t0.run tcs).bin) + 1 = (t0.run tcs).nbin + 1 ∧
    ((t0.run tcs).takeSample high tx).state.histogram =
      addAt (t0.run tcs).histogram ((t0.run tcs).nbin + 1).toNat
        (tx - (t0.run tcs).tnow) := by
  obtain ⟨hlh, hn, hc0, _, _⟩ := Stats.histo_spec low high bins s0 hs
  obtain ⟨_, _, htc0, _, _⟩ := TStats.histo_spec_timed low high bins t0 ht
  have hc := Stats.configured_run low high bins cs s0 hc0
  have htc := TStats.configured_run_timed low high bins tcs t0 htc0
  have hn' : (0 : ℚ) < bins := by exact_mod_cast hn
  have hw : 0 < (high - low) / bins := div_pos (by linarith) hn'
  have hq : (high - low) / ((high - low) / bins) = bins := by
    rw [div_eq_iff hw.ne']
    field_simp
  have hidx : toInt ((high - low) / ((high - low) / bins)) + 1 = bins + 1 := by
    rw [hq, toInt_of_nonneg _ hn'.le, Int.floor_intCast]
  refine ⟨hc.2.2.1, ?_, ?_, ?_, htc.2.2.1, ?_, ?_, ?_⟩
  · rw [hc.2.2.1]; exact lt_irrefl high
  · rw [hc.2.1, hc.2.2.2.1, hc.2.2.2.2.1]; exact hidx
  · rw [Stats.takeSample_histogram _ high hc.1, hc.2.1, hc.2.2.1, hc.2.2.2.1, hc.2.2.2.2.1,
      binIndex_at_hi low high bins hlh hn]
  · rw [htc.2.2.1]; exact lt_irrefl high
  · rw [htc.2.1, htc.2.2.2.1, htc.2.2.2.2.1]; exact hidx
  · rw [TStats.takeSample_returned _ high tx htx]
    show (if (t0.run tcs).histo then _ else _) = _
    rw [htc.1, if_pos rfl, htc.2.1, htc.2.2.1, htc.2.2.2.1, htc.2.2.2.2.1,
      binIndex_at_hi low high bins hlh hn]

/-- C18, witness: the objects `X(0.,100.,10)` of the two test programs, freshly
constructed, and the sample 100 taken at time 1. -/
theorem takeSample_at_hi_witness :
    Stats.Stats_histo 0 100 10 = some (Stats.Stats_histo_init 0 100 10).resetStats ∧
    TStats.TStats_histo 0 100 10 = some (TStats.TStats_histo_init 0 100 10).resetTStats ∧
    (((TStats.TStats_histo_init 0 100 10).resetTStats).run []).tnow < 1 ∧
    ((((Stats.Stats_histo_init 0 100 10).resetStats).run []).takeSample 100).histogram =
      incrAt (((Stats.Stats_histo_init 0 100 10).resetStats).run []).histogram
        ((((Stats.Stats_histo_init 0 100 10).resetStats).run []).nbin + 1).toNat :=
  have hs := Stats.histo_some 0 100 10 (by norm_num) (by norm_num)
  have ht := TStats.histo_some_timed 0 100 10 (by norm_num) (by norm_num)
  have htx : (((TStats.TStats_histo_init 0 100 10).resetTStats).run []).tnow < 1 :=
    show (0 : ℚ) < 1 by norm_num
  ⟨hs, ht, htx, (takeSample_at_hi 0 100 10 _ _ [] [] 1 hs ht htx).2.2.2.1⟩

theorem statsTest_histogram_zero :
    (Stats.Stats_histo_init 0 100 10).resetStats.histogram =
      [0, 0, 0, 0, 0, 0, 0, 0, 0, 0, 0, 0] := by
  have hz := (Stats.histo_spec 0 100 10 _
    (Stats.histo_some 0 100 10 (by norm_num) (by norm_num))).2.2.2.2
  rw [hz]
  have h12 : ((10 : Int) + 2).toNat = 12 := by decide
  rw [h12]
  rfl

/-- C18, counterexample: on the freshly constructed test object `X(0.,100.,10)` the sample
100, equal to the upper bound, leaves the last interior bin (index 10) at 0 and sets the
overflow bin (index 11) to 1. -/
theorem takeSample_at_hi_counterexample :
    ((Stats.Stats_histo_init 0 100 10).resetStats.takeSample 100).histogram =
      [0, 0, 0, 0, 0, 0, 0, 0, 0, 0, 0, 1] := by
  have hc : Stats.Configured 0 100 10 (Stats.Stats_histo_init 0 100 10).resetStats :=
    statsTest_configured []
  have hb : binIndex 0 100 10 ((100 - 0) / (10 : Int)) 100 = 11 := by
    rw [binIndex_at_hi 0 100 10 (by norm_num) (by norm_num)]
    decide
  have h := Stats.takeSample_histogram (Stats.Stats_histo_init 0 100 10).resetStats 100 hc.1
  rw [hc.2.1, hc.2.2.1, hc.2.2.2.1, hc.2.2.2.2.1, hb, statsTest_histogram_zero] at h
  rw [h]
  rfl


theorem incrAt_getD (h : List Nat) : ∀ k j : Nat, k < h.length →
    (incrAt h k).getD j 0 = if j = k then (h.getD k 0 + 1) % UINT_MOD else h.getD j 0 := by
  induction h with
  | nil => intro k j hk; simp at hk
  | cons v h ih =>
    intro k j hk
    cases k with
    | zero =>
      cases j with
      | zero => rfl
      | succ j =>
        rw [if_neg (Nat.succ_ne_zero j)]
        rfl
    | succ k =>
      cases j with
      | zero =>
        rw [if_neg (Nat.succ_ne_zero k).symm]
        rfl
      | succ j =>
        have hk' : k < h.length := by simpa using hk
        show (incrAt h k).getD j 0 = _
        rw [ih k j hk']
        by_cases hjk : j = k
        · rw [if_pos hjk, if_pos (by rw [hjk])]
          rfl
        · rw [if_neg hjk, if_neg (by omega)]
          rfl

theorem addAt_getD (h : List ℚ) : ∀ (k j : Nat) (d : ℚ), k < h.length →
    (addAt h k d).getD j 0 = if j = k then h.getD k 0 + d else h.getD j 0 := by
  induction h with
  | nil => intro k j d hk; simp at hk
  | cons v h ih =>
    intro k j d hk
    cases k with
    | zero =>
      cases j with
      | zero => rfl
      | succ j =>
        rw [if_neg (Nat.succ_ne_zero j)]
        rfl
    | succ k =>
      cases j with
      | zero =>
        rw [if_neg (Nat.succ_ne_zero k).symm]
        rfl
      | succ j =>
        have hk' : k < h.length := by simpa using hk
        show (addAt h k d).getD j 0 = _
        rw [ih k j d hk']
        by_cases hjk : j = k
        · rw [if_pos hjk, if_pos (by rw [hjk])]
          rfl
        · rw [if_neg hjk, if_neg (by omega)]
          rfl

/-- C19 (as amended): every successful `takeSample` on an accumulator with a histogram
changes exactly one bin `k` and leaves the number of bins, all other bins and the
configuration (`lo`, `hi`, `nbin`, bin width) unchanged. For `Stats` the changed bin becomes
`(old + 1) mod 2^32`: it grows by exactly 1 unless it holds `2^32 - 1`. For `TStats` it
grows by exactly the duration `tx - tnow`, which is strictly positive. -/
theorem takeSample_one_bin (low high : ℚ) (bins : Int) (s0 : Stats) (t0 : TStats)
    (cs : List StatsCall) (tcs : List TStatsCall) (x tx : ℚ)
    (hs : Stats.Stats_histo low high bins = some s0)
    (ht : TStats.TStats_histo low high bins = some t0)
    (htx : (t0.run tcs).tnow < tx) :
    (∃ k, k < (s0.run cs).histogram.length ∧
      ((s0.run cs).takeSample x).histogram.length = (s0.run cs).histogram.length ∧
      (∀ j, j ≠ k →
        ((s0.run cs).takeSample x).histogram.getD j 0 = (s0.run cs).histogram.getD j 0) ∧
      ((s0.run cs).takeSample x).histogram.getD k 0 =
        ((s0.run cs).histogram.getD k 0 + 1) % UINT_MOD ∧
      ((s0.run cs).histogram.getD k 0 + 1 < UINT_MOD →
        ((s0.run cs).takeSample x).histogram.getD k 0 =
          (s0.run cs).histogram.getD k 0 + 1)) ∧
    (((s0.run cs).takeSample x).histo = (s0.run cs).histo ∧
      ((s0.run cs).takeSample x).lo = (s0.run cs).lo ∧
      ((s0.run cs).takeSample x).hi = (s0.run cs).hi ∧
      ((s0.run cs).takeSample x).nbin = (s0.run cs).nbin ∧
      ((s0.run cs).takeSample x).bin = (s0.run cs).bin) ∧
    (∃ k, k < (t0.run tcs).histogram.length ∧
      ((t0.run tcs).takeSample x tx).state.histogram.length =
        (t0.run tcs).histogram.length ∧
      (∀ j, j ≠ k → ((t0.run tcs).takeSample x tx).state.histogram.getD j 0 =
        (t0.run tcs).histogram.getD j 0) ∧
      ((t0.run tcs).takeSample x tx).state.histogram.getD k 0 =
        (t0.run tcs).histogram.getD k 0 + (tx - (t0.run tcs).tnow) ∧
      0 < tx - (t0.run tcs).tnow) ∧
    (((t0.run tcs).takeSample x tx).state.histo = (t0.run tcs).histo ∧
      ((t0.run tcs).takeSample x tx).state.lo = (t0.run tcs).lo ∧
      ((t0.run tcs).takeSample x tx).state.hi = (t0.run tcs).hi ∧
      ((t0.run tcs).takeSample x tx).state.nbin = (t0.run tcs).nbin ∧
      ((t0.run tcs).takeSample x tx).state.bin = (t0.run tcs).bin) := by
  obtain ⟨hlh, hn, hc0, _, _⟩ := Stats.histo_spec low high bins s0 hs
  obtain ⟨_, _, htc0, _, _⟩ := TStats.histo_spec_timed low high bins t0 ht
  have hc := Stats.configured_run low high bins cs s0 hc0
  have htc := TStats.configured_run_timed low high bins tcs t0 htc0
  have hk := Stats.binIndex_lt_length low high bins _ x hlh hn hc
  have htk := TStats.binIndex_lt_length_timed low high bins _ x hlh hn htc
  have hh := Stats.takeSample_histogram (s0.run cs) x hc.1
  have hth : ((t0.run tcs).takeSample x tx).state.histogram =
      addAt (t0.run tcs).histogram
        (binIndex (t0.run tcs).lo (t0.run tcs).hi (t0.run tcs).nbin (t0.run tcs).bin x)
        (tx - (t0.run tcs).tnow) := by
    rw [TStats.takeSample_returned _ x tx htx]
    show (if (t0.run tcs).histo then _ else _) = _
    rw [htc.1, if_pos rfl]
  refine ⟨⟨_, hk, ?_, ?_, ?_, ?_⟩, ?_, ⟨_, htk, ?_, ?_, ?_, ?_⟩, ?_⟩
  · rw [hh, incrAt_length]
  · intro j hj
    rw [hh, incrAt_getD _ _ j hk, if_neg hj]
  · rw [hh, incrAt_getD _ _ _ hk, if_pos rfl]
  · intro hlt
    rw [hh, incrAt_getD _ _ _ hk, if_pos rfl, Nat.mod_eq_of_lt hlt]
  · rw [Stats.takeSample_eq]
    exact ⟨rfl, rfl, rfl, rfl, rfl⟩
  · rw [hth, addAt_length]
  · intro j hj
    rw [hth, addAt_getD _ _ j _ htk, if_neg hj]
  · rw [hth, addAt_getD _ _ _ _ htk, if_pos rfl]
  · linarith
  · rw [TStats.takeSample_returned _ x tx htx]
    exact ⟨rfl, rfl, rfl, rfl, rfl⟩

/-- C19, witness: the objects `X(0.,100.,10)` of the two test programs, freshly
constructed, and the sample 5 taken at time 1. -/
theorem takeSample_one_bin_witness :
    Stats.Stats_histo 0 100 10 = some (Stats.Stats_histo_init 0 100 10).resetStats ∧
    TStats.TStats_histo 0 100 10 = some (TStats.TStats_histo_init 0 100 10).resetTStats ∧
    (((TStats.TStats_histo_init 0 100 10).resetTStats).run []).tnow < 1 ∧
    ((((Stats.Stats_histo_init 0 100 10).resetStats).run []).takeSample 5).lo =
      (((Stats.Stats_histo_init 0 100 10).resetStats).run []).lo :=
  have hs := Stats.histo_some 0 100 10 (by norm_num) (by norm_num)
  have ht := TStats.histo_some_timed 0 100 10 (by norm_num) (by norm_num)
  have htx : (((TStats.TStats_histo_init 0 100 10).resetTStats).run []).tnow < 1 :=
    show (0 : ℚ) < 1 by norm_num
  ⟨hs, ht, htx, (takeSample_one_bin 0 100 10 _ _ [] [] 5 1 hs ht htx).2.1.2.1⟩

/-- After `n` samples below the lower bound, with `n + 1 = 2^32`, bin 0 of the test object
holds `n`, and one more such sample sets it to 0. -/
theorem Stats.bin_wrap (n : Nat) (hn : n + 1 = UINT_MOD) :
    ((Stats.Stats_histo_init 0 100 10).resetStats.feed
      (List.replicate n (-1))).histogram.getD 0 0 = n ∧
    (((Stats.Stats_histo_init 0 100 10).resetStats.feed
      (List.replicate n (-1))).takeSample (-1)).histogram.getD 0 0 = 0 := by
  have hc0 : Stats.Configured 0 100 10 (Stats.Stats_histo_init 0 100 10).resetStats :=
    statsTest_configured []
  have hc := Stats.configured_feed 0 100 10 (List.replicate n (-1)) _ hc0
  have hn2 : 0 + n < UINT_MOD := by unfold UINT_MOD at hn ⊢; omega
  have hh : ((Stats.Stats_histo_init 0 100 10).resetStats.feed
      (List.replicate n (-1))).histogram = [n, 0, 0, 0, 0, 0, 0, 0, 0, 0, 0, 0] := by
    rw [Stats.feed_replicate_histogram 0 100 10 (-1) n _ hc0, binIndex_test_low,
      statsTest_histogram_zero, incrAt_iterate_zero _ n 0 hn2, Nat.zero_add]
  constructor
  · rw [hh]; rfl
  · rw [Stats.takeSample_histogram _ (-1) hc.1, hc.2.1, hc.2.2.1, hc.2.2.2.1, hc.2.2.2.2.1,
      binIndex_test_low, hh]
    show (n + 1) % UINT_MOD = 0
    rw [hn, Nat.mod_self]

/-- C19, counterexample: on the test object `X(0.,100.,10)`, after `2^32 - 1` samples of
value -1 bin 0 holds `2^32 - 1`, and the next sample of value -1 sets it to 0: the counter
decreases and does not grow by 1. -/
theorem takeSample_one_bin_counterexample :
    ((Stats.Stats_histo_init 0 100 10).resetStats.feed
      (List.replicate 4294967295 (-1))).histogram.getD 0 0 = 4294967295 ∧
    (((Stats.Stats_histo_init 0 100 10).resetStats.feed
      (List.replicate 4294967295 (-1))).takeSample (-1)).histogram.getD 0 0 = 0 :=
  Stats.bin_wrap 4294967295 (by decide)


/-- Inside the bounds the `int` index `trunc((x - lo) / bin) + 1` lies between 1 and
`nbin + 1`. -/
theorem interior_index_bounds (lo hi : ℚ) (nbin : Int) (x : ℚ) (hlh : lo < hi)
    (hn : 0 < nbin) (h1 : lo ≤ x) (h2 : x ≤ hi) :
    1 ≤ toInt ((x - lo) / ((hi - lo) / nbin)) + 1 ∧
    toInt ((x - lo) / ((hi - lo) / nbin)) + 1 ≤ nbin + 1 := by
  obtain ⟨hq0, hq1⟩ := quot_bounds lo hi nbin x hlh hn (not_lt.mpr h1) (not_lt.mpr h2)
  rw [toInt_of_nonneg _ hq0]
  have hf0 : 0 ≤ ⌊(x - lo) / ((hi - lo) / nbin)⌋ := Int.floor_nonneg.mpr hq0
  have hf1 : ⌊(x - lo) / ((hi - lo) / nbin)⌋ ≤ nbin := by
    have := Int.floor_le_floor hq1
    simpa using this
  omega

/-- C20: on an accumulator constructed with valid histogram parameters (`lo < hi`,
`nbin > 0`), in any state it reaches and for every sample `x`, the array has `nbin + 2`
entries and the index of the bin that `takeSample` updates is below `nbin + 2`; the
indices 0 and `nbin + 1` of the two tail branches are in range, and for `lo <= x <= hi` the
computed `int` index `trunc((x - lo) / bin) + 1` is between 1 and `nbin + 1`. This holds in
both classes. -/
theorem takeSample_index_in_range (low high : ℚ) (bins : Int) (s0 : Stats) (t0 : TStats)
    (cs : List StatsCall) (tcs : List TStatsCall) (x tx : ℚ)
    (hs : Stats.Stats_histo low high bins = some s0)
    (ht : TStats.TStats_histo low high bins = some t0) :
    (((s0.run cs).histogram.length : Int) = (s0.run cs).nbin + 2 ∧
      ((s0.run cs).takeSample x).histogram = incrAt (s0.run cs).histogram
        (binIndex (s0.run cs).lo (s0.run cs).hi (s0.run cs).nbin (s0.run cs).bin x) ∧
      binIndex (s0.run cs).lo (s0.run cs).hi (s0.run cs).nbin (s0.run cs).bin x <
        (s0.run cs).histogram.length ∧
      0 ≤ (s0.run cs).nbin + 1 ∧ (s0.run cs).nbin + 1 < (s0.run cs).nbin + 2 ∧
      ((s0.run cs).lo ≤ x → x ≤ (s0.run cs).hi →
        1 ≤ toInt ((x - (s0.run cs).lo) / (s0.run cs).bin) + 1 ∧
        toInt ((x - (s0.run cs).lo) / (s0.run cs).bin) + 1 ≤ (s0.run cs).nbin + 1)) ∧
    (((t0.run tcs).histogram.length : Int) = (t0.run tcs).nbin + 2 ∧
      ((t0.run tcs).tnow < tx → ((t0.run tcs).takeSample x tx).state.histogram =
        addAt (t0.run tcs).histogram
          (binIndex (t0.run tcs).lo (t0.run tcs).hi (t0.run tcs).nbin (t0.run tcs).bin x)
          (tx - (t0.run tcs).tnow)) ∧
      binIndex (t0.run tcs).lo (t0.run tcs).hi (t0.run tcs).nbin (t0.run tcs).bin x <
        (t0.run tcs).histogram.length ∧
      0 ≤ (t0.run tcs).nbin + 1 ∧ (t0.run tcs).nbin + 1 < (t0.run tcs).nbin + 2 ∧
      ((t0.run tcs).lo ≤ x → x ≤ (t0.run tcs).hi →
        1 ≤ toInt ((x - (t0.run tcs).lo) / (t0.run tcs).bin) + 1 ∧
        toInt ((x - (t0.run tcs).lo) / (t0.run tcs).bin) + 1 ≤ (t0.run tcs).nbin + 1)) := by
  obtain ⟨hlh, hn, hc0, _, _⟩ := Stats.histo_spec low high bins s0 hs
  obtain ⟨_, _, htc0, _, _⟩ := TStats.histo_spec_timed low high bins t0 ht
  have hc := Stats.configured_run low high bins cs s0 hc0
  have htc := TStats.configured_run_timed low high bins tcs t0 htc0
  refine ⟨⟨?_, Stats.takeSample_histogram _ x hc.1,
      Stats.binIndex_lt_length low high bins _ x hlh hn hc, ?_, by omega, ?_⟩,
    ⟨?_, ?_, TStats.binIndex_lt_length_timed low high bins _ x hlh hn htc, ?_, by omega, ?_⟩⟩
  · rw [hc.2.2.2.2.2, hc.2.2.2.1]; omega
  · rw [hc.2.2.2.1]; omega
  · rw [hc.2.1, hc.2.2.1, hc.2.2.2.1, hc.2.2.2.2.1]
    exact interior_index_bounds low high bins x hlh hn
  · rw [htc.2.2.2.2.2, htc.2.2.2.1]; omega
  · intro htx
    rw [TStats.takeSample_returned _ x tx htx]
    show (if (t0.run tcs).histo then _ else _) = _
    rw [htc.1, if_pos rfl]
  · rw [htc.2.2.2.1]; omega
  · rw [htc.2.1, htc.2.2.1, htc.2.2.2.1, htc.2.2.2.2.1]
    exact interior_index_bounds low high bins x hlh hn

/-- C20, witness: the objects `X(0.,100.,10)` of the two test programs after one sample,
and the sample 100 at the upper bound. -/
theorem takeSample_index_in_range_witness :
    Stats.Stats_histo 0 100 10 = some (Stats.Stats_histo_init 0 100 10).resetStats ∧
    TStats.TStats_histo 0 100 10 = some (TStats.TStats_histo_init 0 100 10).resetTStats ∧
    binIndex (((Stats.Stats_histo_init 0 100 10).resetStats).run [.takeSample 88]).lo
      (((Stats.Stats_histo_init 0 100 10).resetStats).run [.takeSample 88]).hi
      (((Stats.Stats_histo_init 0 100 10).resetStats).run [.takeSample 88]).nbin
      (((Stats.Stats_histo_init 0 100 10).resetStats).run [.takeSample 88]).bin 100 <
      (((Stats.Stats_histo_init 0 100 10).resetStats).run [.takeSample 88]).histogram.length ∧
    binIndex (((TStats.TStats_histo_init 0 100 10).resetTStats).run [.takeSample 88 1]).lo
      (((TStats.TStats_histo_init 0 100 10).resetTStats).run [.takeSample 88 1]).hi
      (((TStats.TStats_histo_init 0 100 10).resetTStats).run [.takeSample 88 1]).nbin
      (((TStats.TStats_histo_init 0 100 10).resetTStats).run [.takeSample 88 1]).bin 100 <
      (((TStats.TStats_histo_init 0 100 10).resetTStats).run
        [.takeSample 88 1]).histogram.length :=
  have hs := Stats.histo_some 0 100 10 (by norm_num) (by norm_num)
  have ht := TStats.histo_some_timed 0 100 10 (by norm_num) (by norm_num)
  have h := takeSample_index_in_range 0 100 10 _ _ [.takeSample 88] [.takeSample 88 1]
    100 2 hs ht
  ⟨hs, ht, h.1.2.2.1, h.2.2.2.1⟩


/-! ## The mean lies between the extrema -/

/-- The sum of a list whose values lie between `a` and `b`. -/
theorem sum_bounds (a b : ℚ) (xs : List ℚ) (h : ∀ x ∈ xs, a ≤ x ∧ x ≤ b) :
    a * xs.length ≤ xs.sum ∧ xs.sum ≤ b * xs.length := by
  induction xs with
  | nil => simp
  | cons x xs ih =>
    obtain ⟨h1, h2⟩ := ih (fun y hy => h y (List.mem_cons_of_mem _ hy))
    obtain ⟨hx1, hx2⟩ := h x (List.mem_cons_self _ _)
    simp only [List.sum_cons, List.length_cons]
    push_cast
    constructor <;> linarith

/-- The time integral of values that lie between `a` and `b`. -/
theorem integral_bounds (a b : ℚ) (samples : List (ℚ × ℚ)) : ∀ t0 : ℚ,
    Increasing t0 samples → (∀ p ∈ samples, a ≤ p.1 ∧ p.1 ≤ b) →
    a * (lastTime t0 samples - t0) ≤ precedingIntegral t0 samples ∧
    precedingIntegral t0 samples ≤ b * (lastTime t0 samples - t0) := by
  induction samples with
  | nil =>
    intro t0 _ _
    show a * (t0 - t0) ≤ 0 ∧ (0 : ℚ) ≤ b * (t0 - t0)
    rw [sub_self, mul_zero, mul_zero]
    exact ⟨le_refl _, le_refl _⟩
  | cons p rest ih =>
    obtain ⟨x, tx⟩ := p
    intro t0 hinc h
    have hc : t0 < tx ∧ Increasing tx rest := List.chain_cons.mp hinc
    obtain ⟨h1, h2⟩ := ih tx hc.2 (fun q hq => h q (List.mem_cons_of_mem _ hq))
    obtain ⟨hx1, hx2⟩ := h (x, tx) (List.mem_cons_self _ _)
    have hd : 0 < tx - t0 := by linarith
    show a * (lastTime tx rest - t0) ≤ x * (tx - t0) + precedingIntegral tx rest ∧
      x * (tx - t0) + precedingIntegral tx rest ≤ b * (lastTime tx rest - t0)
    have e1 : a * (tx - t0) ≤ x * (tx - t0) := mul_le_mul_of_nonneg_right hx1 hd.le
    have e2 : x * (tx - t0) ≤ b * (tx - t0) := mul_le_mul_of_nonneg_right hx2 hd.le
    constructor <;> nlinarith

theorem TStats.takeSample_min_max (s : TStats) (x tx : ℚ) (h : s.tnow < tx) :
    ∃ s1 : TStats, s.takeSample x tx = Outcome.returned s1 ∧ s1.tnow = tx ∧
      s1.min = (if x < s.min then x else s.min) ∧
      s1.max = (if x > s.max then x else s.max) :=
  ⟨_, TStats.takeSample_returned s x tx h, rfl, rfl, rfl⟩

/-- After an increasing feed `min` is at most, and `max` at least, every value fed. -/
theorem TStats.feed_min_max_bounds (samples : List (ℚ × ℚ)) : ∀ s : TStats,
    Increasing s.tnow samples →
    (s.feed samples).state.min ≤ s.min ∧ s.max ≤ (s.feed samples).state.max ∧
    ∀ p ∈ samples, (s.feed samples).state.min ≤ p.1 ∧ p.1 ≤ (s.feed samples).state.max := by
  induction samples with
  | nil =>
    intro s _
    exact ⟨le_refl _, le_refl _, fun p hp => absurd hp (List.not_mem_nil p)⟩
  | cons p rest ih =>
    obtain ⟨x, tx⟩ := p
    intro s hinc
    have hc : s.tnow < tx ∧ Increasing tx rest := List.chain_cons.mp hinc
    obtain ⟨s1, hret, ht1, hm1, hM1⟩ := TStats.takeSample_min_max s x tx hc.1
    rw [TStats.feed_cons_returned s s1 x tx rest hret]
    obtain ⟨h1, h2, h3⟩ := ih s1 (ht1 ▸ hc.2)
    rw [hm1] at h1
    rw [hM1] at h2
    have hmin : (if x < s.min then x else s.min) ≤ s.min ∧
        (if x < s.min then x else s.min) ≤ x := by
      split_ifs with h
      · exact ⟨le_of_lt h, le_refl _⟩
      · exact ⟨le_refl _, not_lt.mp h⟩
    have hmax : s.max ≤ (if x > s.max then x else s.max) ∧
        x ≤ (if x > s.max then x else s.max) := by
      split_ifs with h
      · exact ⟨le_of_lt h, le_refl _⟩
      · exact ⟨le_refl _, not_lt.mp h⟩
    refine ⟨le_trans h1 hmin.1, le_trans hmax.1 h2, ?_⟩
    intro q hq
    rcases List.mem_cons.mp hq with he | hr
    · rw [he]
      exact ⟨le_trans h1 hmin.2, le_trans hmax.2 h2⟩
    · exact h3 q hr


theorem Stats.feed_reset_calcMean (s : Stats) (xs : List ℚ) (hne : xs ≠ [])
    (hlen : xs.length < UINT_MOD) :
    (s.resetStats.feed xs).calcMean = some (xs.sum / xs.length) := by
  have hpos : 0 < xs.length := List.length_pos.mpr hne
  unfold Stats.calcMean
  rw [Stats.feed_reset_count s xs hlen, Stats.feed_sum, if_neg (by omega)]
  show some ((0 + xs.sum) / _) = _
  rw [zero_add]

/-- C21 (as amended): whenever fewer than `2^32` samples were fed, the mean lies between the
tracked extrema: for every non-empty sequence of fewer than `2^32` samples fed to a reset
`Stats`, `calcMean()` succeeds and `calcMin() <= calcMean() <= calcMax()`; and for every
non-empty sequence of samples with strictly increasing positive timestamps fed to a reset
`TStats`, `calcMean()` succeeds and `calcMin() <= calcMean() <= calcMax()` as well. -/
theorem mean_between_extrema (s : Stats) (t : TStats) (xs : List ℚ)
    (samples : List (ℚ × ℚ)) (hne : xs ≠ []) (hlen : xs.length < UINT_MOD)
    (htne : samples ≠ []) (hinc : Increasing 0 samples) :
    ((s.resetStats.feed xs).calcMean = some (xs.sum / xs.length) ∧
      (s.resetStats.feed xs).calcMin ≤ xs.sum / xs.length ∧
      xs.sum / xs.length ≤ (s.resetStats.feed xs).calcMax) ∧
    ((t.resetTStats.feed samples).ok = true ∧
      (t.resetTStats.feed samples).state.calcMean =
        some (precedingIntegral 0 samples / lastTime 0 samples) ∧
      (t.resetTStats.feed samples).state.calcMin ≤
        precedingIntegral 0 samples / lastTime 0 samples ∧
      precedingIntegral 0 samples / lastTime 0 samples ≤
        (t.resetTStats.feed samples).state.calcMax) := by
  constructor
  · have hpos : (0 : ℚ) < xs.length := by
      exact_mod_cast List.length_pos.mpr hne
    obtain ⟨hmin, hmax⟩ := Stats.feed_min_max xs s.resetStats
    obtain ⟨_, a2, _⟩ := runMin_spec xs s.resetStats.min
    obtain ⟨_, b2, _⟩ := runMax_spec xs s.resetStats.max
    rw [← hmin] at a2
    rw [← hmax] at b2
    obtain ⟨c1, c2⟩ := sum_bounds (s.resetStats.feed xs).min (s.resetStats.feed xs).max xs
      (fun x hx => ⟨a2 x hx, b2 x hx⟩)
    refine ⟨Stats.feed_reset_calcMean s xs hne hlen, ?_, ?_⟩
    · show (s.resetStats.feed xs).min ≤ _
      rw [le_div_iff₀ hpos]; exact c1
    · show _ ≤ (s.resetStats.feed xs).max
      rw [div_le_iff₀ hpos]; exact c2
  · obtain ⟨hok, htime, hsum, _, hpos⟩ := TStats.feed_reset_spec t samples htne hinc
    obtain ⟨_, _, h3⟩ := TStats.feed_min_max_bounds samples t.resetTStats hinc
    obtain ⟨c1, c2⟩ := integral_bounds (t.resetTStats.feed samples).state.min
      (t.resetTStats.feed samples).state.max samples 0 hinc h3
    rw [sub_zero] at c1 c2
    refine ⟨hok, ?_, ?_, ?_⟩
    · rw [TStats.calcMean_pos _ (by rw [htime]; exact hpos), hsum, htime]
    · show (t.resetTStats.feed samples).state.min ≤ _
      rw [le_div_iff₀ hpos]; exact c1
    · show _ ≤ (t.resetTStats.feed samples).state.max
      rw [div_le_iff₀ hpos]; exact c2

/-- C21, witness: the samples 3, 1, 2 for `Stats`, and the values 5 and 7 at times 1 and 3
for `TStats`. -/
theorem mean_between_extrema_witness :
    ([3, 1, 2] : List ℚ) ≠ [] ∧ ([3, 1, 2] : List ℚ).length < UINT_MOD ∧
    ([(5, 1), (7, 3)] : List (ℚ × ℚ)) ≠ [] ∧ Increasing 0 [(5, 1), (7, 3)] ∧
    (Stats.blank.resetStats.feed [3, 1, 2]).calcMin ≤
      ([3, 1, 2] : List ℚ).sum / ([3, 1, 2] : List ℚ).length ∧
    precedingIntegral 0 [(5, 1), (7, 3)] / lastTime 0 [(5, 1), (7, 3)] ≤
      (TStats.blank.resetTStats.feed [(5, 1), (7, 3)]).state.calcMax :=
  have hne : ([3, 1, 2] : List ℚ) ≠ [] := List.cons_ne_nil _ _
  have hlen : ([3, 1, 2] : List ℚ).length < UINT_MOD := by decide
  have htne : ([(5, 1), (7, 3)] : List (ℚ × ℚ)) ≠ [] := List.cons_ne_nil _ _
  have hinc : Increasing 0 [(5, 1), (7, 3)] := by
    unfold Increasing; simp
  have h := mean_between_extrema Stats.blank TStats.blank [3, 1, 2] [(5, 1), (7, 3)]
    hne hlen htne hinc
  ⟨hne, hlen, htne, hinc, h.1.2.1, h.2.2.2.2⟩

/-- After `2^32 + 1` samples of value 1 the counter is 1 and `sum` is `2^32 + 1`, so the
mean is `2^32 + 1` while `max` is 1. -/
theorem Stats.mean_wrap (n : Nat) (hn : n = UINT_MOD + 1) :
    ((Stats.Stats_void Stats.blank).feed (List.replicate n 1)).calcMean = some (n : ℚ) ∧
    ((Stats.Stats_void Stats.blank).feed (List.replicate n 1)).calcMax = 1 := by
  have hpos : 0 < n := by omega
  have hne : List.replicate n (1 : ℚ) ≠ [] := by
    intro h
    have := congrArg List.length h
    rw [List.length_replicate] at this
    exact absurd this (by simpa using (Nat.ne_of_gt hpos))
  have hcount : ((Stats.Stats_void Stats.blank).feed (List.replicate n 1)).count = 1 := by
    rw [Stats.feed_count _ _ (show (Stats.Stats_void Stats.blank).count < UINT_MOD by decide),
      List.length_replicate, hn]
    show (0 + (UINT_MOD + 1)) % UINT_MOD = 1
    decide
  have hsum : ((Stats.Stats_void Stats.blank).feed (List.replicate n 1)).sum = (n : ℚ) := by
    rw [Stats.feed_sum, List.sum_replicate]
    show (0 : ℚ) + n • (1 : ℚ) = n
    rw [zero_add, nsmul_eq_mul, mul_one]
  constructor
  · unfold Stats.calcMean
    rw [hcount, hsum, if_neg (by decide)]
    norm_num
  · obtain ⟨_, hmax⟩ := Stats.feed_min_max (List.replicate n 1) (Stats.Stats_void Stats.blank)
    obtain ⟨b1, _⟩ := runMax_mem (List.replicate n 1) (Stats.Stats_void Stats.blank).max hne
      (fun x hx => by
        rw [List.eq_of_mem_replicate hx]
        show -DBL_MAX ≤ 1
        norm_num [DBL_MAX])
    show ((Stats.Stats_void Stats.blank).feed (List.replicate n 1)).max = 1
    rw [hmax]
    exact List.eq_of_mem_replicate b1

/-- C21, counterexample: after `2^32 + 1` samples of value 1 fed to a freshly constructed
`Stats`, `calcMean()` succeeds with `2^32 + 1`, which is above `calcMax() = 1`. -/
theorem mean_between_extrema_counterexample :
    ((Stats.Stats_void Stats.blank).feed (List.replicate 4294967297 1)).calcMean =
      some ((4294967297 : Nat) : ℚ) ∧
    ((Stats.Stats_void Stats.blank).feed (List.replicate 4294967297 1)).calcMax = 1 ∧
    (1 : ℚ) < ((4294967297 : Nat) : ℚ) :=
  ⟨(Stats.mean_wrap 4294967297 (by decide)).1, (Stats.mean_wrap 4294967297 (by decide)).2,
    by norm_num⟩


/-! ## calcErrorMargin: monotonicity and the cap -/

/-- The scan started at 1 on 400 steps: its result and what it satisfies. -/
theorem scan400_spec (c : ℚ) :
    1 ≤ scanLoop 400 c 1 ∧ scanLoop 400 c 1 ≤ 400 ∧
    (scanLoop 400 c 1 < 400 → ZTable.getD (scanLoop 400 c 1) 0 - 0.5 > c / 2.0) ∧
    ∀ j, 1 ≤ j → j < scanLoop 400 c 1 → ¬ (ZTable.getD j 0 - 0.5 > c / 2.0) :=
  scanLoop_spec 400 c 399 1 rfl (by omega)

/-- The index at which the scan ends does not decrease when the level grows. -/
theorem scanLoop_mono (c1 c2 : ℚ) (h : c1 ≤ c2) : scanLoop 400 c1 1 ≤ scanLoop 400 c2 1 := by
  obtain ⟨a1, a2, _, a4⟩ := scan400_spec c1
  obtain ⟨b1, b2, b3, _⟩ := scan400_spec c2
  by_contra hlt
  have hlt' : scanLoop 400 c2 1 < scanLoop 400 c1 1 := Nat.lt_of_not_le hlt
  have hc2 := b3 (by omega)
  have hc1 : ZTable.getD (scanLoop 400 c2 1) 0 - 0.5 > c1 / 2.0 := by
    have : c1 / 2.0 ≤ c2 / 2.0 := by
      apply div_le_div_of_nonneg_right h
      norm_num
    exact lt_of_le_of_lt this hc2
  exact a4 _ b1 hlt' hc1

theorem ZTable_mono (i j : Nat) (hij : i ≤ j) (hj : j < 400) :
    ZTable.getD i 0 ≤ ZTable.getD j 0 := by
  rw [ZTable_getD, ZTable_getD]
  have h := ZTableNum_mono i j hij hj
  have h' : (ZTableNum.getD i 0 : ℚ) ≤ (ZTableNum.getD j 0 : ℚ) := by exact_mod_cast h
  exact div_le_div_of_nonneg_right h' (by norm_num)

/-- C22: `calcErrorMargin` is monotone in the confidence level: for every `stdev >= 0`,
every `count` whose `sqrt(count)` is not negative (so every `count > 0`) and confidence
levels `c1 <= c2` both in `(0.1, 1.0)`, both calls succeed and
`calcErrorMargin(stdev, count, c1) <= calcErrorMargin(stdev, count, c2)`; and `ZTable` is
non-decreasing over its 400 entries. -/
theorem calcErrorMargin_mono (sqrt : ℚ → ℚ) (stdev : ℚ) (count : Int) (c1 c2 : ℚ)
    (hstdev : 0 ≤ stdev) (hsqrt : 0 ≤ sqrt count)
    (h1 : 0.1 < c1) (h12 : c1 ≤ c2) (h2 : c2 < 1.0) :
    (∃ m1 m2 : ℚ, calcErrorMargin sqrt stdev count c1 = some m1 ∧
      calcErrorMargin sqrt stdev count c2 = some m2 ∧ m1 ≤ m2) ∧
    ZTable.length = 400 ∧
    ∀ i j, i ≤ j → j < 400 → ZTable.getD i 0 ≤ ZTable.getD j 0 := by
  refine ⟨⟨((scanLoop 400 c1 1 : Nat) : ℚ) * (4.0 / 400) * stdev / sqrt count,
    ((scanLoop 400 c2 1 : Nat) : ℚ) * (4.0 / 400) * stdev / sqrt count, ?_, ?_, ?_⟩,
    ZTable_length, ZTable_mono⟩
  · rw [calcErrorMargin_eq, if_pos ⟨h1, lt_of_le_of_lt h12 h2⟩]
  · rw [calcErrorMargin_eq, if_pos ⟨lt_of_lt_of_le h1 h12, h2⟩]
  · have hi : ((scanLoop 400 c1 1 : Nat) : ℚ) ≤ ((scanLoop 400 c2 1 : Nat) : ℚ) := by
      exact_mod_cast scanLoop_mono c1 c2 h12
    have hz : ((scanLoop 400 c1 1 : Nat) : ℚ) * (4.0 / 400) * stdev ≤
        ((scanLoop 400 c2 1 : Nat) : ℚ) * (4.0 / 400) * stdev := by
      apply mul_le_mul_of_nonneg_right _ hstdev
      apply mul_le_mul_of_nonneg_right hi
      norm_num
    exact div_le_div_of_nonneg_right hz hsqrt

/-- C22, witness: the levels 0.9 and 0.95 with `stdev = 10`, `count = 100` and a `sqrt`
that maps 100 to 10. -/
theorem calcErrorMargin_mono_witness :
    (0 : ℚ) ≤ 10 ∧ (0 : ℚ) ≤ (fun _ : ℚ => (10 : ℚ)) ((100 : Int) : ℚ) ∧
    (0.1 : ℚ) < 0.9 ∧ (0.9 : ℚ) ≤ 0.95 ∧ (0.95 : ℚ) < 1.0 ∧
    ∃ m1 m2 : ℚ, calcErrorMargin (fun _ => 10) 10 100 0.9 = some m1 ∧
      calcErrorMargin (fun _ => 10) 10 100 0.95 = some m2 ∧ m1 ≤ m2 :=
  ⟨by norm_num, by norm_num, by norm_num, by norm_num, by norm_num,
    (calcErrorMargin_mono (fun _ => 10) 10 100 0.9 0.95 (by norm_num) (by norm_num)
      (by norm_num) (by norm_num) (by norm_num)).1⟩

theorem scanReads_eq (steps : Nat) (c : ℚ) (i : Nat) :
    scanReads steps c i =
      if i < steps then
        if (ZTable.getD i 0 - 0.5) > (c / 2.0) then [i] else i :: scanReads steps c (i + 1)
      else [] := by
  rw [scanReads]

/-- The loop reads the table at the consecutive indices from `i` up to the index at which
it ends, or up to `steps - 1` when it runs to the end. -/
theorem scanReads_spec (steps : Nat) (c : ℚ) : ∀ n i, steps - i = n →
    scanReads steps c i = List.range' i (min (scanLoop steps c i + 1) steps - i) := by
  intro n
  induction n with
  | zero =>
    intro i hn
    have hnot : ¬ i < steps := by omega
    rw [scanReads_eq, if_neg hnot, scanLoop_eq, if_neg hnot]
    have h0 : min (i + 1) steps - i = 0 := by omega
    rw [h0]
    rfl
  | succ n ih =>
    intro i hn
    have hlt : i < steps := by omega
    rw [scanReads_eq, if_pos hlt, scanLoop_eq, if_pos hlt]
    by_cases hc : ZTable.getD i 0 - 0.5 > c / 2.0
    · rw [if_pos hc, if_pos hc]
      have h1 : min (i + 1) steps - i = 1 := by omega
      rw [h1]
      rfl
    · rw [if_neg hc, if_neg hc, ih (i + 1) (by omega)]
      obtain ⟨a1, _, _, _⟩ := scanLoop_spec steps c (steps - (i + 1)) (i + 1) rfl (by omega)
      have h2 : min (scanLoop steps c (i + 1) + 1) steps - i =
          (min (scanLoop steps c (i + 1) + 1) steps - (i + 1)) + 1 := by omega
      rw [h2, List.range'_succ]

set_option maxRecDepth 100000 in
theorem ZTableNum_at_399 : ZTableNum.getD 399 0 = 99997 := by decide

/-- C23: for every accepted confidence level `c` in `(0.1, 1.0)`, the scan in
`calcErrorMargin` reads `ZTable` only at indices 1..399 (the consecutive indices from 1 up
to the index where it stops) and ends with an index `i` with `1 <= i <= 400`, so the z-score
`i * (4.0/400)` is at most 4.0; `i = 400` results exactly when no entry `ZTable[1..399]`
satisfies `ZTable[i] - 0.5 > c/2`, which is exactly when `c/2 >= 0.49997`, and then the
margin is `4.0 * stdev / sqrt(count)`. -/
theorem calcErrorMargin_cap (sqrt : ℚ → ℚ) (stdev : ℚ) (count : Int) (c : ℚ)
    (h1 : 0.1 < c) (h2 : c < 1.0) :
    ∃ i : Nat, calcErrorMargin sqrt stdev count c =
        some ((i : ℚ) * (4.0 / 400) * stdev / sqrt count) ∧
      1 ≤ i ∧ i ≤ 400 ∧ (i : ℚ) * (4.0 / 400) ≤ 4.0 ∧
      (∀ j ∈ scanReads 400 c 1, 1 ≤ j ∧ j ≤ 399) ∧
      scanReads 400 c 1 = List.range' 1 (min (i + 1) 400 - 1) ∧
      (i = 400 ↔ ∀ j, 1 ≤ j → j ≤ 399 → ¬ (ZTable.getD j 0 - 0.5 > c / 2)) ∧
      (i = 400 ↔ c / 2 ≥ 0.49997) ∧
      (c / 2 ≥ 0.49997 →
        calcErrorMargin sqrt stdev count c = some (4.0 * stdev / sqrt count)) := by
  have h20 : c / 2.0 = c / 2 := by norm_num
  obtain ⟨a1, a2, a3, a4⟩ := scan400_spec c
  rw [h20] at a3
  have hreads := scanReads_spec 400 c 399 1 rfl
  have hmargin : calcErrorMargin sqrt stdev count c =
      some (((scanLoop 400 c 1 : Nat) : ℚ) * (4.0 / 400) * stdev / sqrt count) := by
    rw [calcErrorMargin_eq, if_pos ⟨h1, h2⟩]
  have hlarge : c / 2 ≥ 0.49997 → scanLoop 400 c 1 = 400 := by
    intro hc
    have hc' : (0.99994 : ℚ) ≤ c := by norm_num at hc ⊢; linarith
    rcases Nat.lt_or_ge (scanLoop 400 c 1) 400 with hlt | hge
    · have := a3 hlt
      rw [← h20] at this
      exact absurd this (not_above_of_large c hc' _)
    · exact le_antisymm a2 hge
  refine ⟨scanLoop 400 c 1, hmargin, a1, a2, ?_, ?_, hreads, ?_, ?_, ?_⟩
  · have : ((scanLoop 400 c 1 : Nat) : ℚ) ≤ 400 := by exact_mod_cast a2
    norm_num
    linarith
  · intro j hj
    rw [hreads, List.mem_range'_1] at hj
    omega
  · constructor
    · intro hi j hj1 hj2
      rw [← h20]
      exact a4 j hj1 (by omega)
    · intro hall
      rcases Nat.lt_or_ge (scanLoop 400 c 1) 400 with hlt | hge
      · exact absurd (a3 hlt) (hall _ a1 (by omega))
      · exact le_antisymm a2 hge
  · constructor
    · intro hi
      have h399 := a4 399 (by omega) (by omega)
      rw [above_iff, ZTableNum_at_399] at h399
      have : (50000 : ℚ) + 50000 * c ≥ 99997 := by
        have := not_lt.mp h399
        exact_mod_cast this
      norm_num
      linarith
    · exact hlarge
  · intro hc
    rw [hmargin, hlarge hc]
    norm_num

/-- C23, witness: the confidence level 0.95 with `stdev = 10`, `count = 100`. -/
theorem calcErrorMargin_cap_witness :
    (0.1 : ℚ) < 0.95 ∧ (0.95 : ℚ) < 1.0 ∧
    ∃ i : Nat, calcErrorMargin id 10 100 0.95 =
        some ((i : ℚ) * (4.0 / 400) * 10 / id ((100 : Int) : ℚ)) ∧
      1 ≤ i ∧ i ≤ 400 ∧ (i : ℚ) * (4.0 / 400) ≤ 4.0 ∧
      (∀ j ∈ scanReads 400 0.95 1, 1 ≤ j ∧ j ≤ 399) ∧
      scanReads 400 0.95 1 = List.range' 1 (min (i + 1) 400 - 1) ∧
      (i = 400 ↔ ∀ j, 1 ≤ j → j ≤ 399 → ¬ (ZTable.getD j 0 - 0.5 > (0.95 : ℚ) / 2)) ∧
      (i = 400 ↔ (0.95 : ℚ) / 2 ≥ 0.49997) ∧
      ((0.95 : ℚ) / 2 ≥ 0.49997 →
        calcErrorMargin id 10 100 0.95 = some (4.0 * 10 / id ((100 : Int) : ℚ))) :=
  ⟨by norm_num, by norm_num, calcErrorMargin_cap id 10 100 0.95 (by norm_num) (by norm_num)⟩

end shk
